import Mathlib

/-!
The authentication manager of sa-token-go (`core/manager/manager.go`).

A shallow embedding of the Manager of sa-token-go and of the parts of its
environment it calls (Go's `strings` package, the storage adapter, the session
store), followed by the properties proved about it.

Go strings are modelled by Lean `String`s. Go's `strings` functions work on
bytes; on well-formed UTF-8 text the byte-wise prefix, suffix, substring and
split-on-an-ASCII-separator relations coincide with the character-wise ones used
here.
-/

set_option autoImplicit false

namespace SaToken

/-! ## Go's `strings` package -/

namespace strings

/-- Go `strings.HasPrefix(s, prefix)`. -/
def HasPrefix (s pre : String) : Bool := pre.data.isPrefixOf s.data

/-- Go `strings.HasSuffix(s, suffix)`. -/
def HasSuffix (s suf : String) : Bool := suf.data.isSuffixOf s.data

/-- Go `strings.TrimSuffix(s, suffix)`: `s` without the trailing `suffix`, or `s`
itself when it does not end in `suffix`. -/
def TrimSuffix (s suf : String) : String :=
  if HasSuffix s suf then ⟨s.data.take (s.data.length - suf.data.length)⟩ else s

/-- Whether `sub` occurs in `cs` at some position. -/
def containsAt (sub : List Char) : List Char → Bool
  | [] => sub.isPrefixOf []
  | c :: cs => sub.isPrefixOf (c :: cs) || containsAt sub cs

/-- Go `strings.Contains(s, substr)`. -/
def Contains (s sub : String) : Bool := containsAt sub.data s.data

/-- The scan of `strings.Split` for a non-empty separator: `skip` counts the
characters of a separator just recognised that are still to be passed over, `acc`
holds the current piece in reverse. -/
def splitScan (sep : List Char) : Nat → List Char → List Char → List String
  | _, [], acc => [⟨acc.reverse⟩]
  | skip + 1, _ :: cs, acc => splitScan sep skip cs acc
  | 0, c :: cs, acc =>
    if sep.isPrefixOf (c :: cs) then
      ⟨acc.reverse⟩ :: splitScan sep (sep.length - 1) cs []
    else
      splitScan sep 0 cs (c :: acc)

/-- Go `strings.Split(s, sep)`: the pieces of `s` between the (leftmost,
non-overlapping) occurrences of `sep`; with an empty `sep` it cuts after every
character. A string without `sep` gives the one-element list `[s]`. -/
def Split (s sep : String) : List String :=
  if sep.data = [] then s.data.map (fun c => ⟨[c]⟩)
  else splitScan sep.data 0 s.data []

end strings

/-! ## Constants (`manager.go`, lines 17-46) -/

def DefaultDevice : String := "default"
def DefaultPrefix : String := "satoken"
def DisableValue : String := "1"

def TokenKeyPrefix : String := "token:"
def AccountKeyPrefix : String := "account:"
def DisableKeyPrefix : String := "disable:"

def SessionKeyLoginID : String := "loginId"
def SessionKeyDevice : String := "device"
def SessionKeyLoginTime : String := "loginTime"
def SessionKeyPermissions : String := "permissions"
def SessionKeyRoles : String := "roles"

def PermissionWildcard : String := "*"
def PermissionSeparator : String := ":"

/-! ## Permission matching (`manager.go`, lines 441-471) -/

/-- The loop `for i, part := range parts` of `matchPermission`, from index `i` on.
`none` is the run-time panic of an out-of-range `permParts[i]`; as in Go the
index expression is evaluated only when `part != PermissionWildcard`. -/
def matchPermissionLoop (permParts : List String) : Nat → List String → Option Bool
  | _, [] => some true
  | i, part :: rest =>
    if part ≠ PermissionWildcard then
      match permParts[i]? with
      | none => none
      | some q => if part ≠ q then some false else matchPermissionLoop permParts (i + 1) rest
    else matchPermissionLoop permParts (i + 1) rest

/-- `Manager.matchPermission` with the index check of Go made explicit: `none`
stands for a panic. The receiver is not used by the function. -/
def matchPermissionRun (pattern permission : String) : Option Bool :=
  if pattern = PermissionWildcard ∨ pattern = permission then some true
  else
    let wildcardSuffix := PermissionSeparator ++ PermissionWildcard
    if strings.HasSuffix pattern wildcardSuffix then
      let pre := strings.TrimSuffix pattern PermissionWildcard
      some (strings.HasPrefix permission pre)
    else if strings.Contains pattern PermissionWildcard then
      let parts := strings.Split pattern PermissionSeparator
      let permParts := strings.Split permission PermissionSeparator
      if parts.length ≠ permParts.length then some false
      else matchPermissionLoop permParts 0 parts
    else some false

/-- `Manager.matchPermission`: the boolean the function returns; the default stands
for the panic, which is proved below never to happen. -/
def matchPermission (pattern permission : String) : Bool :=
  (matchPermissionRun pattern permission).getD false

/-! ## Errors and stored values -/

/-- Go `error` values met by the Manager: its four sentinel errors
(`manager.go`, lines 41-46), the error kinds of the refresh-token manager and of
the OAuth2 server named by the specification (§7), an error made by `fmt.Errorf`
around a cause (`%w`), and any other error, given by its message (a formatted
message, or a failure reported by the storage adapter or by the token
generator). -/
inductive Error where
  | ErrAccountDisabled
  | ErrNotLogin
  | ErrTokenNotFound
  | ErrInvalidTokenData
  | ErrInvalidRefreshToken
  | ErrInvalidClient
  | ErrInvalidCode
  | ErrInvalidRedirectURI
  | wrap (msg : String) (cause : Error)
  | message (msg : String)
  deriving DecidableEq, Repr

/-- An element of a Go `[]any` slice: a string or something that is not a string. -/
inductive Item where
  | str (s : String)
  | num (n : Int)
  deriving DecidableEq, Repr

/-- A Go `any` value kept in a session. -/
inductive Value where
  | str (s : String)
  | int (n : Int)
  | strSlice (xs : List String)
  | anySlice (xs : List Item)
  deriving DecidableEq, Repr

/-- A Go `any` payload kept by the storage adapter: a plain value, the persisted
form of a session (its id and its data), or the persisted form of another
record (its fields by name). -/
inductive Stored where
  | value (v : Value)
  | session (id : String) (data : List (String × Value))
  | record (fields : List (String × Value))
  deriving DecidableEq, Repr

/-- `assertString` (`manager.go`, lines 109-113): the type assertion `v.(string)`;
`some s` is the result `(s, true)`, `none` is `("", false)`. -/
def assertString : Stored → Option String
  | .value (.str s) => some s
  | _ => none

/-! ## Key-value lists -/

/-- The value bound to `k` in a key-value list (the first binding counts). -/
def lookupKey {β : Type} (k : String) : List (String × β) → Option β
  | [] => none
  | e :: es => if e.1 = k then some e.2 else lookupKey k es

/-- The key-value list without the bindings of `k`. -/
def removeKey {β : Type} (k : String) : List (String × β) → List (String × β)
  | [] => []
  | e :: es => if e.1 = k then removeKey k es else e :: removeKey k es

/-! ## The storage adapter -/

/-- What the storage holds under one key: the payload and the TTL it was written
with, in nanoseconds (`time.Duration`); 0 means no expiry. -/
structure Entry where
  value : Stored
  ttl : Int
  deriving DecidableEq, Repr

/-- Modelled from the spec: the storage adapter (`adapter.Storage`, §4.1 and §6),
whose declaration and implementations are not among the sources. It is an
expiring key-value map, observed at one instant (no time passes between the
calls of one operation). `entries` is the map; the `fail*` fields say for which
keys a call of that kind reports an I/O failure, and with which error. -/
structure Storage where
  entries : List (String × Entry)
  failSet : String → Option Error
  failGet : String → Option Error
  failDelete : String → Option Error
  failExpire : String → Option Error
  failKeys : String → Option Error
  failTTL : String → Option Error

namespace Storage

/-- A storage with the given entries on which no call fails. -/
def ofEntries (es : List (String × Entry)) : Storage :=
  ⟨es, fun _ => none, fun _ => none, fun _ => none, fun _ => none, fun _ => none,
    fun _ => none⟩

/-- The empty storage on which no call fails (`memory.NewStorage()`). -/
def empty : Storage := ofEntries []

/-- The entry under `key`, if any. -/
def find (s : Storage) (key : String) : Option Entry := lookupKey key s.entries

/-- `Set(key, value, ttl)`: on success the entry under `key` is replaced; a failed
call changes nothing. -/
def Set (s : Storage) (key : String) (value : Stored) (ttl : Int) : Option Error × Storage :=
  match s.failSet key with
  | some e => (some e, s)
  | none =>
    (none, { s with entries := (key, ⟨value, ttl⟩) :: removeKey key s.entries })

/-- `Get(key)`: the payload under `key`; `.ok none` is Go's `(nil, nil)` for an
absent key. -/
def Get (s : Storage) (key : String) : Except Error (Option Stored) :=
  match s.failGet key with
  | some e => .error e
  | none => .ok ((s.find key).map Entry.value)

/-- `Delete(key)`: removes the entry under `key`; deleting an absent key is not an
error; a failed call changes nothing. -/
def Delete (s : Storage) (key : String) : Option Error × Storage :=
  match s.failDelete key with
  | some e => (some e, s)
  | none => (none, { s with entries := removeKey key s.entries })

/-- `Exists(key)`. -/
def Exists (s : Storage) (key : String) : Bool := (s.find key).isSome

/-- `Expire(key, ttl)`: gives the entry under `key`, if there is one, the TTL `ttl`. -/
def Expire (s : Storage) (key : String) (ttl : Int) : Option Error × Storage :=
  match s.failExpire key with
  | some e => (some e, s)
  | none =>
    let es := s.entries.map (fun kv => if kv.1 = key then (kv.1, (⟨kv.2.value, ttl⟩ : Entry)) else kv)
    (none, { s with entries := es })

/-- The trailing-`*` glob of `Keys` (§6): a pattern that ends in `*` matches the keys
that start with the pattern minus that `*`; any other pattern matches itself. -/
def globMatch (pattern key : String) : Bool :=
  if strings.HasSuffix pattern "*" then strings.HasPrefix key (strings.TrimSuffix pattern "*")
  else decide (pattern = key)

/-- `Keys(pattern)`: the keys present that match the pattern, in the order of the
entries. -/
def Keys (s : Storage) (pattern : String) : Except Error (List String) :=
  match s.failKeys pattern with
  | some e => .error e
  | none => .ok ((s.entries.map Prod.fst).filter (fun k => globMatch pattern k))

/-- `TTL(key)`: the remaining time to live of the entry under `key`; at the instant
the storage is observed that is the TTL the entry was written with. For an
absent key the model reports -2 seconds, the "key does not exist" convention of
TTL-bearing stores that the specification refers to (§4.3). -/
def TTL (s : Storage) (key : String) : Except Error Int :=
  match s.failTTL key with
  | some e => .error e
  | none =>
    match s.find key with
    | some entry => .ok entry.ttl
    | none => .ok (-2 * 1000000000)

/-- The keys of the storage are pairwise different. -/
def WF (s : Storage) : Prop := (s.entries.map Prod.fst).Nodup

instance (s : Storage) : Decidable s.WF :=
  inferInstanceAs (Decidable (s.entries.map Prod.fst).Nodup)

/-- No call of the storage reports a failure. -/
def Healthy (s : Storage) : Prop :=
  (∀ k, s.failSet k = none) ∧ (∀ k, s.failGet k = none) ∧
  (∀ k, s.failDelete k = none) ∧ (∀ k, s.failExpire k = none) ∧
  (∀ k, s.failKeys k = none) ∧ (∀ k, s.failTTL k = none)

end Storage

/-! ## The session store -/

/-- The key namespace of sessions. -/
def SessionKeyPrefix : String := "session:"

/-- Modelled from the spec: a session (package `session`, §3 and §4.4, not among
the sources): the per-identity key/value bag, held in memory as `Data` and
persisted through the storage adapter under the session-scoped key
`keyPrefix ++ "session:" ++ ID`. -/
structure Session where
  ID : String
  Data : List (String × Value)
  keyPrefix : String
  deriving DecidableEq, Repr

namespace Session

/-- The storage key of the session. -/
def getStorageKey (sess : Session) : String := sess.keyPrefix ++ SessionKeyPrefix ++ sess.ID

/-- Modelled from the spec: `session.NewSession(id, storage, prefix)` constructs an
empty session (§4.4); nothing is written until the first `Set`. -/
def NewSession (id : String) (keyPrefix : String) : Session := ⟨id, [], keyPrefix⟩

/-- Modelled from the spec: `session.Load(id, storage, prefix)` restores an existing
session or signals absence (§4.4). -/
def Load (id : String) (s : Storage) (keyPrefix : String) : Except Error Session :=
  match s.Get (keyPrefix ++ SessionKeyPrefix ++ id) with
  | .error e => .error e
  | .ok none => .error (.message "session not found")
  | .ok (some (.session sid data)) => .ok ⟨sid, data, keyPrefix⟩
  | .ok (some _) => .error (.message "invalid session data")

/-- Modelled from the spec: `sess.Get(key)` returns `(value, found)` (§4.4); `some v`
is `(v, true)` and `none` is `(nil, false)`. -/
def Get (sess : Session) (key : String) : Option Value := lookupKey key sess.Data

/-- Modelled from the spec: `sess.Set(key, value)` on a session kept as one
serialized blob under its session-scoped key is a full read-modify-write (§4.4):
it reads the stored blob, sets `key` in the stored map (in the session's own map
if no session is stored), and writes the blob back with no expiry. A failed read
is returned and nothing is written; the result of the write is returned. -/
def Set (sess : Session) (s : Storage) (key : String) (value : Value) :
    Option Error × Session × Storage :=
  match s.Get sess.getStorageKey with
  | .error e => (some e, sess, s)
  | .ok stored =>
    let base : List (String × Value) :=
      match stored with
      | some (.session _ data) => data
      | _ => sess.Data
    let sess1 : Session :=
      { sess with Data := (key, value) :: removeKey key base }
    let r := s.Set sess1.getStorageKey (.session sess1.ID sess1.Data) 0
    (r.1, sess1, r.2)

end Session

/-! ## The Manager (`manager.go`) -/

/-- Modelled from the spec: the nine token styles of the configuration (§4.2, §6);
the packages `config` and `token` are not among the sources, only the tests of
`token` are. -/
inductive TokenStyle where
  | UUID
  | Simple
  | Random32
  | Random64
  | Random128
  | JWT
  | Hash
  | Timestamp
  | Tik
  deriving DecidableEq, Repr

/-- The fields of `config.Config` that the Manager and the token generator read (the
declaration is not among the sources). `Timeout` is an `int64` number of
seconds. -/
structure Config where
  KeyPrefix : String
  Timeout : Int
  IsConcurrent : Bool
  AutoRenew : Bool
  TokenStyle : TokenStyle := .UUID
  JwtSecretKey : String := ""
  deriving DecidableEq, Repr

/-- The fields of `Manager` used by the operations below; the storage is passed
explicitly as state, the generator as the function it computes at the call. -/
structure Manager where
  config : Config
  keyPrefix : String
  deriving DecidableEq, Repr

/-- `NewManager` (lines 69-89) for a non-nil configuration. -/
def NewManager (cfg : Config) : Manager :=
  { config := cfg, keyPrefix := if cfg.KeyPrefix = "" then DefaultPrefix else cfg.KeyPrefix }

/-- The token generator at one call: `m.generator.Generate(loginID, device)`. -/
abbrev Generate := String → String → Except Error String

/-! ## The token generator -/

/-- Modelled from the spec: what one call of the token generator takes from outside
the program (§4.2: "pure computation plus a random source"): the random source
(`rand i` is the i-th number drawn), the clock in seconds, a SHA-256-class digest
of a text (`digest x i` is its byte `i`, of 32), the encoding of a text into the
token alphabet, and the signature of a text under a secret. -/
structure GenEnv where
  rand : Nat → Nat
  now : Nat
  digest : String → Nat → Nat
  encode : String → String
  sign : String → String → String

/-- The hexadecimal digits. -/
def hexAlphabet : List Char := "0123456789abcdef".data

/-- The digits and letters `0-9`, `A-Z`, `a-z`. -/
def alnumAlphabet : List Char :=
  "0123456789ABCDEFGHIJKLMNOPQRSTUVWXYZabcdefghijklmnopqrstuvwxyz".data

/-- The character of the alphabet chosen by the number `n`. -/
def pickChar (alphabet : List Char) (n : Nat) : Char :=
  alphabet.getD (n % alphabet.length) '0'

/-- The `len` random characters of the alphabet drawn from position `start` on. -/
def randomChars (env : GenEnv) (alphabet : List Char) (start len : Nat) : List Char :=
  (List.range len).map (fun i => pickChar alphabet (env.rand (start + i)))

/-- The two hexadecimal digits of a byte. -/
def hexOfByte (b : Nat) : List Char := [pickChar hexAlphabet (b / 16), pickChar hexAlphabet b]

namespace Generator

/-- Modelled from the spec: `Generator.Generate(loginID, device)` (§4.2), which is not
among the sources. UUID, Simple and Random32/64/128 are fixed-length random
hexadecimal or alphanumeric strings (a UUID in its usual 8-4-4-4-12 layout, 16
characters for Simple: the specification gives no lengths for these two); JWT
signs the claims login ID, device, issued-at and expiry with the configured
secret and fails when no secret is set; Hash is the 64-character hexadecimal
digest of login ID, device and a random salt; Timestamp has the layout
`timestamp_loginID_random`; Tik is 11 alphanumeric characters. -/
def Generate (cfg : Config) (env : GenEnv) (loginID device : String) : Except Error String :=
  match cfg.TokenStyle with
  | .UUID =>
    .ok ⟨randomChars env hexAlphabet 0 8 ++ '-' :: randomChars env hexAlphabet 8 4 ++
      '-' :: randomChars env hexAlphabet 12 4 ++ '-' :: randomChars env hexAlphabet 16 4 ++
      '-' :: randomChars env hexAlphabet 20 12⟩
  | .Simple => .ok ⟨randomChars env alnumAlphabet 0 16⟩
  | .Random32 => .ok ⟨randomChars env alnumAlphabet 0 32⟩
  | .Random64 => .ok ⟨randomChars env alnumAlphabet 0 64⟩
  | .Random128 => .ok ⟨randomChars env alnumAlphabet 0 128⟩
  | .JWT =>
    if cfg.JwtSecretKey = "" then .error (.message "jwt secret key is not set")
    else
      let header := env.encode "alg=HS256,typ=JWT"
      let claims := env.encode
        (loginID ++ "," ++ device ++ "," ++ toString env.now ++ "," ++
          toString ((env.now : Int) + cfg.Timeout))
      .ok (header ++ "." ++ claims ++ "." ++ env.sign (header ++ "." ++ claims) cfg.JwtSecretKey)
  | .Hash =>
    let salt : String := ⟨randomChars env hexAlphabet 0 16⟩
    let text := loginID ++ device ++ salt
    .ok ⟨(List.range 32).flatMap (fun i => hexOfByte (env.digest text i % 256))⟩
  | .Timestamp =>
    .ok (toString env.now ++ "_" ++ loginID ++ "_" ++ ⟨randomChars env alnumAlphabet 0 8⟩)
  | .Tik => .ok ⟨randomChars env alnumAlphabet 0 11⟩

end Generator

/-- `TokenInfo` (lines 48-55). -/
structure TokenInfo where
  LoginID : String
  Device : String
  CreateTime : Int
  ActiveTime : Int
  Tag : String
  deriving DecidableEq, Repr

/-- The value of an `int64` computation: the representative in [-2^63, 2^63). -/
def wrapInt64 (x : Int) : Int := (x + 2 ^ 63) % 2 ^ 64 - 2 ^ 63

/-- `time.Second` in nanoseconds. -/
def Second : Int := 1000000000

/-! ## `time.Duration.Seconds` -/

/-- The exponent of the leading bit of `n`: the `e` with `2^e ≤ n < 2^(e+1)` for
`n > 0`, by repeated halving; `fuel` bounds the number of steps. -/
def log2Floor : Nat → Nat → Nat
  | 0, _ => 0
  | fuel + 1, n => if n < 2 then 0 else log2Floor fuel (n / 2) + 1

/-- The binary64 number nearest to the positive rational `a / b` (round to nearest,
ties to even, 53-bit significand; the exponent range is not a limit for the
values met here), as a fraction `(numerator, denominator)`. `e` is the exponent
with `2^e ≤ a/b < 2^(e+1)`, found from the bit lengths of `a` and `b`; the
quotient scaled by `2^(52-e)` is rounded to an integer significand. -/
def roundBinary64 (a b : Nat) : Nat × Nat :=
  let e0 : Int := (log2Floor a a : Int) - (log2Floor b b : Int)
  let ge : Bool :=
    if e0 ≥ 0 then decide (b * 2 ^ e0.toNat ≤ a) else decide (b ≤ a * 2 ^ (-e0).toNat)
  let e : Int := if ge then e0 else e0 - 1
  let sh : Int := 52 - e
  let n : Nat := if sh ≥ 0 then a * 2 ^ sh.toNat else a
  let d : Nat := if sh ≥ 0 then b else b * 2 ^ (-sh).toNat
  let m0 := n / d
  let r := n % d
  let m := if 2 * r > d ∨ (2 * r = d ∧ m0 % 2 = 1) then m0 + 1 else m0
  if sh ≥ 0 then (m, 2 ^ sh.toNat) else (m * 2 ^ (-sh).toNat, 1)

/-- Go `Duration.Seconds()` for a duration of `d ≥ 0` nanoseconds, which the
standard library computes as `float64(sec) + float64(nsec)/1e9` with
`sec = d / Second` and `nsec = d % Second`: the binary64 result as a fraction.
The two conversions are exact (`sec < 2^53`, `nsec < 10^9`); the division and the
addition each round to binary64. -/
def secondsFloat (d : Nat) : Nat × Nat :=
  let sec := d / 1000000000
  let nsec := d % 1000000000
  let q : Nat × Nat := if nsec = 0 then (0, 1) else roundBinary64 nsec 1000000000
  let num := sec * q.2 + q.1
  if num = 0 then (0, 1) else roundBinary64 num q.2

/-- The expression `int64(ttl.Seconds())`: the conversion to `int64` truncates toward
zero; for a negative duration `sec` and `nsec` are negative and the computation
is the mirror image of the one for `-ttl`. -/
def secondsInt64 (ttl : Int) : Int :=
  if ttl ≥ 0 then
    (((secondsFloat ttl.toNat).1 / (secondsFloat ttl.toNat).2 : Nat) : Int)
  else
    -(((secondsFloat (-ttl).toNat).1 / (secondsFloat (-ttl).toNat).2 : Nat) : Int)

/-! ## The nonce manager -/

/-- `DefaultNonceTTL` (line 21): five minutes. -/
def DefaultNonceTTL : Int := 5 * 60 * Second

/-- The key namespace of nonces. -/
def NonceKeyPrefix : String := "nonce:"

/-- Modelled from the spec: the nonce manager (`security.NonceManager`, §3 and §4.5,
not among the sources), made by `NewNonceManager(storage, prefix, ttl)`. -/
structure NonceManager where
  keyPrefix : String
  ttl : Int
  deriving DecidableEq, Repr

namespace NonceManager

/-- The storage key of a nonce. -/
def getNonceKey (nm : NonceManager) (nonce : String) : String :=
  nm.keyPrefix ++ NonceKeyPrefix ++ nonce

/-- Modelled from the spec: `Generate()` creates a random value, stores it with the
fixed TTL and returns it (§4.5). -/
def Generate (nm : NonceManager) (env : GenEnv) (s : Storage) :
    (String × Option Error) × Storage :=
  let nonce : String := ⟨randomChars env hexAlphabet 0 32⟩
  match s.Set (nm.getNonceKey nonce) (.value (.int env.now)) nm.ttl with
  | (some err, s1) => (("", some err), s1)
  | (none, s1) => ((nonce, none), s1)

/-- Modelled from the spec: `Verify(nonce)` performs check-and-delete: it returns true
only when the nonce is present and has been deleted by this call (§4.5). -/
def Verify (nm : NonceManager) (s : Storage) (nonce : String) : Bool × Storage :=
  if !s.Exists (nm.getNonceKey nonce) then (false, s)
  else
    match s.Delete (nm.getNonceKey nonce) with
    | (some _, s1) => (false, s1)
    | (none, s1) => (true, s1)

end NonceManager

/-! ## The refresh-token manager -/

/-- The key namespace of refresh tokens. -/
def RefreshKeyPrefix : String := "refresh:"

/-- The key namespace of the access tokens issued with refresh tokens. -/
def AccessKeyPrefix : String := "access:"

/-- The TTL of a refresh token: thirty days (the specification says "long"). -/
def RefreshTokenTTL : Int := 30 * 24 * 3600 * Second

/-- `security.RefreshTokenInfo`: the pair `accessToken`, `refreshToken` with its
`expireTime` (§3), and the identity it was issued for. -/
structure RefreshTokenInfo where
  AccessToken : String
  RefreshToken : String
  LoginID : String
  Device : String
  ExpireTime : Int
  deriving DecidableEq, Repr

/-- Modelled from the spec: the refresh-token manager (`security.RefreshTokenManager`,
§3 and §4.6, not among the sources), made by
`NewRefreshTokenManager(storage, prefix, cfg)`. -/
structure RefreshTokenManager where
  keyPrefix : String
  config : Config
  deriving DecidableEq, Repr

namespace RefreshTokenManager

/-- The storage key of a refresh token. -/
def getRefreshKey (rm : RefreshTokenManager) (refreshToken : String) : String :=
  rm.keyPrefix ++ RefreshKeyPrefix ++ refreshToken

/-- The storage key of an access token. -/
def getAccessKey (rm : RefreshTokenManager) (accessToken : String) : String :=
  rm.keyPrefix ++ AccessKeyPrefix ++ accessToken

/-- The TTL of an access token: the configured timeout. -/
def accessTTL (rm : RefreshTokenManager) : Int :=
  if rm.config.Timeout > 0 then wrapInt64 (rm.config.Timeout * Second) else 0

/-- Modelled from the spec: `GenerateTokenPair(loginID, device)` issues both tokens
through the token generator (`envA` and `envR` are the environments of the two
calls), stores the refresh token keyed to the identity with a long TTL and the
access token with a shorter TTL (§4.6). -/
def GenerateTokenPair (rm : RefreshTokenManager) (envA envR : GenEnv) (s : Storage)
    (loginID device : String) : Except Error RefreshTokenInfo × Storage :=
  match Generator.Generate rm.config envA loginID device with
  | .error err => (.error err, s)
  | .ok accessToken =>
    match Generator.Generate rm.config envR loginID device with
    | .error err => (.error err, s)
    | .ok refreshToken =>
      match s.Set (rm.getRefreshKey refreshToken)
          (.record [("loginId", .str loginID), ("device", .str device)]) RefreshTokenTTL with
      | (some err, s1) => (.error err, s1)
      | (none, s1) =>
        match s1.Set (rm.getAccessKey accessToken) (.value (.str loginID)) rm.accessTTL with
        | (some err, s2) => (.error err, s2)
        | (none, s2) =>
          (.ok ⟨accessToken, refreshToken, loginID, device, envA.now + rm.config.Timeout⟩, s2)

/-- Modelled from the spec: `RefreshAccessToken(refreshToken)` looks up the refresh
token, fails with `InvalidRefreshToken` if it is absent, and otherwise issues a
new access token and returns it paired with the same refresh token value and a
refreshed expiry (§4.6). -/
def RefreshAccessToken (rm : RefreshTokenManager) (env : GenEnv) (s : Storage)
    (refreshToken : String) : Except Error RefreshTokenInfo × Storage :=
  match s.Get (rm.getRefreshKey refreshToken) with
  | .ok (some (.record fields)) =>
    match lookupKey "loginId" fields, lookupKey "device" fields with
    | some (.str loginID), some (.str device) =>
      match Generator.Generate rm.config env loginID device with
      | .error err => (.error err, s)
      | .ok accessToken =>
        match s.Set (rm.getAccessKey accessToken) (.value (.str loginID)) rm.accessTTL with
        | (some err, s1) => (.error err, s1)
        | (none, s1) =>
          (.ok ⟨accessToken, refreshToken, loginID, device, env.now + rm.config.Timeout⟩, s1)
    | _, _ => (.error .ErrInvalidRefreshToken, s)
  | _ => (.error .ErrInvalidRefreshToken, s)

/-- Modelled from the spec: `RevokeRefreshToken(refreshToken)` deletes the
refresh-token record (§4.6). -/
def RevokeRefreshToken (rm : RefreshTokenManager) (s : Storage) (refreshToken : String) :
    Option Error × Storage :=
  s.Delete (rm.getRefreshKey refreshToken)

end RefreshTokenManager

/-! ## The OAuth2 server -/

/-- The key namespace of authorization codes. -/
def OAuth2CodeKeyPrefix : String := "oauth2:code:"

/-- The key namespace of OAuth2 access tokens. -/
def OAuth2TokenKeyPrefix : String := "oauth2:token:"

/-- The key namespace of OAuth2 refresh tokens. -/
def OAuth2RefreshKeyPrefix : String := "oauth2:refresh:"

/-- The TTL of an authorization code: ten minutes (the specification says "short"). -/
def OAuth2CodeTTL : Int := 10 * 60 * Second

/-- The lifetime of an OAuth2 access token in seconds. -/
def OAuth2TokenExpiresIn : Int := 3600

/-- `OAuth2Client` (§3; used in `examples/security-features/main.go`, lines 75-81). -/
structure OAuth2Client where
  ClientID : String
  ClientSecret : String
  RedirectURIs : List String
  GrantTypes : List String
  Scopes : List String
  deriving DecidableEq, Repr

/-- `AuthorizationCode` (§3). -/
structure AuthorizationCode where
  Code : String
  ClientID : String
  RedirectURI : String
  UserID : String
  Scopes : List String
  deriving DecidableEq, Repr

/-- `AccessToken` (§3). -/
structure AccessToken where
  Token : String
  TokenType : String
  UserID : String
  ClientID : String
  Scopes : List String
  ExpiresIn : Int
  RefreshToken : String
  deriving DecidableEq, Repr

/-- Modelled from the spec: the OAuth2 server (`oauth2.OAuth2Server`, §3 and §4.7, not
among the sources), made by `NewOAuth2Server(storage, prefix)`: its client
registry, looked up by client ID. -/
structure OAuth2Server where
  keyPrefix : String
  clients : List (String × OAuth2Client)
  deriving DecidableEq, Repr

namespace OAuth2Server

/-- The storage key of an authorization code. -/
def getCodeKey (srv : OAuth2Server) (code : String) : String :=
  srv.keyPrefix ++ OAuth2CodeKeyPrefix ++ code

/-- The storage key of an access token. -/
def getTokenKey (srv : OAuth2Server) (token : String) : String :=
  srv.keyPrefix ++ OAuth2TokenKeyPrefix ++ token

/-- The storage key of a refresh token. -/
def getRefreshKey (srv : OAuth2Server) (token : String) : String :=
  srv.keyPrefix ++ OAuth2RefreshKeyPrefix ++ token

/-- Modelled from the spec: `RegisterClient(client)` stores the registration,
overwriting by ID (§4.7). -/
def RegisterClient (srv : OAuth2Server) (client : OAuth2Client) : OAuth2Server :=
  { srv with clients := (client.ClientID, client) :: removeKey client.ClientID srv.clients }

/-- Modelled from the spec: `GenerateAuthorizationCode(clientID, redirectURI, userID,
scopes)` fails if the client is unregistered or the redirect URI is not one of
the client's registered URIs; otherwise it issues a short-TTL code bound to
`(clientID, redirectURI, userID, scopes)` (§4.7). -/
def GenerateAuthorizationCode (srv : OAuth2Server) (env : GenEnv) (s : Storage)
    (clientID redirectURI userID : String) (scopes : List String) :
    Except Error AuthorizationCode × Storage :=
  match lookupKey clientID srv.clients with
  | none => (.error .ErrInvalidClient, s)
  | some client =>
    if redirectURI ∉ client.RedirectURIs then (.error .ErrInvalidRedirectURI, s)
    else
      let code : String := ⟨randomChars env hexAlphabet 0 32⟩
      match s.Set (srv.getCodeKey code)
          (.record [("clientId", .str clientID), ("redirectUri", .str redirectURI),
            ("userId", .str userID), ("scopes", .strSlice scopes)]) OAuth2CodeTTL with
      | (some err, s1) => (.error err, s1)
      | (none, s1) => (.ok ⟨code, clientID, redirectURI, userID, scopes⟩, s1)

/-- Modelled from the spec: `ExchangeCodeForToken(code, clientID, clientSecret,
redirectURI)` fails if the code is unknown or already consumed, or if client ID,
secret or redirect URI do not match the code's binding; on success the code is
deleted and a fresh access token with its refresh token is minted and stored
(§4.7). -/
def ExchangeCodeForToken (srv : OAuth2Server) (env : GenEnv) (s : Storage)
    (code clientID clientSecret redirectURI : String) : Except Error AccessToken × Storage :=
  match lookupKey clientID srv.clients with
  | none => (.error .ErrInvalidClient, s)
  | some client =>
    if client.ClientSecret ≠ clientSecret then (.error .ErrInvalidClient, s)
    else
      match s.Get (srv.getCodeKey code) with
      | .ok (some (.record fields)) =>
        match lookupKey "clientId" fields, lookupKey "redirectUri" fields,
            lookupKey "userId" fields, lookupKey "scopes" fields with
        | some (.str boundClient), some (.str boundRedirect), some (.str userID),
            some (.strSlice scopes) =>
          if boundClient ≠ clientID then (.error .ErrInvalidClient, s)
          else if boundRedirect ≠ redirectURI then (.error .ErrInvalidRedirectURI, s)
          else
            match s.Delete (srv.getCodeKey code) with
            | (some err, s1) => (.error err, s1)
            | (none, s1) =>
              let token : String := ⟨randomChars env hexAlphabet 0 32⟩
              let refresh : String := ⟨randomChars env hexAlphabet 32 32⟩
              match s1.Set (srv.getTokenKey token)
                  (.record [("userId", .str userID), ("clientId", .str clientID),
                    ("scopes", .strSlice scopes), ("refreshToken", .str refresh)])
                  (OAuth2TokenExpiresIn * Second) with
              | (some err, s2) => (.error err, s2)
              | (none, s2) =>
                match s2.Set (srv.getRefreshKey refresh)
                    (.record [("userId", .str userID), ("clientId", .str clientID),
                      ("scopes", .strSlice scopes)]) RefreshTokenTTL with
                | (some err, s3) => (.error err, s3)
                | (none, s3) =>
                  (.ok ⟨token, "Bearer", userID, clientID, scopes, OAuth2TokenExpiresIn,
                    refresh⟩, s3)
        | _, _, _, _ => (.error .ErrInvalidCode, s)
      | _ => (.error .ErrInvalidCode, s)

end OAuth2Server

namespace Manager

/-- `getDevice` (lines 93-99); the variadic `device ...string` is a list. -/
def getDevice (device : List String) : String :=
  match device with
  | d :: _ => if d ≠ "" then d else DefaultDevice
  | [] => DefaultDevice

/-- `getExpiration` (lines 101-107), a `time.Duration` in nanoseconds. -/
def getExpiration (m : Manager) : Int :=
  if m.config.Timeout > 0 then wrapInt64 (m.config.Timeout * Second) else 0

/-- `getTokenKey` (lines 583-586). -/
def getTokenKey (m : Manager) (tokenValue : String) : String :=
  m.keyPrefix ++ TokenKeyPrefix ++ tokenValue

/-- `getAccountKey` (lines 588-591). -/
def getAccountKey (m : Manager) (loginID device : String) : String :=
  m.keyPrefix ++ AccountKeyPrefix ++ loginID ++ PermissionSeparator ++ device

/-- `getDisableKey` (lines 345-348). -/
def getDisableKey (m : Manager) (loginID : String) : String :=
  m.keyPrefix ++ DisableKeyPrefix ++ loginID

/-- `Disable` (lines 317-321). -/
def Disable (m : Manager) (s : Storage) (loginID : String) (duration : Int) :
    Option Error × Storage :=
  s.Set (m.getDisableKey loginID) (.value (.str DisableValue)) duration

/-- `Untie` (lines 323-327). -/
def Untie (m : Manager) (s : Storage) (loginID : String) : Option Error × Storage :=
  s.Delete (m.getDisableKey loginID)

/-- `IsDisable` (lines 329-333). -/
def IsDisable (m : Manager) (s : Storage) (loginID : String) : Bool :=
  s.Exists (m.getDisableKey loginID)

/-- `GetDisableTime` (lines 335-343). -/
def GetDisableTime (m : Manager) (s : Storage) (loginID : String) : Int × Option Error :=
  match s.TTL (m.getDisableKey loginID) with
  | .error err => (-2, some err)
  | .ok ttl => (secondsInt64 ttl, none)

/-- `kickout` (lines 209-224). -/
def kickout (m : Manager) (s : Storage) (loginID device : String) : Option Error × Storage :=
  let accountKey := m.getAccountKey loginID device
  match s.Get accountKey with
  | .error _ => (none, s)
  | .ok none => (none, s)
  | .ok (some tokenValue) =>
    match assertString tokenValue with
    | none => (none, s)
    | some tokenStr => s.Delete (m.getTokenKey tokenStr)

/-- `Kickout` (lines 226-230). -/
def Kickout (m : Manager) (s : Storage) (loginID : String) (device : List String) :
    Option Error × Storage :=
  m.kickout s loginID (getDevice device)

/-- The end of `Login` (lines 151-155): a new session object for `loginID` and its
three `sess.Set` calls, whose results are discarded, as in the source. `now` is
the value of `time.Now().Unix()`. -/
def loginSession (m : Manager) (s : Storage) (loginID deviceType : String) (now : Int) :
    Storage :=
  let sess := Session.NewSession loginID m.keyPrefix
  let r1 := sess.Set s SessionKeyLoginID (.str loginID)
  let r2 := r1.2.1.Set r1.2.2 SessionKeyDevice (.str deviceType)
  let r3 := r2.2.1.Set r2.2.2 SessionKeyLoginTime (.int now)
  r3.2.2

/-- `Login` (lines 117-158). `generate` is the token generator at this call and
`now` the value of `time.Now().Unix()`. -/
def Login (m : Manager) (generate : Generate) (now : Int) (s : Storage) (loginID : String)
    (device : List String) : (String × Option Error) × Storage :=
  let deviceType := getDevice device
  if m.IsDisable s loginID then (("", some .ErrAccountDisabled), s)
  else
    let s1 := if !m.config.IsConcurrent then (m.kickout s loginID deviceType).2 else s
    match generate loginID deviceType with
    | .error err => (("", some (.wrap "failed to generate token" err)), s1)
    | .ok tokenValue =>
      let expiration := m.getExpiration
      let tokenKey := m.getTokenKey tokenValue
      match s1.Set tokenKey (.value (.str loginID)) expiration with
      | (some err, s2) => (("", some (.wrap "failed to save token" err)), s2)
      | (none, s2) =>
        let accountKey := m.getAccountKey loginID deviceType
        match s2.Set accountKey (.value (.str tokenValue)) expiration with
        | (some err, s3) => (("", some (.wrap "failed to save account mapping" err)), s3)
        | (none, s3) => ((tokenValue, none), m.loginSession s3 loginID deviceType now)

/-- `LoginByToken` (lines 160-173). -/
def LoginByToken (m : Manager) (s : Storage) (loginID tokenValue : String)
    (device : List String) : Option Error × Storage :=
  let deviceType := getDevice device
  let expiration := m.getExpiration
  let tokenKey := m.getTokenKey tokenValue
  match s.Set tokenKey (.value (.str loginID)) expiration with
  | (some err, s1) => (some (.wrap "failed to save token" err), s1)
  | (none, s1) =>
    let accountKey := m.getAccountKey loginID deviceType
    s1.Set accountKey (.value (.str tokenValue)) expiration

/-- `Logout` (lines 175-198). The results of the two `Delete` calls are discarded,
as in the source. -/
def Logout (m : Manager) (s : Storage) (loginID : String) (device : List String) :
    Option Error × Storage :=
  let deviceType := getDevice device
  let accountKey := m.getAccountKey loginID deviceType
  match s.Get accountKey with
  | .error _ => (none, s)
  | .ok none => (none, s)
  | .ok (some tokenValue) =>
    match assertString tokenValue with
    | none => (none, s)
    | some tokenStr =>
      let tokenKey := m.getTokenKey tokenStr
      let s1 := (s.Delete tokenKey).2
      let s2 := (s1.Delete accountKey).2
      (none, s2)

/-- `LogoutByToken` (lines 200-207). -/
def LogoutByToken (m : Manager) (s : Storage) (tokenValue : String) : Option Error × Storage :=
  if tokenValue = "" then (none, s)
  else s.Delete (m.getTokenKey tokenValue)

/-- `IsLogin` (lines 234-252): the boolean it returns. The renewal it starts in a
goroutine is `IsLoginRenew`. -/
def IsLogin (m : Manager) (s : Storage) (tokenValue : String) : Bool :=
  if tokenValue = "" then false
  else if !s.Exists (m.getTokenKey tokenValue) then false
  else true

/-- `renewToken` (lines 254-259); the result of `Expire` is discarded. -/
def renewToken (m : Manager) (s : Storage) (tokenKey : String) : Storage :=
  (s.Expire tokenKey m.getExpiration).2

/-- The storage once the goroutine started by `IsLogin` (line 248), if any, has run. -/
def IsLoginRenew (m : Manager) (s : Storage) (tokenValue : String) : Storage :=
  if tokenValue = "" then s
  else if !s.Exists (m.getTokenKey tokenValue) then s
  else if m.config.AutoRenew ∧ m.config.Timeout > 0 then m.renewToken s (m.getTokenKey tokenValue)
  else s

/-- `CheckLogin` (lines 261-267). -/
def CheckLogin (m : Manager) (s : Storage) (tokenValue : String) : Option Error :=
  if !m.IsLogin s tokenValue then some .ErrNotLogin else none

/-- `getLoginIDByToken` (lines 593-607). -/
def getLoginIDByToken (m : Manager) (s : Storage) (tokenValue : String) :
    String × Option Error :=
  match s.Get (m.getTokenKey tokenValue) with
  | .error _ => ("", some .ErrTokenNotFound)
  | .ok none => ("", some .ErrTokenNotFound)
  | .ok (some data) =>
    match assertString data with
    | none => ("", some .ErrInvalidTokenData)
    | some loginID => (loginID, none)

/-- `getTokenInfo` (lines 609-621); `.error` is the result `(nil, err)`. -/
def getTokenInfo (m : Manager) (s : Storage) (tokenValue : String) : Except Error TokenInfo :=
  match m.getLoginIDByToken s tokenValue with
  | (_, some err) => .error err
  | (loginID, none) =>
    .ok { LoginID := loginID, Device := DefaultDevice, CreateTime := 0, ActiveTime := 0, Tag := "" }

/-- `GetLoginID` (lines 269-281). -/
def GetLoginID (m : Manager) (s : Storage) (tokenValue : String) : String × Option Error :=
  if !m.IsLogin s tokenValue then ("", some .ErrNotLogin)
  else
    match m.getTokenInfo s tokenValue with
    | .error err => ("", some err)
    | .ok info => (info.LoginID, none)

/-- `GetLoginIDNotCheck` (lines 283-290). -/
def GetLoginIDNotCheck (m : Manager) (s : Storage) (tokenValue : String) :
    String × Option Error :=
  match m.getTokenInfo s tokenValue with
  | .error err => ("", some err)
  | .ok info => (info.LoginID, none)

/-- `GetTokenValue` (lines 292-308). -/
def GetTokenValue (m : Manager) (s : Storage) (loginID : String) (device : List String) :
    String × Option Error :=
  let deviceType := getDevice device
  let accountKey := m.getAccountKey loginID deviceType
  match s.Get accountKey with
  | .error _ => ("", some (.message ("token not found for login id: " ++ loginID)))
  | .ok none => ("", some (.message ("token not found for login id: " ++ loginID)))
  | .ok (some tokenValue) =>
    match assertString tokenValue with
    | none => ("", some (.message "invalid token value type"))
    | some tokenStr => (tokenStr, none)

/-- `GetSession` (lines 352-359): a session that cannot be loaded is replaced by a
new, empty one; the error returned is always nil. -/
def GetSession (m : Manager) (s : Storage) (loginID : String) : Session × Option Error :=
  match Session.Load loginID s m.keyPrefix with
  | .error _ => (Session.NewSession loginID m.keyPrefix, none)
  | .ok sess => (sess, none)

/-- `toStringSlice` (lines 623-639). -/
def toStringSlice (v : Value) : List String :=
  match v with
  | .strSlice val => val
  | .anySlice val => val.filterMap (fun item => match item with | .str str => some str | _ => none)
  | _ => []

/-- `SetPermissions` (lines 381-388). -/
def SetPermissions (m : Manager) (s : Storage) (loginID : String) (permissions : List String) :
    Option Error × Storage :=
  match m.GetSession s loginID with
  | (_, some err) => (some err, s)
  | (sess, none) =>
    let r := sess.Set s SessionKeyPermissions (.strSlice permissions)
    (r.1, r.2.2)

/-- `GetPermissions` (lines 390-403). -/
def GetPermissions (m : Manager) (s : Storage) (loginID : String) :
    List String × Option Error :=
  match m.GetSession s loginID with
  | (_, some err) => ([], some err)
  | (sess, none) =>
    match sess.Get SessionKeyPermissions with
    | none => ([], none)
    | some perms => (toStringSlice perms, none)

/-- The loop of `HasPermission` (lines 412-418). -/
def hasPermissionLoop (permission : String) : List String → Bool
  | [] => false
  | p :: rest => if matchPermission p permission then true else hasPermissionLoop permission rest

/-- `HasPermission` (lines 405-419). -/
def HasPermission (m : Manager) (s : Storage) (loginID permission : String) : Bool :=
  match m.GetPermissions s loginID with
  | (_, some _) => false
  | (perms, none) => hasPermissionLoop permission perms

/-- `HasPermissionsAnd` (lines 421-429). -/
def HasPermissionsAnd (m : Manager) (s : Storage) (loginID : String) : List String → Bool
  | [] => true
  | perm :: rest =>
    if !m.HasPermission s loginID perm then false else HasPermissionsAnd m s loginID rest

/-- `HasPermissionsOr` (lines 431-439). -/
def HasPermissionsOr (m : Manager) (s : Storage) (loginID : String) : List String → Bool
  | [] => false
  | perm :: rest =>
    if m.HasPermission s loginID perm then true else HasPermissionsOr m s loginID rest

/-- `SetRoles` (lines 475-482). -/
def SetRoles (m : Manager) (s : Storage) (loginID : String) (roles : List String) :
    Option Error × Storage :=
  match m.GetSession s loginID with
  | (_, some err) => (some err, s)
  | (sess, none) =>
    let r := sess.Set s SessionKeyRoles (.strSlice roles)
    (r.1, r.2.2)

/-- `GetRoles` (lines 484-497). -/
def GetRoles (m : Manager) (s : Storage) (loginID : String) : List String × Option Error :=
  match m.GetSession s loginID with
  | (_, some err) => ([], some err)
  | (sess, none) =>
    match sess.Get SessionKeyRoles with
    | none => ([], none)
    | some roles => (toStringSlice roles, none)

/-- The loop of `HasRole` (lines 506-511). -/
def hasRoleLoop (role : String) : List String → Bool
  | [] => false
  | r :: rest => if r = role then true else hasRoleLoop role rest

/-- `HasRole` (lines 499-512). -/
def HasRole (m : Manager) (s : Storage) (loginID role : String) : Bool :=
  match m.GetRoles s loginID with
  | (_, some _) => false
  | (roles, none) => hasRoleLoop role roles

/-- `HasRolesAnd` (lines 514-522). -/
def HasRolesAnd (m : Manager) (s : Storage) (loginID : String) : List String → Bool
  | [] => true
  | role :: rest => if !m.HasRole s loginID role then false else HasRolesAnd m s loginID rest

/-- `HasRolesOr` (lines 524-532). -/
def HasRolesOr (m : Manager) (s : Storage) (loginID : String) : List String → Bool
  | [] => false
  | role :: rest => if m.HasRole s loginID role then true else HasRolesOr m s loginID rest

/-- The loop of `GetTokenValueListByLoginID` (lines 560-567) over the listed keys. -/
def tokenValuesOfKeys (s : Storage) : List String → List String
  | [] => []
  | key :: rest =>
    match s.Get key with
    | .ok (some value) =>
      match assertString value with
      | some tokenStr => tokenStr :: tokenValuesOfKeys s rest
      | none => tokenValuesOfKeys s rest
    | _ => tokenValuesOfKeys s rest

/-- `GetTokenValueListByLoginID` (lines 551-570). -/
def GetTokenValueListByLoginID (m : Manager) (s : Storage) (loginID : String) :
    List String × Option Error :=
  let pattern := m.keyPrefix ++ AccountKeyPrefix ++ loginID ++ ":*"
  match s.Keys pattern with
  | .error err => ([], some err)
  | .ok keys => (tokenValuesOfKeys s keys, none)

/-- `GetSessionCountByLoginID` (lines 572-579). -/
def GetSessionCountByLoginID (m : Manager) (s : Storage) (loginID : String) :
    Int × Option Error :=
  match m.GetTokenValueListByLoginID s loginID with
  | (_, some err) => (0, some err)
  | (tokens, none) => (tokens.length, none)

/-- The nonce manager made by `NewManager` (line 85). -/
def nonceManager (m : Manager) : NonceManager := ⟨m.keyPrefix, DefaultNonceTTL⟩

/-- The refresh-token manager made by `NewManager` (line 86). -/
def refreshManager (m : Manager) : RefreshTokenManager := ⟨m.keyPrefix, m.config⟩

/-- `GenerateNonce` (lines 655-658). -/
def GenerateNonce (m : Manager) (env : GenEnv) (s : Storage) :
    (String × Option Error) × Storage :=
  m.nonceManager.Generate env s

/-- `VerifyNonce` (lines 660-663). -/
def VerifyNonce (m : Manager) (s : Storage) (nonce : String) : Bool × Storage :=
  m.nonceManager.Verify s nonce

/-- `LoginWithRefreshToken` (lines 665-668). -/
def LoginWithRefreshToken (m : Manager) (envA envR : GenEnv) (s : Storage)
    (loginID device : String) : Except Error RefreshTokenInfo × Storage :=
  m.refreshManager.GenerateTokenPair envA envR s loginID device

/-- `RefreshAccessToken` (lines 670-673). -/
def RefreshAccessToken (m : Manager) (env : GenEnv) (s : Storage) (refreshToken : String) :
    Except Error RefreshTokenInfo × Storage :=
  m.refreshManager.RefreshAccessToken env s refreshToken

/-- `RevokeRefreshToken` (lines 675-678). -/
def RevokeRefreshToken (m : Manager) (s : Storage) (refreshToken : String) :
    Option Error × Storage :=
  m.refreshManager.RevokeRefreshToken s refreshToken

/-- `GetOAuth2Server` (lines 680-683): the server made by `NewManager` (line 87),
with no client registered yet. -/
def GetOAuth2Server (m : Manager) : OAuth2Server := ⟨m.keyPrefix, []⟩

end Manager

/-! ## Histories of calls -/

/-- One call on the manager; the token generator and the clock reading of a `Login`
are made explicit. -/
inductive Call where
  | Login (generate : Generate) (now : Int) (loginID : String) (device : List String)
  | Logout (loginID : String) (device : List String)
  | Kickout (loginID : String) (device : List String)
  | LogoutByToken (tokenValue : String)
  | Disable (loginID : String) (duration : Int)
  | Untie (loginID : String)

/-- The tokens that `Login` has returned so far, each with the login ID and the
device it was issued for. -/
abbrev Issued := List (String × String × String)

namespace Manager

/-- One step of a history: the call is run on the storage. A `Login` has to succeed
and to return a token that no earlier `Login` returned, and is then recorded;
a history in which it does not is not considered (`none`). -/
def step (m : Manager) (st : Storage × Issued) : Call → Option (Storage × Issued)
  | .Login generate now loginID device =>
    match m.Login generate now st.1 loginID device with
    | ((t, none), s1) =>
      if t ∈ st.2.map Prod.fst then none
      else some (s1, (t, loginID, getDevice device) :: st.2)
    | _ => none
  | .Logout loginID device => some ((m.Logout st.1 loginID device).2, st.2)
  | .Kickout loginID device => some ((m.Kickout st.1 loginID device).2, st.2)
  | .LogoutByToken tokenValue => some ((m.LogoutByToken st.1 tokenValue).2, st.2)
  | .Disable loginID duration => some ((m.Disable st.1 loginID duration).2, st.2)
  | .Untie loginID => some ((m.Untie st.1 loginID).2, st.2)

/-- A history of calls, run from the left. -/
def run (m : Manager) (st : Storage × Issued) : List Call → Option (Storage × Issued)
  | [] => some st
  | c :: cs =>
    match m.step st c with
    | none => none
    | some st1 => m.run st1 cs

/-- The invariant of the histories: the storage serves every call; every token
entry holds the login ID of the one `Login` that issued its token; every account
entry holds a token issued for a login ID and device with that account key; and,
when concurrent login is not allowed, the account entry of the login ID and
device of every issued token that still has its token entry holds that token. -/
structure Consistent (m : Manager) (s : Storage) (issued : Issued) : Prop where
  failSet : ∀ k, s.failSet k = none
  failGet : ∀ k, s.failGet k = none
  failDelete : ∀ k, s.failDelete k = none
  token : ∀ t e, s.find (m.getTokenKey t) = some e →
    ∃ u d, (t, u, d) ∈ issued ∧ e.value = .value (.str u)
  unique : ∀ t u d u2 d2, (t, u, d) ∈ issued → (t, u2, d2) ∈ issued → u = u2 ∧ d = d2
  account : ∀ u d e, s.find (m.getAccountKey u d) = some e →
    ∃ t u2 d2, e.value = .value (.str t) ∧ (t, u2, d2) ∈ issued ∧
      m.getAccountKey u2 d2 = m.getAccountKey u d
  current : m.config.IsConcurrent = false → ∀ t u d, (t, u, d) ∈ issued →
    s.find (m.getTokenKey t) ≠ none →
    ∃ e, s.find (m.getAccountKey u d) = some e ∧ e.value = .value (.str t)

end Manager

/-- A manager with the default key prefix, a one-hour timeout and no concurrent
login, used in the examples. -/
def exampleManager : Manager :=
  NewManager { KeyPrefix := "", Timeout := 3600, IsConcurrent := false, AutoRenew := false }

/-- A generator that returns the token `tok`. -/
def constGenerate (tok : String) : Generate := fun _ _ => .ok tok

/-- The storage after `"u"` has logged in with token `"T1"` on the default device of
an empty storage. -/
def loggedInStorage : Storage :=
  (exampleManager.Login (constGenerate "T1") 7 Storage.empty "u" []).2

/-- The storage after `"u"` has logged in on the device `"web"` with token `"T1"` and
the same token has been registered for the device `"app"` by `LoginByToken`. -/
def sharedTokenStorage : Storage :=
  (exampleManager.LoginByToken
    (exampleManager.Login (constGenerate "T1") 7 Storage.empty "u" ["web"]).2 "u" "T1" ["app"]).2

/-- The storage after the single role `"*"` has been set for `"u"` on an empty
storage. -/
def starRoleStorage : Storage := (exampleManager.SetRoles Storage.empty "u" ["*"]).2

/-- The storage after the permissions of the quick-start example have been set for
`"1000"` on an empty storage. -/
def permissionsStorage : Storage :=
  (exampleManager.SetPermissions Storage.empty "1000" ["user:read", "user:write", "admin:*"]).2

/-- A storage whose token entry of `"X"` holds a number instead of a login ID. -/
def malformedTokenStorage : Storage :=
  Storage.ofEntries [("satokentoken:X", ⟨.value (.int 5), 0⟩)]

/-- The storage after the login of `"u"`, with every read failing from then on. -/
def unreadableStorage : Storage :=
  { loggedInStorage with failGet := fun _ => some (.message "i/o failure") }

/-- The storage after the login of `"u"`, with every delete failing from then on. -/
def undeletableStorage : Storage :=
  { loggedInStorage with failDelete := fun _ => some (.message "i/o failure") }

/-- A manager like `exampleManager` that allows concurrent logins. -/
def concurrentManager : Manager :=
  NewManager { KeyPrefix := "", Timeout := 3600, IsConcurrent := true, AutoRenew := false }

/-- A manager like `exampleManager` with the timeout `timeout`, in seconds. -/
def timeoutManager (timeout : Int) : Manager :=
  NewManager { KeyPrefix := "", Timeout := timeout, IsConcurrent := false, AutoRenew := false }

/-- A manager like `exampleManager` whose timeout, 9223372037 seconds, is the
smallest one that does not fit a 64-bit count of nanoseconds. -/
def hugeTimeoutManager : Manager :=
  NewManager { KeyPrefix := "", Timeout := 9223372037, IsConcurrent := false, AutoRenew := false }

/-- The storage after `LoginByToken` has registered the empty token for `"u"` on an
empty storage. -/
def emptyTokenStorage : Storage := (exampleManager.LoginByToken Storage.empty "u" "" []).2

/-- The storage after `"a"` and then `"a:b"` have logged in on the device `"web"`,
with the tokens `"T1"` and `"T2"`. -/
def compositeIDStorage : Storage :=
  (exampleManager.Login (constGenerate "T2") 8
    (exampleManager.Login (constGenerate "T1") 7 Storage.empty "a" ["web"]).2 "a:b" ["web"]).2

/-- The empty storage on which the write of the session of `"u"` fails. -/
def sessionWriteFailStorage : Storage :=
  { Storage.empty with
    failSet := fun k => if k = "satokensession:u" then some (.message "i/o failure") else none }

/-- The storage after `"u"` has been disabled for 16777216999999999 nanoseconds, one
nanosecond less than 16777217 seconds. -/
def longDisableStorage : Storage :=
  (exampleManager.Disable Storage.empty "u" 16777216999999999).2

/-- The storage of `longDisableStorage` with a TTL lookup that fails. -/
def noTTLStorage : Storage :=
  { longDisableStorage with failTTL := fun _ => some (.message "ttl not supported") }

/-- The storage after `"a:b"` has logged in on the device `"web"` with token `"T1"`. -/
def colonIDStorage : Storage :=
  (exampleManager.Login (constGenerate "T1") 7 Storage.empty "a:b" ["web"]).2

/-- An environment of the generator, used in the examples: the random numbers
0, 7, 14, ..., the time 1700000000, a digest whose byte `i` is `i + 200`, the
identity encoding and a signature that is the text itself. -/
def exampleEnv : GenEnv :=
  { rand := fun i => 7 * i, now := 1700000000, digest := fun _ i => i + 200,
    encode := fun x => x, sign := fun x _ => x }

/-- A configuration with the given token style and a JWT secret. -/
def styleConfig (style : TokenStyle) : Config :=
  { KeyPrefix := "", Timeout := 3600, IsConcurrent := false, AutoRenew := false,
    TokenStyle := style, JwtSecretKey := "test-secret-key" }

/-- The history of two logins of `"u"` on `"web"`, which return `"T1"` and `"T2"`. -/
def twoLoginsHistory : List Call :=
  [.Login (constGenerate "T1") 7 "u" ["web"], .Login (constGenerate "T2") 8 "u" ["web"]]

/-- The storage after `twoLoginsHistory`, run by `exampleManager` on the empty
storage. -/
def twoLoginsStorage : Storage :=
  (exampleManager.Login (constGenerate "T2") 8
    (exampleManager.Login (constGenerate "T1") 7 Storage.empty "u" ["web"]).2 "u" ["web"]).2

/-- The storage after `"u"` has logged in with token `"T1"` on the default device and
has then been disabled for an hour. -/
def disabledLoggedInStorage : Storage :=
  (exampleManager.Disable loggedInStorage "u" (3600 * Second)).2

/-- The storage after the login of `"u"` with token `"T1"` on the default device, with
every write of the account entry of `"u"` on that device failing from then on. -/
def accountWriteFailStorage : Storage :=
  { loggedInStorage with
    failSet := fun k =>
      if k = "satokenaccount:u:default" then some (.message "i/o failure") else none }

/-- The storage after the permissions and then the roles of the quick-start example
have been set for `"1000"` on an empty storage. -/
def permissionsRolesStorage : Storage :=
  (exampleManager.SetRoles permissionsStorage "1000" ["admin", "manager"]).2

/-- A manager like `exampleManager` with auto-renew on and a two-hour timeout. -/
def renewManager : Manager :=
  NewManager { KeyPrefix := "", Timeout := 7200, IsConcurrent := false, AutoRenew := true }

/-- The empty storage on which every delete fails. -/
def deleteFailStorage : Storage :=
  { Storage.empty with failDelete := fun _ => some (.message "i/o failure") }

/-- The client of `examples/security-features/main.go` (lines 75-81). -/
def exampleClient : OAuth2Client :=
  ⟨"webapp123", "secret456", ["http://localhost:8080/callback"],
    ["authorization_code", "refresh_token"], ["read", "write"]⟩

/-- The OAuth2 server of the example manager with `exampleClient` registered. -/
def exampleServer : OAuth2Server :=
  (exampleManager.GetOAuth2Server).RegisterClient exampleClient

/-- The storage after `"u"` has then been kicked out once. -/
def kickedOutStorage : Storage := (exampleManager.Kickout loggedInStorage "u" []).2

/-! ## Reference definitions -/

/-- The four-rule reference definition of permission matching, following the words
of the specification (§4.3): (1) the pattern is `"*"` or equals the permission;
(2) the pattern ends in `":*"` and the permission starts with the pattern minus
its final `*`; (3) the pattern contains `*`, both split on `":"` into the same
number of segments, and every pattern segment is `*` or equals the corresponding
permission segment; (4) otherwise no match. -/
def matchPermissionSpec (pattern permission : String) : Bool :=
  if pattern = "*" ∨ pattern = permission then true
  else if ":*".data <:+ pattern.data then
    decide (pattern.data.dropLast <+: permission.data)
  else if '*' ∈ pattern.data then
    let ps := pattern.data.splitOn ':'
    let qs := permission.data.splitOn ':'
    decide (ps.length = qs.length) &&
      (ps.zip qs).all (fun pq => decide (pq.1 = ['*'] ∨ pq.1 = pq.2))
  else false

/-! ## Lemmas on the `strings` model -/

namespace strings

theorem splitScan_single (c : Char) (cs acc : List Char) :
    splitScan [c] 0 cs acc = (List.splitOnP.go (fun x => x == c) cs acc).map String.mk := by
  induction cs generalizing acc with
  | nil => simp [splitScan, List.splitOnP.go]
  | cons x xs ih =>
    by_cases h : x = c
    · subst h
      simp [splitScan, List.splitOnP.go, List.isPrefixOf, ih]
    · have h2 : ¬ c = x := fun e => h e.symm
      simp [splitScan, List.splitOnP.go, List.isPrefixOf, ih, h, h2]

theorem Split_colon (s : String) :
    Split s ":" = (s.data.splitOn ':').map String.mk := by
  have h : (":" : String).data = [':'] := rfl
  simp [Split, h, splitScan_single, List.splitOn, List.splitOnP]

theorem containsAt_single (c : Char) (cs : List Char) :
    containsAt [c] cs = decide (c ∈ cs) := by
  induction cs with
  | nil => simp [containsAt, List.isPrefixOf]
  | cons x xs ih =>
    by_cases h : c = x
    · simp [containsAt, List.isPrefixOf, h]
    · simp [containsAt, List.isPrefixOf, ih, h]

theorem Contains_star (s : String) : Contains s "*" = decide ('*' ∈ s.data) := by
  have h : ("*" : String).data = ['*'] := rfl
  simp [Contains, h, containsAt_single]

theorem isSuffixOf_eq_decide (a b : List Char) : a.isSuffixOf b = decide (a <:+ b) := by
  by_cases h : a <:+ b
  · simp [h]
  · cases hb : a.isSuffixOf b
    · simp [h]
    · exact absurd (List.isSuffixOf_iff_suffix.1 hb) h

theorem isPrefixOf_eq_decide (a b : List Char) : a.isPrefixOf b = decide (a <+: b) := by
  by_cases h : a <+: b
  · simp [h]
  · cases hb : a.isPrefixOf b
    · simp [h]
    · exact absurd (List.isPrefixOf_iff_prefix.1 hb) h

theorem HasSuffix_iff (s suf : String) : HasSuffix s suf = true ↔ suf.data <:+ s.data := by
  simp [HasSuffix]

theorem HasPrefix_iff (s pre : String) : HasPrefix s pre = true ↔ pre.data <+: s.data := by
  simp [HasPrefix]

theorem TrimSuffix_star (s : String) (h : ":*".data <:+ s.data) :
    (TrimSuffix s "*").data = s.data.dropLast := by
  have h1 : ("*" : String).data <:+ s.data := by
    have h0 : ("*" : String).data <:+ (":*" : String).data := ⟨[':'], rfl⟩
    exact h0.trans h
  have h2 : HasSuffix s "*" = true := (HasSuffix_iff s "*").2 h1
  have h3 : ("*" : String).data.length = 1 := rfl
  simp [TrimSuffix, h2, h3, List.dropLast_eq_take]

end strings

/-! ## Permission matching: lemmas -/

theorem matchPermissionLoop_eq (permParts : List String) :
    ∀ (parts : List String) (i : Nat), i + parts.length ≤ permParts.length →
      matchPermissionLoop permParts i parts =
        some ((parts.zip (permParts.drop i)).all (fun pq => decide (pq.1 = "*" ∨ pq.1 = pq.2))) := by
  intro parts
  induction parts with
  | nil => intro i _; simp [matchPermissionLoop]
  | cons part rest ih =>
    intro i hi
    have hlt : i < permParts.length := by simp at hi; omega
    have hget : permParts[i]? = some permParts[i] := List.getElem?_eq_getElem hlt
    have hdrop : permParts.drop i = permParts[i] :: permParts.drop (i + 1) :=
      List.drop_eq_getElem_cons hlt
    have hrest : (i + 1) + rest.length ≤ permParts.length := by simp at hi; omega
    rw [matchPermissionLoop, hget, ih (i + 1) hrest, hdrop, List.zip_cons_cons, List.all_cons]
    by_cases hw : part = "*"
    · simp only [PermissionWildcard, hw, ne_eq, not_true_eq_false, if_false, true_or,
        decide_True, Bool.true_and]
    · by_cases hq : part = permParts[i]
      · rw [hq] at hw
        simp only [PermissionWildcard, hw, ne_eq, not_false_eq_true, if_true, hq,
          not_true_eq_false, if_false, or_true, decide_True, Bool.true_and]
      · simp only [PermissionWildcard, hw, ne_eq, not_false_eq_true, if_true, hq,
          or_self, decide_False, Bool.false_and]

theorem segments_all_mk (ps qs : List (List Char)) :
    ((ps.map String.mk).zip (qs.map String.mk)).all
        (fun pq => decide (pq.1 = "*" ∨ pq.1 = pq.2)) =
      (ps.zip qs).all (fun pq => decide (pq.1 = ['*'] ∨ pq.1 = pq.2)) := by
  have hstar : ("*" : String) = String.mk ['*'] := rfl
  induction ps generalizing qs with
  | nil => simp
  | cons p ps ih =>
    cases qs with
    | nil => simp
    | cons q qs =>
      have hinj : ∀ a b : List Char, (String.mk a = String.mk b) = (a = b) := by
        intro a b; simp [String.ext_iff]
      rw [List.map_cons, List.map_cons, List.zip_cons_cons, List.all_cons, ih qs,
        List.zip_cons_cons, List.all_cons]
      simp only [hstar, hinj]

theorem matchPermissionLoop_isSome (parts permParts : List String)
    (h : parts.length = permParts.length) :
    (matchPermissionLoop permParts 0 parts).isSome = true := by
  rw [matchPermissionLoop_eq permParts parts 0 (by omega)]
  rfl

theorem matchPermissionRun_eq_spec (pattern permission : String) :
    matchPermissionRun pattern permission = some (matchPermissionSpec pattern permission) := by
  have hw : PermissionWildcard = "*" := rfl
  have hs : PermissionSeparator = ":" := rfl
  have hsuf : PermissionSeparator ++ PermissionWildcard = ":*" := by decide
  have e2 : strings.HasSuffix pattern (PermissionSeparator ++ PermissionWildcard) =
      decide (":*".data <:+ pattern.data) := by
    rw [hsuf]; exact strings.isSuffixOf_eq_decide _ _
  have e3 : strings.Contains pattern PermissionWildcard = decide ('*' ∈ pattern.data) :=
    strings.Contains_star pattern
  unfold matchPermissionRun matchPermissionSpec
  simp only [e2, e3]
  rw [hw, hs]
  by_cases h1 : pattern = "*" ∨ pattern = permission
  · simp only [h1, if_true]
  · simp only [h1, if_false]
    by_cases h2 : ":*".data <:+ pattern.data
    · simp only [h2, decide_True, if_true]
      simp only [strings.HasPrefix, strings.TrimSuffix_star pattern h2,
        strings.isPrefixOf_eq_decide]
    · simp only [h2, decide_False, if_false, Bool.false_eq_true]
      by_cases h3 : '*' ∈ pattern.data
      · simp only [h3, decide_True, if_true]
        simp only [strings.Split_colon]
        by_cases h4 : (pattern.data.splitOn ':').length = (permission.data.splitOn ':').length
        · rw [if_neg (by simpa using h4), matchPermissionLoop_eq _ _ 0 (by simp [h4])]
          simp only [List.drop_zero, h4, decide_True, Bool.true_and, Option.some.injEq]
          exact segments_all_mk _ _
        · rw [if_pos (by simpa using h4)]
          simp [h4]
      · simp only [h3, decide_False, if_false, Bool.false_eq_true]

/-! ## Lemmas on key-value lists and on the storage model -/

theorem Storage.empty_Healthy : Storage.empty.Healthy :=
  ⟨fun _ => rfl, fun _ => rfl, fun _ => rfl, fun _ => rfl, fun _ => rfl, fun _ => rfl⟩

theorem lookupKey_removeKey_self {β : Type} (k : String) (es : List (String × β)) :
    lookupKey k (removeKey k es) = none := by
  induction es with
  | nil => rfl
  | cons e es ih =>
    by_cases h : e.1 = k
    · rw [removeKey, if_pos h]; exact ih
    · rw [removeKey, if_neg h, lookupKey, if_neg h]; exact ih

theorem lookupKey_removeKey_ne {β : Type} (k k2 : String) (hne : k2 ≠ k)
    (es : List (String × β)) : lookupKey k2 (removeKey k es) = lookupKey k2 es := by
  induction es with
  | nil => rfl
  | cons e es ih =>
    by_cases h : e.1 = k
    · have h2 : ¬ e.1 = k2 := fun e' => hne (e'.symm.trans h)
      rw [removeKey, if_pos h, lookupKey, if_neg h2]; exact ih
    · rw [removeKey, if_neg h]
      by_cases h3 : e.1 = k2
      · rw [lookupKey, if_pos h3, lookupKey, if_pos h3]
      · rw [lookupKey, if_neg h3, lookupKey, if_neg h3]; exact ih

theorem removeKey_of_lookupKey_none {β : Type} (k : String) (es : List (String × β))
    (h : lookupKey k es = none) : removeKey k es = es := by
  induction es with
  | nil => rfl
  | cons e es ih =>
    by_cases h1 : e.1 = k
    · rw [lookupKey, if_pos h1] at h; cases h
    · rw [lookupKey, if_neg h1] at h
      rw [removeKey, if_neg h1, ih h]

theorem removeKey_idem {β : Type} (k : String) (es : List (String × β)) :
    removeKey k (removeKey k es) = removeKey k es :=
  removeKey_of_lookupKey_none k _ (lookupKey_removeKey_self k es)

namespace Storage

@[simp] theorem Set_failSet (s : Storage) (k : String) (v : Stored) (ttl : Int) :
    (s.Set k v ttl).2.failSet = s.failSet := by
  unfold Storage.Set; split <;> rfl

@[simp] theorem Set_failGet (s : Storage) (k : String) (v : Stored) (ttl : Int) :
    (s.Set k v ttl).2.failGet = s.failGet := by
  unfold Storage.Set; split <;> rfl

@[simp] theorem Set_failDelete (s : Storage) (k : String) (v : Stored) (ttl : Int) :
    (s.Set k v ttl).2.failDelete = s.failDelete := by
  unfold Storage.Set; split <;> rfl

@[simp] theorem Delete_failSet (s : Storage) (k : String) :
    (s.Delete k).2.failSet = s.failSet := by
  unfold Storage.Delete; split <;> rfl

@[simp] theorem Delete_failGet (s : Storage) (k : String) :
    (s.Delete k).2.failGet = s.failGet := by
  unfold Storage.Delete; split <;> rfl

@[simp] theorem Delete_failDelete (s : Storage) (k : String) :
    (s.Delete k).2.failDelete = s.failDelete := by
  unfold Storage.Delete; split <;> rfl

theorem Set_ok (s : Storage) (k : String) (v : Stored) (ttl : Int) (h : s.failSet k = none) :
    s.Set k v ttl = (none, { s with entries := (k, ⟨v, ttl⟩) :: removeKey k s.entries }) := by
  unfold Storage.Set; rw [h]

theorem Delete_ok (s : Storage) (k : String) (h : s.failDelete k = none) :
    s.Delete k = (none, { s with entries := removeKey k s.entries }) := by
  unfold Storage.Delete; rw [h]

theorem Delete_fail (s : Storage) (k : String) (e : Error) (h : s.failDelete k = some e) :
    s.Delete k = (some e, s) := by
  unfold Storage.Delete; rw [h]

theorem find_Set_self (s : Storage) (k : String) (v : Stored) (ttl : Int)
    (h : s.failSet k = none) : (s.Set k v ttl).2.find k = some ⟨v, ttl⟩ := by
  rw [Set_ok s k v ttl h]; simp [find, lookupKey]

theorem find_Set_ne (s : Storage) (k k2 : String) (v : Stored) (ttl : Int) (hne : k2 ≠ k) :
    (s.Set k v ttl).2.find k2 = s.find k2 := by
  unfold Storage.Set
  split
  · rfl
  · have h2 : ¬ k = k2 := fun e => hne e.symm
    simp only [find, lookupKey, if_neg h2]
    exact lookupKey_removeKey_ne k k2 hne _

theorem find_Delete_self (s : Storage) (k : String) (h : s.failDelete k = none) :
    (s.Delete k).2.find k = none := by
  rw [Delete_ok s k h]; exact lookupKey_removeKey_self k _

theorem find_Delete_ne (s : Storage) (k k2 : String) (hne : k2 ≠ k) :
    (s.Delete k).2.find k2 = s.find k2 := by
  unfold Storage.Delete
  split
  · rfl
  · exact lookupKey_removeKey_ne k k2 hne _

theorem Get_eq (s : Storage) (k : String) (h : s.failGet k = none) :
    s.Get k = .ok ((s.find k).map Entry.value) := by
  unfold Storage.Get; rw [h]

end Storage

/-! ## Lemmas on the storage keys -/

theorem append_left_cancel_data (p a b : String) (h : p ++ a = p ++ b) : a.data = b.data := by
  have h2 := congrArg String.data h
  simpa using h2

namespace Manager

theorem tokenKey_ne_accountKey (m : Manager) (t u d : String) :
    m.getTokenKey t ≠ m.getAccountKey u d := by
  intro h
  unfold getTokenKey getAccountKey at h
  simp only [String.append_assoc] at h
  have h2 := append_left_cancel_data _ _ _ h
  simp [TokenKeyPrefix, AccountKeyPrefix] at h2

theorem tokenKey_ne_disableKey (m : Manager) (t u : String) :
    m.getTokenKey t ≠ m.getDisableKey u := by
  intro h
  unfold getTokenKey getDisableKey at h
  simp only [String.append_assoc] at h
  have h2 := append_left_cancel_data _ _ _ h
  simp [TokenKeyPrefix, DisableKeyPrefix] at h2

theorem accountKey_ne_disableKey (m : Manager) (u d v : String) :
    m.getAccountKey u d ≠ m.getDisableKey v := by
  intro h
  unfold getAccountKey getDisableKey at h
  simp only [String.append_assoc] at h
  have h2 := append_left_cancel_data _ _ _ h
  simp [AccountKeyPrefix, DisableKeyPrefix] at h2

theorem tokenKey_ne_sessionKey (m : Manager) (t u : String) :
    m.getTokenKey t ≠ m.keyPrefix ++ SessionKeyPrefix ++ u := by
  intro h
  unfold getTokenKey at h
  simp only [String.append_assoc] at h
  have h2 := append_left_cancel_data _ _ _ h
  simp [TokenKeyPrefix, SessionKeyPrefix] at h2

theorem accountKey_ne_sessionKey (m : Manager) (u d v : String) :
    m.getAccountKey u d ≠ m.keyPrefix ++ SessionKeyPrefix ++ v := by
  intro h
  unfold getAccountKey at h
  simp only [String.append_assoc] at h
  have h2 := append_left_cancel_data _ _ _ h
  simp [AccountKeyPrefix, SessionKeyPrefix] at h2

theorem disableKey_ne_sessionKey (m : Manager) (u v : String) :
    m.getDisableKey u ≠ m.keyPrefix ++ SessionKeyPrefix ++ v := by
  intro h
  unfold getDisableKey at h
  simp only [String.append_assoc] at h
  have h2 := append_left_cancel_data _ _ _ h
  simp [DisableKeyPrefix, SessionKeyPrefix] at h2

theorem tokenKey_inj (m : Manager) (t1 t2 : String) (h : m.getTokenKey t1 = m.getTokenKey t2) :
    t1 = t2 := by
  unfold getTokenKey at h
  have h2 := congrArg String.data h
  simp at h2
  exact String.ext h2

theorem disableKey_inj (m : Manager) (u v : String) (h : m.getDisableKey u = m.getDisableKey v) :
    u = v := by
  unfold getDisableKey at h
  have h2 := congrArg String.data h
  simp at h2
  exact String.ext h2

end Manager

/-! ## Lemmas on sessions and on `Login` -/

namespace Storage

theorem Set_pair (s : Storage) (k : String) (v : Stored) (ttl : Int) (h : s.failSet k = none) :
    s.Set k v ttl = (none, (s.Set k v ttl).2) := by
  unfold Storage.Set; rw [h]

theorem Delete_pair (s : Storage) (k : String) (h : s.failDelete k = none) :
    s.Delete k = (none, (s.Delete k).2) := by
  unfold Storage.Delete; rw [h]

end Storage

namespace Session

@[simp] theorem sessionSet_ID (sess : Session) (s : Storage) (key : String) (v : Value) :
    (sess.Set s key v).2.1.ID = sess.ID := by
  unfold Session.Set; split <;> rfl

@[simp] theorem sessionSet_keyPrefix (sess : Session) (s : Storage) (key : String) (v : Value) :
    (sess.Set s key v).2.1.keyPrefix = sess.keyPrefix := by
  unfold Session.Set; split <;> rfl

theorem sessionSet_find_ne (sess : Session) (s : Storage) (key : String) (v : Value) (k : String)
    (h : k ≠ sess.keyPrefix ++ SessionKeyPrefix ++ sess.ID) :
    (sess.Set s key v).2.2.find k = s.find k := by
  unfold Session.Set
  split
  · rfl
  · exact Storage.find_Set_ne s _ k _ _ h

@[simp] theorem sessionSet_failSet (sess : Session) (s : Storage) (key : String) (v : Value) :
    (sess.Set s key v).2.2.failSet = s.failSet := by
  unfold Session.Set
  split
  · rfl
  · exact Storage.Set_failSet _ _ _ _

@[simp] theorem sessionSet_failGet (sess : Session) (s : Storage) (key : String) (v : Value) :
    (sess.Set s key v).2.2.failGet = s.failGet := by
  unfold Session.Set
  split
  · rfl
  · exact Storage.Set_failGet _ _ _ _

@[simp] theorem sessionSet_failDelete (sess : Session) (s : Storage) (key : String) (v : Value) :
    (sess.Set s key v).2.2.failDelete = s.failDelete := by
  unfold Session.Set
  split
  · rfl
  · exact Storage.Set_failDelete _ _ _ _

end Session

namespace Manager

theorem kickout_cases (m : Manager) (s : Storage) (u dev : String) :
    m.kickout s u dev = (none, s) ∨
      ∃ t, s.failGet (m.getAccountKey u dev) = none ∧
        ((s.find (m.getAccountKey u dev)).map Entry.value) = some (.value (.str t)) ∧
        m.kickout s u dev = s.Delete (m.getTokenKey t) := by
  cases hf : s.failGet (m.getAccountKey u dev) with
  | some e => left; simp [kickout, Storage.Get, hf]
  | none =>
    cases hv : (s.find (m.getAccountKey u dev)).map Entry.value with
    | none => left; simp [kickout, Storage.Get, hf, hv]
    | some v =>
      cases v with
      | session sid data => left; simp [kickout, Storage.Get, hf, hv, assertString]
      | record fields => left; simp [kickout, Storage.Get, hf, hv, assertString]
      | value w =>
        cases w with
        | str t => right; exact ⟨t, rfl, rfl, by simp [kickout, Storage.Get, hf, hv, assertString]⟩
        | int n => left; simp [kickout, Storage.Get, hf, hv, assertString]
        | strSlice xs => left; simp [kickout, Storage.Get, hf, hv, assertString]
        | anySlice xs => left; simp [kickout, Storage.Get, hf, hv, assertString]

@[simp] theorem kickout_failSet (m : Manager) (s : Storage) (u dev : String) :
    (m.kickout s u dev).2.failSet = s.failSet := by
  rcases kickout_cases m s u dev with h | ⟨t, _, _, h⟩ <;> rw [h]
  exact Storage.Delete_failSet _ _

@[simp] theorem kickout_failGet (m : Manager) (s : Storage) (u dev : String) :
    (m.kickout s u dev).2.failGet = s.failGet := by
  rcases kickout_cases m s u dev with h | ⟨t, _, _, h⟩ <;> rw [h]
  exact Storage.Delete_failGet _ _

@[simp] theorem kickout_failDelete (m : Manager) (s : Storage) (u dev : String) :
    (m.kickout s u dev).2.failDelete = s.failDelete := by
  rcases kickout_cases m s u dev with h | ⟨t, _, _, h⟩ <;> rw [h]
  exact Storage.Delete_failDelete _ _

theorem loginSession_find (m : Manager) (s : Storage) (u dev : String) (now : Int)
    (k : String) (hk : k ≠ m.keyPrefix ++ SessionKeyPrefix ++ u) :
    (m.loginSession s u dev now).find k = s.find k := by
  unfold loginSession
  simp only []
  rw [Session.sessionSet_find_ne _ _ _ _ k (by simpa [Session.NewSession] using hk),
    Session.sessionSet_find_ne _ _ _ _ k (by simpa [Session.NewSession] using hk),
    Session.sessionSet_find_ne _ _ _ _ k (by simpa [Session.NewSession] using hk)]

@[simp] theorem loginSession_failSet (m : Manager) (s : Storage) (u dev : String) (now : Int) :
    (m.loginSession s u dev now).failSet = s.failSet := by
  simp [loginSession]

@[simp] theorem loginSession_failGet (m : Manager) (s : Storage) (u dev : String) (now : Int) :
    (m.loginSession s u dev now).failGet = s.failGet := by
  simp [loginSession]

@[simp] theorem loginSession_failDelete (m : Manager) (s : Storage) (u dev : String)
    (now : Int) : (m.loginSession s u dev now).failDelete = s.failDelete := by
  simp [loginSession]

/-- A login on a storage that accepts every write: the result and the two mappings
it leaves. -/
theorem Login_ok (m : Manager) (generate : Generate) (now : Int) (s : Storage)
    (u : String) (d : List String) (t : String)
    (hdis : m.IsDisable s u = false) (hset : ∀ k, s.failSet k = none)
    (hgen : generate u (getDevice d) = .ok t) :
    (m.Login generate now s u d).1 = (t, none) ∧
    (m.Login generate now s u d).2.find (m.getTokenKey t) =
      some ⟨.value (.str u), m.getExpiration⟩ ∧
    (m.Login generate now s u d).2.find (m.getAccountKey u (getDevice d)) =
      some ⟨.value (.str t), m.getExpiration⟩ ∧
    (m.Login generate now s u d).2.failGet = s.failGet ∧
    (m.Login generate now s u d).2.failDelete = s.failDelete ∧
    (m.Login generate now s u d).2.failSet = s.failSet := by
  unfold Login
  simp only [hdis, hgen, Bool.false_eq_true, if_false]
  generalize hs1 : (if (!m.config.IsConcurrent) = true then (m.kickout s u (getDevice d)).2 else s)
    = s1
  have h1set : s1.failSet = s.failSet := by
    rw [← hs1]; split <;> simp
  have h1get : s1.failGet = s.failGet := by
    rw [← hs1]; split <;> simp
  have h1del : s1.failDelete = s.failDelete := by
    rw [← hs1]; split <;> simp
  have hA : s1.failSet (m.getTokenKey t) = none := by rw [h1set]; exact hset _
  rw [Storage.Set_pair s1 _ _ _ hA]
  simp only []
  have hB : (s1.Set (m.getTokenKey t) (.value (.str u)) m.getExpiration).2.failSet
      (m.getAccountKey u (getDevice d)) = none := by simp [h1set, hset]
  rw [Storage.Set_pair _ _ _ _ hB]
  simp only []
  refine ⟨trivial, ?_, ?_, ?_, ?_, ?_⟩
  · rw [loginSession_find m _ u (getDevice d) now _ (tokenKey_ne_sessionKey m t u),
      Storage.find_Set_ne _ _ _ _ _ (tokenKey_ne_accountKey m t u (getDevice d)),
      Storage.find_Set_self _ _ _ _ hA]
  · rw [loginSession_find m _ u (getDevice d) now _ (accountKey_ne_sessionKey m u _ u),
      Storage.find_Set_self _ _ _ _ hB]
  · simp [h1get]
  · simp [h1del]
  · simp [h1set]

end Manager

/-! ## Lemmas on the token checks -/

namespace Manager

theorem IsLogin_eq (m : Manager) (s : Storage) (t : String) :
    m.IsLogin s t = (decide (t ≠ "") && (s.find (m.getTokenKey t)).isSome) := by
  unfold IsLogin Storage.Exists
  by_cases h : t = ""
  · simp [h]
  · cases hf : (s.find (m.getTokenKey t)).isSome <;> simp [h, hf]

theorem getLoginIDByToken_of_find (m : Manager) (s : Storage) (t u : String) (ttl : Int)
    (hget : s.failGet (m.getTokenKey t) = none)
    (hfind : s.find (m.getTokenKey t) = some ⟨.value (.str u), ttl⟩) :
    m.getLoginIDByToken s t = (u, none) := by
  simp [getLoginIDByToken, Storage.Get, hget, hfind, assertString]

theorem GetLoginID_of_find (m : Manager) (s : Storage) (t u : String) (ttl : Int)
    (ht : t ≠ "") (hget : s.failGet (m.getTokenKey t) = none)
    (hfind : s.find (m.getTokenKey t) = some ⟨.value (.str u), ttl⟩) :
    m.GetLoginID s t = (u, none) := by
  have h1 : m.IsLogin s t = true := by simp [IsLogin_eq, ht, hfind]
  simp [GetLoginID, h1, getTokenInfo, getLoginIDByToken_of_find m s t u ttl hget hfind]

theorem GetTokenValue_of_find (m : Manager) (s : Storage) (u : String) (d : List String)
    (t : String) (ttl : Int) (hget : s.failGet (m.getAccountKey u (getDevice d)) = none)
    (hfind : s.find (m.getAccountKey u (getDevice d)) = some ⟨.value (.str t), ttl⟩) :
    m.GetTokenValue s u d = (t, none) := by
  simp [GetTokenValue, Storage.Get, hget, hfind, assertString]

end Manager

/-! ## Lemmas on `Logout` and `Kickout` -/

namespace Storage

theorem Delete_snd_of_fail (s : Storage) (k : String) (e : Error)
    (h : s.failDelete k = some e) : (s.Delete k).2 = s := by
  rw [Delete_fail s k e h]

theorem Delete_Delete_self (s : Storage) (k : String) :
    ((s.Delete k).2.Delete k).2 = (s.Delete k).2 := by
  cases hf : s.failDelete k with
  | some e => rw [Delete_snd_of_fail s k e hf, Delete_snd_of_fail s k e hf]
  | none =>
    have h2 : (s.Delete k).2.failDelete k = none := by simp [hf]
    rw [Delete_ok _ k h2, Delete_ok s k hf]
    simp [removeKey_idem]

end Storage

namespace Manager

theorem Logout_cases (m : Manager) (s : Storage) (u : String) (d : List String) :
    m.Logout s u d = (none, s) ∨
      ∃ t, s.failGet (m.getAccountKey u (getDevice d)) = none ∧
        ((s.find (m.getAccountKey u (getDevice d))).map Entry.value) = some (.value (.str t)) ∧
        m.Logout s u d =
          (none, ((s.Delete (m.getTokenKey t)).2.Delete (m.getAccountKey u (getDevice d))).2) := by
  cases hf : s.failGet (m.getAccountKey u (getDevice d)) with
  | some e => left; simp [Logout, Storage.Get, hf]
  | none =>
    cases hv : (s.find (m.getAccountKey u (getDevice d))).map Entry.value with
    | none => left; simp [Logout, Storage.Get, hf, hv]
    | some v =>
      cases v with
      | session sid data => left; simp [Logout, Storage.Get, hf, hv, assertString]
      | record fields => left; simp [Logout, Storage.Get, hf, hv, assertString]
      | value w =>
        cases w with
        | str t => right; exact ⟨t, rfl, rfl, by simp [Logout, Storage.Get, hf, hv, assertString]⟩
        | int n => left; simp [Logout, Storage.Get, hf, hv, assertString]
        | strSlice xs => left; simp [Logout, Storage.Get, hf, hv, assertString]
        | anySlice xs => left; simp [Logout, Storage.Get, hf, hv, assertString]

/-- A second `Logout` returns nil and changes nothing, on every storage. -/
theorem Logout_idem (m : Manager) (s : Storage) (u : String) (d : List String) :
    m.Logout (m.Logout s u d).2 u d = (none, (m.Logout s u d).2) := by
  rcases Logout_cases m s u d with h | ⟨t, hget, hfind, h⟩
  · rw [h]; exact h
  · rw [h]
    simp only []
    rcases Logout_cases m ((s.Delete (m.getTokenKey t)).2.Delete
        (m.getAccountKey u (getDevice d))).2 u d with h2 | ⟨t2, _, hfind2, h2⟩
    · exact h2
    · rw [h2]
      cases hfa : s.failDelete (m.getAccountKey u (getDevice d)) with
      | none =>
        have hfa2 : (s.Delete (m.getTokenKey t)).2.failDelete
            (m.getAccountKey u (getDevice d)) = none := by simp [hfa]
        rw [Storage.find_Delete_self _ _ hfa2] at hfind2
        cases hfind2
      | some e =>
        have hfa2 : (s.Delete (m.getTokenKey t)).2.failDelete
            (m.getAccountKey u (getDevice d)) = some e := by simp [hfa]
        have hne : m.getAccountKey u (getDevice d) ≠ m.getTokenKey t :=
          fun e' => tokenKey_ne_accountKey m t u (getDevice d) e'.symm
        rw [Storage.Delete_snd_of_fail _ _ e hfa2] at hfind2 ⊢
        rw [Storage.find_Delete_ne _ _ _ hne, hfind] at hfind2
        have ht : t2 = t := by
          simp only [Option.some.injEq, Stored.value.injEq, Value.str.injEq] at hfind2
          exact hfind2.symm
        subst ht
        rw [Storage.Delete_Delete_self, Storage.Delete_snd_of_fail _ _ e hfa2]

theorem Logout_of_find (m : Manager) (s : Storage) (u : String) (d : List String)
    (t : String) (ttl : Int) (hget : s.failGet (m.getAccountKey u (getDevice d)) = none)
    (hfind : s.find (m.getAccountKey u (getDevice d)) = some ⟨.value (.str t), ttl⟩) :
    m.Logout s u d =
      (none, ((s.Delete (m.getTokenKey t)).2.Delete (m.getAccountKey u (getDevice d))).2) := by
  simp [Logout, Storage.Get, hget, hfind, assertString]

end Manager

theorem lookupKey_none_of_not_mem {β : Type} (k : String) (es : List (String × β))
    (h : k ∉ es.map Prod.fst) : lookupKey k es = none := by
  induction es with
  | nil => rfl
  | cons e es ih =>
    simp only [List.map_cons, List.mem_cons, not_or] at h
    rw [lookupKey, if_neg (fun e' => h.1 e'.symm)]
    exact ih h.2

theorem length_removeKey {β : Type} (k : String) (es : List (String × β))
    (hnd : (es.map Prod.fst).Nodup) :
    (removeKey k es).length + (if (lookupKey k es).isSome then 1 else 0) = es.length := by
  induction es with
  | nil => rfl
  | cons e es ih =>
    simp only [List.map_cons, List.nodup_cons] at hnd
    by_cases h : e.1 = k
    · have hn : lookupKey k es = none := lookupKey_none_of_not_mem k es (h ▸ hnd.1)
      rw [removeKey, if_pos h, lookupKey, if_pos h, removeKey_of_lookupKey_none k es hn]
      simp
    · rw [removeKey, if_neg h, lookupKey, if_neg h, List.length_cons, List.length_cons,
        ← ih hnd.2]
      omega

namespace Manager

theorem GetTokenValue_eq_iff (m : Manager) (s : Storage) (u : String) (d : List String)
    (t : String) :
    m.GetTokenValue s u d = (t, none) ↔
      s.failGet (m.getAccountKey u (getDevice d)) = none ∧
      (s.find (m.getAccountKey u (getDevice d))).map Entry.value = some (.value (.str t)) := by
  cases hf : s.failGet (m.getAccountKey u (getDevice d)) with
  | some e => simp [GetTokenValue, Storage.Get, hf]
  | none =>
    cases hv : (s.find (m.getAccountKey u (getDevice d))).map Entry.value with
    | none => simp [GetTokenValue, Storage.Get, hf, hv]
    | some v =>
      cases v with
      | session sid data => simp [GetTokenValue, Storage.Get, hf, hv, assertString]
      | record fields => simp [GetTokenValue, Storage.Get, hf, hv, assertString]
      | value w =>
        cases w <;> simp [GetTokenValue, Storage.Get, hf, hv, assertString]

theorem GetTokenValue_cases (m : Manager) (s : Storage) (u : String) (d : List String) :
    (m.GetTokenValue s u d).2 ≠ none ∨ ∃ t, m.GetTokenValue s u d = (t, none) := by
  cases hf : s.failGet (m.getAccountKey u (getDevice d)) with
  | some e => left; simp [GetTokenValue, Storage.Get, hf]
  | none =>
    cases hv : (s.find (m.getAccountKey u (getDevice d))).map Entry.value with
    | none => left; simp [GetTokenValue, Storage.Get, hf, hv]
    | some v =>
      cases v with
      | session sid data => left; simp [GetTokenValue, Storage.Get, hf, hv, assertString]
      | record fields => left; simp [GetTokenValue, Storage.Get, hf, hv, assertString]
      | value w =>
        cases w with
        | str t => right; exact ⟨t, by simp [GetTokenValue, Storage.Get, hf, hv, assertString]⟩
        | int n => left; simp [GetTokenValue, Storage.Get, hf, hv, assertString]
        | strSlice xs => left; simp [GetTokenValue, Storage.Get, hf, hv, assertString]
        | anySlice xs => left; simp [GetTokenValue, Storage.Get, hf, hv, assertString]

/-- `Kickout` either changes nothing, or deletes the token entry of the token that
`GetTokenValue` reads for the same identity and device. -/
theorem Kickout_eq (m : Manager) (s : Storage) (u : String) (d : List String) :
    ((∀ t, m.GetTokenValue s u d ≠ (t, none)) ∧ m.Kickout s u d = (none, s)) ∨
      ∃ t, m.GetTokenValue s u d = (t, none) ∧ m.Kickout s u d = s.Delete (m.getTokenKey t) := by
  unfold Kickout
  rcases kickout_cases m s u (getDevice d) with h | ⟨t, hget, hfind, h⟩
  · rcases GetTokenValue_cases m s u d with h2 | ⟨t, h2⟩
    · left
      refine ⟨fun t e => h2 ?_, h⟩
      rw [e]
    · obtain ⟨hget, hfind⟩ := (GetTokenValue_eq_iff m s u d t).1 h2
      right
      refine ⟨t, h2, ?_⟩
      simp [kickout, Storage.Get, hget, hfind, assertString]
  · right
    exact ⟨t, (GetTokenValue_eq_iff m s u d t).2 ⟨hget, hfind⟩, h⟩

end Manager

/-! ## Lemmas on permissions and roles -/

namespace Manager

theorem hasPermissionLoop_iff (permission : String) (perms : List String) :
    hasPermissionLoop permission perms = true ↔
      ∃ q, q ∈ perms ∧ matchPermission q permission = true := by
  induction perms with
  | nil => simp [hasPermissionLoop]
  | cons p rest ih =>
    by_cases h : matchPermission p permission = true
    · simp [hasPermissionLoop, h]
    · simp [hasPermissionLoop, h, ih]

theorem hasRoleLoop_iff (role : String) (roles : List String) :
    hasRoleLoop role roles = true ↔ role ∈ roles := by
  induction roles with
  | nil => simp [hasRoleLoop]
  | cons r rest ih =>
    by_cases h : r = role
    · simp [hasRoleLoop, h]
    · have h2 : ¬ role = r := fun e => h e.symm
      simp [hasRoleLoop, h, h2, ih]

theorem GetSession_snd (m : Manager) (s : Storage) (u : String) : (m.GetSession s u).2 = none := by
  unfold GetSession; split <;> rfl

theorem GetPermissions_snd (m : Manager) (s : Storage) (u : String) :
    (m.GetPermissions s u).2 = none := by
  unfold GetPermissions
  have h := GetSession_snd m s u
  split
  · rename_i e he; rw [he] at h; cases h
  · split <;> rfl

theorem GetRoles_snd (m : Manager) (s : Storage) (u : String) : (m.GetRoles s u).2 = none := by
  unfold GetRoles
  have h := GetSession_snd m s u
  split
  · rename_i e he; rw [he] at h; cases h
  · split <;> rfl

theorem HasPermission_eq (m : Manager) (s : Storage) (u p : String) :
    m.HasPermission s u p = hasPermissionLoop p (m.GetPermissions s u).1 := by
  unfold HasPermission
  have h := GetPermissions_snd m s u
  split
  · rename_i e he; rw [he] at h; cases h
  · rename_i perms he; rw [he]

theorem HasRole_eq (m : Manager) (s : Storage) (u r : String) :
    m.HasRole s u r = hasRoleLoop r (m.GetRoles s u).1 := by
  unfold HasRole
  have h := GetRoles_snd m s u
  split
  · rename_i e he; rw [he] at h; cases h
  · rename_i roles he; rw [he]

theorem GetSession_of_absent (m : Manager) (s : Storage) (u : String)
    (h : s.find (m.keyPrefix ++ SessionKeyPrefix ++ u) = none) :
    m.GetSession s u = (Session.NewSession u m.keyPrefix, none) := by
  unfold GetSession Session.Load Storage.Get
  cases hf : s.failGet (m.keyPrefix ++ SessionKeyPrefix ++ u) with
  | some e => rfl
  | none => simp [h]

end Manager

/-! ## Lemmas on the frame of `Login` -/

namespace Manager

theorem kickout_find_ne (m : Manager) (s : Storage) (u dev k : String)
    (hk : ∀ t0, (s.find (m.getAccountKey u dev)).map Entry.value = some (.value (.str t0)) →
      k ≠ m.getTokenKey t0) :
    (m.kickout s u dev).2.find k = s.find k := by
  rcases kickout_cases m s u dev with h | ⟨t0, _, hfind, h⟩
  · rw [h]
  · rw [h, Storage.find_Delete_ne _ _ _ (hk t0 hfind)]

/-- The entries that a successful `Login` leaves as the kick-out before it left them. -/
theorem Login_find_other (m : Manager) (generate : Generate) (now : Int) (s : Storage)
    (u : String) (d : List String) (t : String)
    (hdis : m.IsDisable s u = false) (hset : ∀ k, s.failSet k = none)
    (hgen : generate u (getDevice d) = .ok t) (k : String)
    (hk1 : k ≠ m.keyPrefix ++ SessionKeyPrefix ++ u)
    (hk2 : k ≠ m.getAccountKey u (getDevice d)) (hk3 : k ≠ m.getTokenKey t) :
    (m.Login generate now s u d).2.find k =
      (if (!m.config.IsConcurrent) = true then (m.kickout s u (getDevice d)).2 else s).find k := by
  unfold Login
  simp only [hdis, hgen, Bool.false_eq_true, if_false]
  generalize hs1 : (if (!m.config.IsConcurrent) = true then (m.kickout s u (getDevice d)).2 else s)
    = s1
  have h1set : s1.failSet = s.failSet := by
    rw [← hs1]; split <;> simp
  have hA : s1.failSet (m.getTokenKey t) = none := by rw [h1set]; exact hset _
  rw [Storage.Set_pair s1 _ _ _ hA]
  simp only []
  have hB : (s1.Set (m.getTokenKey t) (.value (.str u)) m.getExpiration).2.failSet
      (m.getAccountKey u (getDevice d)) = none := by simp [h1set, hset]
  rw [Storage.Set_pair _ _ _ _ hB]
  simp only []
  rw [loginSession_find m _ u (getDevice d) now _ hk1, Storage.find_Set_ne _ _ _ _ _ hk2,
    Storage.find_Set_ne _ _ _ _ _ hk3]

/-- A successful `Login` leaves every disable record as it was. -/
theorem Login_IsDisable (m : Manager) (generate : Generate) (now : Int) (s : Storage)
    (u : String) (d : List String) (t : String)
    (hdis : m.IsDisable s u = false) (hset : ∀ k, s.failSet k = none)
    (hgen : generate u (getDevice d) = .ok t) (v : String) :
    m.IsDisable (m.Login generate now s u d).2 v = m.IsDisable s v := by
  unfold IsDisable Storage.Exists
  rw [Login_find_other m generate now s u d t hdis hset hgen _
    (disableKey_ne_sessionKey m v u)
    (fun e => accountKey_ne_disableKey m u _ v e.symm)
    (fun e => tokenKey_ne_disableKey m t v e.symm)]
  split
  · rw [kickout_find_ne]
    intro t0 _ e
    exact tokenKey_ne_disableKey m t0 v e.symm
  · rfl

end Manager

namespace Manager

theorem kickout_of_find (m : Manager) (s : Storage) (u dev t : String) (ttl : Int)
    (hget : s.failGet (m.getAccountKey u dev) = none)
    (hfind : s.find (m.getAccountKey u dev) = some ⟨.value (.str t), ttl⟩) :
    m.kickout s u dev = s.Delete (m.getTokenKey t) := by
  simp [kickout, Storage.Get, hget, hfind, assertString]

end Manager

namespace Storage

theorem Set_fst (s : Storage) (k : String) (v : Stored) (ttl : Int) :
    (s.Set k v ttl).1 = s.failSet k := by
  unfold Storage.Set; split <;> simp [*]

theorem Delete_fst (s : Storage) (k : String) : (s.Delete k).1 = s.failDelete k := by
  unfold Storage.Delete; split <;> simp [*]

end Storage

namespace Manager

/-- A `LoginByToken` that returns nil has written both mappings. -/
theorem LoginByToken_ok (m : Manager) (s : Storage) (u t : String) (d : List String)
    (h : (m.LoginByToken s u t d).1 = none) :
    (m.LoginByToken s u t d).2.find (m.getTokenKey t) =
      some ⟨.value (.str u), m.getExpiration⟩ ∧
    (m.LoginByToken s u t d).2.find (m.getAccountKey u (getDevice d)) =
      some ⟨.value (.str t), m.getExpiration⟩ ∧
    (m.LoginByToken s u t d).2.failGet = s.failGet := by
  simp only [LoginByToken] at h ⊢
  cases hA : s.failSet (m.getTokenKey t) with
  | some e => simp [Storage.Set, hA] at h
  | none =>
    rw [Storage.Set_pair s _ _ _ hA] at h ⊢
    simp only [] at h ⊢
    cases hB : (s.Set (m.getTokenKey t) (.value (.str u)) m.getExpiration).2.failSet
        (m.getAccountKey u (getDevice d)) with
    | some e => rw [Storage.Set_fst, hB] at h; cases h
    | none =>
      refine ⟨?_, Storage.find_Set_self _ _ _ _ hB, by simp⟩
      rw [Storage.find_Set_ne _ _ _ _ _ (tokenKey_ne_accountKey m t u (getDevice d)),
        Storage.find_Set_self _ _ _ _ hA]

end Manager

namespace Manager

/-- `Logout` either changes nothing, or deletes the token entry of the token that
`GetTokenValue` reads and then the account entry. -/
theorem Logout_eq (m : Manager) (s : Storage) (u : String) (d : List String) :
    ((∀ t, m.GetTokenValue s u d ≠ (t, none)) ∧ m.Logout s u d = (none, s)) ∨
      ∃ t, m.GetTokenValue s u d = (t, none) ∧
        m.Logout s u d =
          (none, ((s.Delete (m.getTokenKey t)).2.Delete (m.getAccountKey u (getDevice d))).2) := by
  rcases Logout_cases m s u d with h | ⟨t, hget, hfind, h⟩
  · rcases GetTokenValue_cases m s u d with h2 | ⟨t, h2⟩
    · left
      refine ⟨fun t e => h2 ?_, h⟩
      rw [e]
    · obtain ⟨hget, hfind⟩ := (GetTokenValue_eq_iff m s u d t).1 h2
      right
      refine ⟨t, h2, ?_⟩
      simp [Logout, Storage.Get, hget, hfind, assertString]
  · right
    exact ⟨t, (GetTokenValue_eq_iff m s u d t).2 ⟨hget, hfind⟩, h⟩

theorem GetTokenValue_congr (m : Manager) (s s2 : Storage) (u : String) (d : List String)
    (hget : s2.failGet = s.failGet)
    (hfind : s2.find (m.getAccountKey u (getDevice d)) = s.find (m.getAccountKey u (getDevice d))) :
    m.GetTokenValue s2 u d = m.GetTokenValue s u d := by
  simp only [GetTokenValue, Storage.Get, hget, hfind]

theorem GetTokenValue_of_absent (m : Manager) (s : Storage) (u : String) (d : List String)
    (h : s.find (m.getAccountKey u (getDevice d)) = none) :
    (m.GetTokenValue s u d).2 ≠ none := by
  rcases GetTokenValue_cases m s u d with h2 | ⟨t, h2⟩
  · exact h2
  · obtain ⟨_, hfind⟩ := (GetTokenValue_eq_iff m s u d t).1 h2
    rw [h] at hfind
    cases hfind

end Manager

namespace Storage

theorem Set_fail (s : Storage) (k : String) (v : Stored) (ttl : Int) (e : Error)
    (h : s.failSet k = some e) : s.Set k v ttl = (some e, s) := by
  unfold Storage.Set; rw [h]

end Storage

/-! ## Lemmas on `GetDisableTime` and on segment-wise matching -/

namespace Manager

theorem GetDisableTime_of_error (m : Manager) (s : Storage) (u : String) (e : Error)
    (h : s.TTL (m.getDisableKey u) = .error e) : m.GetDisableTime s u = (-2, some e) := by
  simp [GetDisableTime, h]

theorem GetDisableTime_of_ok (m : Manager) (s : Storage) (u : String) (ttl : Int)
    (h : s.TTL (m.getDisableKey u) = .ok ttl) :
    m.GetDisableTime s u = (secondsInt64 ttl, none) := by
  simp [GetDisableTime, h]

end Manager

theorem zip_self_eq (l : List String) : ∀ pq, pq ∈ l.zip l → pq.1 = pq.2 := by
  induction l with
  | nil => intro pq h; cases h
  | cons x xs ih =>
    intro pq h
    rw [List.zip_cons_cons, List.mem_cons] at h
    rcases h with h | h
    · rw [h]
    · exact ih pq h

/-! ## Lemmas on the token generator -/

theorem pickChar_mem (alphabet : List Char) (h : alphabet ≠ []) (n : Nat) :
    pickChar alphabet n ∈ alphabet := by
  have hpos : 0 < alphabet.length := List.length_pos.2 h
  have hlt : n % alphabet.length < alphabet.length := Nat.mod_lt _ hpos
  unfold pickChar
  rw [List.getD_eq_getElem _ _ hlt]
  exact List.getElem_mem hlt

theorem length_randomChars (env : GenEnv) (alphabet : List Char) (start len : Nat) :
    (randomChars env alphabet start len).length = len := by
  simp [randomChars]

theorem mem_randomChars (env : GenEnv) (alphabet : List Char) (h : alphabet ≠ [])
    (start len : Nat) (c : Char) (hc : c ∈ randomChars env alphabet start len) :
    c ∈ alphabet := by
  simp only [randomChars, List.mem_map] at hc
  obtain ⟨i, _, hi⟩ := hc
  rw [← hi]
  exact pickChar_mem alphabet h _

theorem length_flatMap_hexOfByte (f : Nat → Nat) (l : List Nat) :
    (l.flatMap (fun i => hexOfByte (f i))).length = 2 * l.length := by
  induction l with
  | nil => rfl
  | cons x xs ih =>
    rw [List.flatMap_cons, List.length_append, ih]
    simp [hexOfByte]
    omega

theorem mem_flatMap_hexOfByte (f : Nat → Nat) (l : List Nat) (c : Char)
    (hc : c ∈ l.flatMap (fun i => hexOfByte (f i))) : c ∈ hexAlphabet := by
  simp only [List.mem_flatMap, hexOfByte, List.mem_cons, List.mem_singleton] at hc
  obtain ⟨i, _, hi⟩ := hc
  have hne : hexAlphabet ≠ [] := by decide
  rcases hi with h | h | h
  · rw [h]; exact pickChar_mem _ hne _
  · rw [h]; exact pickChar_mem _ hne _
  · cases h

theorem alnumAlphabet_chars :
    ∀ c, c ∈ alnumAlphabet →
      ('0' ≤ c ∧ c ≤ '9') ∨ ('A' ≤ c ∧ c ≤ 'Z') ∨ ('a' ≤ c ∧ c ≤ 'z') := by
  decide

theorem ne_empty_of_data (t : String) (h : t.data ≠ []) : t ≠ "" := by
  intro e
  rw [e] at h
  exact h rfl

theorem randomChars_ne_nil (env : GenEnv) (alphabet : List Char) (start len : Nat)
    (h : 0 < len) : randomChars env alphabet start len ≠ [] := by
  intro e
  have := length_randomChars env alphabet start len
  rw [e] at this
  simp at this
  omega

theorem Generate_isOk (cfg : Config) (env : GenEnv) (loginID device : String)
    (hsecret : cfg.JwtSecretKey ≠ "") :
    ∃ t, Generator.Generate cfg env loginID device = .ok t := by
  cases hstyle : cfg.TokenStyle <;> simp [Generator.Generate, hstyle, hsecret]

theorem Generate_ne_empty (cfg : Config) (env : GenEnv) (loginID device t : String)
    (h : Generator.Generate cfg env loginID device = .ok t) : t ≠ "" := by
  apply ne_empty_of_data
  cases hstyle : cfg.TokenStyle <;> simp only [Generator.Generate, hstyle] at h
  · injection h with h; subst h; simp
  · injection h with h; subst h; exact randomChars_ne_nil _ _ _ _ (by decide)
  · injection h with h; subst h; exact randomChars_ne_nil _ _ _ _ (by decide)
  · injection h with h; subst h; exact randomChars_ne_nil _ _ _ _ (by decide)
  · injection h with h; subst h; exact randomChars_ne_nil _ _ _ _ (by decide)
  · split at h
    · cases h
    · injection h with h; subst h; simp
  · injection h with h; subst h
    intro e
    have hl := length_flatMap_hexOfByte
      (fun i => env.digest (loginID ++ device ++ ⟨randomChars env hexAlphabet 0 16⟩) i % 256)
      (List.range 32)
    simp only [] at e
    rw [e] at hl
    simp at hl
  · injection h with h; subst h; simp
  · injection h with h; subst h; exact randomChars_ne_nil _ _ _ _ (by decide)

/-- With a JWT secret configured the generator returns a non-empty token. -/
theorem Generate_ok_nonempty (cfg : Config) (env : GenEnv) (loginID device : String)
    (hsecret : cfg.JwtSecretKey ≠ "") :
    ∃ t, Generator.Generate cfg env loginID device = .ok t ∧ t ≠ "" := by
  obtain ⟨t, ht⟩ := Generate_isOk cfg env loginID device hsecret
  exact ⟨t, ht, Generate_ne_empty cfg env loginID device t ht⟩

namespace Manager

/-- A `Login` that returns a token with no error was not refused for a disable
record and returns the token that the generator gave. -/
theorem Login_success_generate (m : Manager) (g : Generate) (now : Int) (s : Storage)
    (u : String) (d : List String) (t : String)
    (h : (m.Login g now s u d).1 = (t, none)) :
    m.IsDisable s u = false ∧ g u (getDevice d) = .ok t := by
  simp only [Login] at h
  cases hd : m.IsDisable s u with
  | true => simp [hd] at h
  | false =>
    refine ⟨rfl, ?_⟩
    simp only [hd, Bool.false_eq_true, if_false] at h
    cases hg : g u (getDevice d) with
    | error e => simp [hg] at h
    | ok t2 =>
      simp only [hg] at h
      generalize (if (!m.config.IsConcurrent) = true then (m.kickout s u (getDevice d)).2
        else s) = s1 at h
      cases hA : s1.failSet (m.getTokenKey t2) with
      | some e => rw [Storage.Set_fail s1 _ _ _ e hA] at h; simp at h
      | none =>
        rw [Storage.Set_pair s1 _ _ _ hA] at h
        simp only [] at h
        cases hB : (s1.Set (m.getTokenKey t2) (.value (.str u)) m.getExpiration).2.failSet
            (m.getAccountKey u (getDevice d)) with
        | some e => rw [Storage.Set_fail _ _ _ _ e hB] at h; simp at h
        | none =>
          rw [Storage.Set_pair _ _ _ _ hB] at h
          simp only [Prod.mk.injEq, and_true] at h
          rw [h]

end Manager

/-! ## Lemmas on the nonce manager -/

namespace Storage

theorem find_Delete_of_none (s : Storage) (k k2 : String) (h : s.find k2 = none) :
    (s.Delete k).2.find k2 = none := by
  by_cases hk : k2 = k
  · subst hk
    cases hf : s.failDelete k2 with
    | some e => rw [Delete_snd_of_fail s k2 e hf]; exact h
    | none => exact find_Delete_self s k2 hf
  · rw [find_Delete_ne s k k2 hk]; exact h

end Storage

namespace NonceManager

theorem Verify_of_absent (nm : NonceManager) (s : Storage) (x : String)
    (h : s.find (nm.getNonceKey x) = none) : nm.Verify s x = (false, s) := by
  simp [Verify, Storage.Exists, h]

theorem Verify_keeps_absent (nm : NonceManager) (s : Storage) (x n : String)
    (h : s.find (nm.getNonceKey n) = none) :
    (nm.Verify s x).2.find (nm.getNonceKey n) = none := by
  unfold Verify
  split
  · exact h
  · have := Storage.find_Delete_of_none s (nm.getNonceKey x) (nm.getNonceKey n) h
    split
    · rename_i e s1 heq; rw [heq] at this; exact this
    · rename_i s1 heq; rw [heq] at this; exact this

theorem Verify_of_present (nm : NonceManager) (s : Storage) (x : String)
    (h : (s.find (nm.getNonceKey x)).isSome = true)
    (hdel : s.failDelete (nm.getNonceKey x) = none) :
    nm.Verify s x = (true, (s.Delete (nm.getNonceKey x)).2) := by
  unfold Verify
  rw [Storage.Delete_pair s _ hdel]
  simp [Storage.Exists, h]

theorem Generate_ok (nm : NonceManager) (env : GenEnv) (s : Storage) (n : String)
    (h : (nm.Generate env s).1 = (n, none)) :
    (nm.Generate env s).2.find (nm.getNonceKey n) = some ⟨.value (.int env.now), nm.ttl⟩ ∧
    (nm.Generate env s).2.failDelete = s.failDelete := by
  simp only [Generate] at h ⊢
  cases hf : s.failSet (nm.getNonceKey ⟨randomChars env hexAlphabet 0 32⟩) with
  | some e => rw [Storage.Set_fail s _ _ _ e hf] at h; simp at h
  | none =>
    rw [Storage.Set_pair s _ _ _ hf] at h ⊢
    simp only [Prod.mk.injEq, and_true] at h
    subst h
    exact ⟨Storage.find_Set_self s _ _ _ hf, by simp⟩

theorem Verify_after_list (nm : NonceManager) (n : String) (later : List String) :
    ∀ s : Storage, s.find (nm.getNonceKey n) = none →
      (later.foldl (fun st x => (nm.Verify st x).2) s).find (nm.getNonceKey n) = none := by
  induction later with
  | nil => intro s h; exact h
  | cons x xs ih =>
    intro s h
    rw [List.foldl_cons]
    exact ih _ (Verify_keeps_absent nm s x n h)

end NonceManager

/-! ## Lemmas on the refresh-token manager -/

/-- Whether the generator succeeds depends on the configuration only. -/
theorem Generate_isOk_of_ok (cfg : Config) (env env2 : GenEnv) (a b a2 b2 t : String)
    (h : Generator.Generate cfg env a b = .ok t) :
    ∃ t2, Generator.Generate cfg env2 a2 b2 = .ok t2 := by
  by_cases hsecret : cfg.JwtSecretKey = ""
  · cases hstyle : cfg.TokenStyle <;>
      simp [Generator.Generate, hstyle, hsecret] at h ⊢
  · exact Generate_isOk cfg env2 a2 b2 hsecret

namespace RefreshTokenManager

theorem refreshKey_ne_accessKey (rm : RefreshTokenManager) (x y : String) :
    rm.getRefreshKey x ≠ rm.getAccessKey y := by
  intro h
  unfold getRefreshKey getAccessKey at h
  simp only [String.append_assoc] at h
  have h2 := append_left_cancel_data _ _ _ h
  simp [RefreshKeyPrefix, AccessKeyPrefix] at h2

/-- A successful `GenerateTokenPair`: the tokens come from the generator and the
refresh record is in the storage. -/
theorem GenerateTokenPair_ok (rm : RefreshTokenManager) (envA envR : GenEnv) (s : Storage)
    (u d : String) (info : RefreshTokenInfo)
    (h : (rm.GenerateTokenPair envA envR s u d).1 = .ok info) :
    Generator.Generate rm.config envA u d = .ok info.AccessToken ∧
    (rm.GenerateTokenPair envA envR s u d).2.find (rm.getRefreshKey info.RefreshToken) =
      some ⟨.record [("loginId", .str u), ("device", .str d)], RefreshTokenTTL⟩ ∧
    (rm.GenerateTokenPair envA envR s u d).2.failGet = s.failGet ∧
    (rm.GenerateTokenPair envA envR s u d).2.failSet = s.failSet := by
  simp only [GenerateTokenPair] at h ⊢
  cases hA : Generator.Generate rm.config envA u d with
  | error e => simp [hA] at h
  | ok accessToken =>
    simp only [hA] at h ⊢
    cases hR : Generator.Generate rm.config envR u d with
    | error e => simp [hR] at h
    | ok refreshToken =>
      simp only [hR] at h ⊢
      cases hf1 : s.failSet (rm.getRefreshKey refreshToken) with
      | some e => rw [Storage.Set_fail s _ _ _ e hf1] at h; simp at h
      | none =>
        rw [Storage.Set_pair s _ _ _ hf1] at h ⊢
        simp only [] at h ⊢
        cases hf2 : (s.Set (rm.getRefreshKey refreshToken)
            (.record [("loginId", .str u), ("device", .str d)]) RefreshTokenTTL).2.failSet
            (rm.getAccessKey accessToken) with
        | some e => rw [Storage.Set_fail _ _ _ _ e hf2] at h; simp at h
        | none =>
          rw [Storage.Set_pair _ _ _ _ hf2] at h ⊢
          simp only [Except.ok.injEq] at h
          subst h
          refine ⟨rfl, ?_, by simp, by simp⟩
          rw [Storage.find_Set_ne _ _ _ _ _ (refreshKey_ne_accessKey rm _ _),
            Storage.find_Set_self _ _ _ _ hf1]

theorem RefreshAccessToken_of_absent (rm : RefreshTokenManager) (env : GenEnv) (s : Storage)
    (rt : String) (h : s.find (rm.getRefreshKey rt) = none) :
    rm.RefreshAccessToken env s rt = (.error .ErrInvalidRefreshToken, s) := by
  unfold RefreshAccessToken Storage.Get
  cases hf : s.failGet (rm.getRefreshKey rt) <;> simp [h]

theorem RefreshAccessToken_of_record (rm : RefreshTokenManager) (env : GenEnv) (s : Storage)
    (rt u d accessToken : String) (ttl : Int)
    (hget : s.failGet (rm.getRefreshKey rt) = none)
    (hfind : s.find (rm.getRefreshKey rt) =
      some ⟨.record [("loginId", .str u), ("device", .str d)], ttl⟩)
    (hgen : Generator.Generate rm.config env u d = .ok accessToken)
    (hset : s.failSet (rm.getAccessKey accessToken) = none) :
    (rm.RefreshAccessToken env s rt).1 =
      .ok ⟨accessToken, rt, u, d, env.now + rm.config.Timeout⟩ := by
  unfold RefreshAccessToken
  rw [Storage.Get_eq s _ hget, hfind]
  simp only [Option.map_some', lookupKey]
  simp only [if_true, if_neg (show ¬ "loginId" = "device" by decide), hgen]
  rw [Storage.Set_pair s _ _ _ hset]

end RefreshTokenManager

/-! ## Lemmas on the OAuth2 server -/

namespace OAuth2Server

theorem tokenKey_ne_codeKey (srv : OAuth2Server) (x y : String) :
    srv.getTokenKey x ≠ srv.getCodeKey y := by
  intro h
  unfold getTokenKey getCodeKey at h
  simp only [String.append_assoc] at h
  have h2 := append_left_cancel_data _ _ _ h
  simp [OAuth2TokenKeyPrefix, OAuth2CodeKeyPrefix] at h2

theorem refreshKey_ne_codeKey (srv : OAuth2Server) (x y : String) :
    srv.getRefreshKey x ≠ srv.getCodeKey y := by
  intro h
  unfold getRefreshKey getCodeKey at h
  simp only [String.append_assoc] at h
  have h2 := append_left_cancel_data _ _ _ h
  simp [OAuth2RefreshKeyPrefix, OAuth2CodeKeyPrefix] at h2

/-- A successful `GenerateAuthorizationCode`: the code record is in the storage. -/
theorem GenerateAuthorizationCode_ok (srv : OAuth2Server) (env : GenEnv) (s : Storage)
    (cid r user : String) (scopes : List String) (code : AuthorizationCode)
    (h : (srv.GenerateAuthorizationCode env s cid r user scopes).1 = .ok code) :
    (srv.GenerateAuthorizationCode env s cid r user scopes).2.find (srv.getCodeKey code.Code) =
      some ⟨.record [("clientId", .str cid), ("redirectUri", .str r), ("userId", .str user),
        ("scopes", .strSlice scopes)], OAuth2CodeTTL⟩ ∧
    (srv.GenerateAuthorizationCode env s cid r user scopes).2.failGet = s.failGet ∧
    (srv.GenerateAuthorizationCode env s cid r user scopes).2.failSet = s.failSet ∧
    (srv.GenerateAuthorizationCode env s cid r user scopes).2.failDelete = s.failDelete := by
  simp only [GenerateAuthorizationCode] at h ⊢
  cases hreg : lookupKey cid srv.clients with
  | none => simp [hreg] at h
  | some client =>
    simp only [hreg] at h ⊢
    by_cases hr : r ∈ client.RedirectURIs
    · simp only [hr, not_true_eq_false, if_false] at h ⊢
      cases hf : s.failSet (srv.getCodeKey ⟨randomChars env hexAlphabet 0 32⟩) with
      | some e => rw [Storage.Set_fail s _ _ _ e hf] at h; simp at h
      | none =>
        rw [Storage.Set_pair s _ _ _ hf] at h ⊢
        simp only [Except.ok.injEq] at h
        subst h
        exact ⟨Storage.find_Set_self _ _ _ _ hf, by simp, by simp, by simp⟩
    · simp [hr] at h

theorem GenerateAuthorizationCode_unregistered (srv : OAuth2Server) (env : GenEnv) (s : Storage)
    (cid r user : String) (scopes : List String) (h : lookupKey cid srv.clients = none) :
    srv.GenerateAuthorizationCode env s cid r user scopes = (.error .ErrInvalidClient, s) := by
  simp only [GenerateAuthorizationCode, h]

theorem GenerateAuthorizationCode_bad_redirect (srv : OAuth2Server) (env : GenEnv) (s : Storage)
    (cid r user : String) (scopes : List String) (client : OAuth2Client)
    (h : lookupKey cid srv.clients = some client) (hr : r ∉ client.RedirectURIs) :
    srv.GenerateAuthorizationCode env s cid r user scopes =
      (.error .ErrInvalidRedirectURI, s) := by
  simp only [GenerateAuthorizationCode, h, hr, not_false_eq_true, if_true]

/-- An exchange with matching credentials of a stored code succeeds and consumes the
code. -/
theorem ExchangeCodeForToken_of_code (srv : OAuth2Server) (env : GenEnv) (s : Storage)
    (code cid r user : String) (scopes : List String) (client : OAuth2Client) (ttl : Int)
    (hreg : lookupKey cid srv.clients = some client)
    (hget : s.failGet (srv.getCodeKey code) = none)
    (hfind : s.find (srv.getCodeKey code) =
      some ⟨.record [("clientId", .str cid), ("redirectUri", .str r), ("userId", .str user),
        ("scopes", .strSlice scopes)], ttl⟩)
    (hdel : s.failDelete (srv.getCodeKey code) = none)
    (hset : ∀ k, s.failSet k = none) :
    (srv.ExchangeCodeForToken env s code cid client.ClientSecret r).1 =
      .ok ⟨⟨randomChars env hexAlphabet 0 32⟩, "Bearer", user, cid, scopes,
        OAuth2TokenExpiresIn, ⟨randomChars env hexAlphabet 32 32⟩⟩ ∧
    (srv.ExchangeCodeForToken env s code cid client.ClientSecret r).2.find
      (srv.getCodeKey code) = none ∧
    (srv.ExchangeCodeForToken env s code cid client.ClientSecret r).2.failGet = s.failGet := by
  simp only [ExchangeCodeForToken, hreg, ne_eq, not_true_eq_false, if_false]
  rw [Storage.Get_eq s _ hget, hfind]
  simp only [Option.map_some', lookupKey]
  simp only [if_true, if_neg (show ¬ "clientId" = "redirectUri" by decide),
    if_neg (show ¬ "clientId" = "userId" by decide),
    if_neg (show ¬ "redirectUri" = "userId" by decide),
    if_neg (show ¬ "clientId" = "scopes" by decide),
    if_neg (show ¬ "redirectUri" = "scopes" by decide),
    if_neg (show ¬ "userId" = "scopes" by decide)]
  rw [Storage.Delete_pair s _ hdel]
  simp only []
  rw [Storage.Set_pair _ _ _ _ (by rw [Storage.Delete_failSet]; exact hset _)]
  simp only []
  rw [Storage.Set_pair _ _ _ _
    (by rw [Storage.Set_failSet, Storage.Delete_failSet]; exact hset _)]
  simp only [not_true_eq_false, if_false, true_and]
  refine ⟨?_, by simp⟩
  rw [Storage.find_Set_ne _ _ _ _ _ (refreshKey_ne_codeKey srv _ _).symm,
    Storage.find_Set_ne _ _ _ _ _ (tokenKey_ne_codeKey srv _ _).symm,
    Storage.find_Delete_self _ _ hdel]

/-- An exchange with a registered client and its secret of a code that is not
stored fails with `ErrInvalidCode`. -/
theorem ExchangeCodeForToken_of_absent (srv : OAuth2Server) (env : GenEnv) (s : Storage)
    (code cid r : String) (client : OAuth2Client)
    (hreg : lookupKey cid srv.clients = some client)
    (hget : s.failGet (srv.getCodeKey code) = none)
    (hfind : s.find (srv.getCodeKey code) = none) :
    srv.ExchangeCodeForToken env s code cid client.ClientSecret r =
      (.error .ErrInvalidCode, s) := by
  simp only [ExchangeCodeForToken, hreg, ne_eq, not_true_eq_false, if_false]
  rw [Storage.Get_eq s _ hget, hfind]
  rfl

end OAuth2Server

/-! ## Lemmas on histories of calls -/

namespace Manager

theorem Consistent_empty (m : Manager) : m.Consistent Storage.empty [] :=
  { failSet := fun _ => rfl
    failGet := fun _ => rfl
    failDelete := fun _ => rfl
    token := fun t e he => by cases he
    unique := fun t u d u2 d2 hi => by cases hi
    account := fun u d e he => by cases he
    current := fun _ t u d hi => by cases hi }

/-- The invariant only looks at the token entries and the account entries. -/
theorem Consistent_of_find_eq (m : Manager) (s s2 : Storage) (issued : Issued)
    (h : m.Consistent s issued)
    (hs : s2.failSet = s.failSet) (hg : s2.failGet = s.failGet)
    (hd : s2.failDelete = s.failDelete)
    (ht : ∀ t, s2.find (m.getTokenKey t) = s.find (m.getTokenKey t))
    (ha : ∀ u d, s2.find (m.getAccountKey u d) = s.find (m.getAccountKey u d)) :
    m.Consistent s2 issued :=
  { failSet := fun k => by rw [hs]; exact h.failSet k
    failGet := fun k => by rw [hg]; exact h.failGet k
    failDelete := fun k => by rw [hd]; exact h.failDelete k
    token := fun t e he => h.token t e (by rw [← ht]; exact he)
    unique := h.unique
    account := fun u d e he => h.account u d e (by rw [← ha]; exact he)
    current := fun hc t u d hi hp => by
      rw [ha]
      exact h.current hc t u d hi (by rw [← ht]; exact hp) }

/-- Deleting a token entry keeps the invariant. -/
theorem Consistent_deleteToken (m : Manager) (s : Storage) (issued : Issued) (t0 : String)
    (h : m.Consistent s issued) : m.Consistent (s.Delete (m.getTokenKey t0)).2 issued :=
  { failSet := fun k => by rw [Storage.Delete_failSet]; exact h.failSet k
    failGet := fun k => by rw [Storage.Delete_failGet]; exact h.failGet k
    failDelete := fun k => by rw [Storage.Delete_failDelete]; exact h.failDelete k
    token := fun t e he => by
      by_cases htt : t = t0
      · subst htt
        rw [Storage.find_Delete_self _ _ (h.failDelete _)] at he
        cases he
      · rw [Storage.find_Delete_ne _ _ _ (fun e2 => htt (tokenKey_inj m _ _ e2))] at he
        exact h.token t e he
    unique := h.unique
    account := fun u d e he => by
      rw [Storage.find_Delete_ne _ _ _ (fun e2 => tokenKey_ne_accountKey m _ _ _ e2.symm)] at he
      exact h.account u d e he
    current := fun hc t u d hi hp => by
      rw [Storage.find_Delete_ne _ _ _ (fun e2 => tokenKey_ne_accountKey m _ _ _ e2.symm)]
      apply h.current hc t u d hi
      by_cases htt : t = t0
      · subst htt
        rw [Storage.find_Delete_self _ _ (h.failDelete _)] at hp
        exact absurd rfl hp
      · rw [Storage.find_Delete_ne _ _ _ (fun e2 => htt (tokenKey_inj m _ _ e2))] at hp
        exact hp }

/-- Deleting an account entry whose token has no token entry keeps the invariant. -/
theorem Consistent_deleteAccount (m : Manager) (s : Storage) (issued : Issued)
    (u0 d0 : String) (h : m.Consistent s issued)
    (hclear : ∀ e t, s.find (m.getAccountKey u0 d0) = some e → e.value = .value (.str t) →
      s.find (m.getTokenKey t) = none) :
    m.Consistent (s.Delete (m.getAccountKey u0 d0)).2 issued :=
  { failSet := fun k => by rw [Storage.Delete_failSet]; exact h.failSet k
    failGet := fun k => by rw [Storage.Delete_failGet]; exact h.failGet k
    failDelete := fun k => by rw [Storage.Delete_failDelete]; exact h.failDelete k
    token := fun t e he => by
      rw [Storage.find_Delete_ne _ _ _ (tokenKey_ne_accountKey m _ _ _)] at he
      exact h.token t e he
    unique := h.unique
    account := fun u d e he => by
      by_cases hk : m.getAccountKey u d = m.getAccountKey u0 d0
      · rw [hk, Storage.find_Delete_self _ _ (h.failDelete _)] at he
        cases he
      · rw [Storage.find_Delete_ne _ _ _ hk] at he
        exact h.account u d e he
    current := fun hc t u d hi hp => by
      rw [Storage.find_Delete_ne _ _ _ (tokenKey_ne_accountKey m _ _ _)] at hp
      obtain ⟨e, he, hv⟩ := h.current hc t u d hi hp
      by_cases hk : m.getAccountKey u d = m.getAccountKey u0 d0
      · rw [hk] at he
        exact absurd (hclear e t he hv) hp
      · exact ⟨e, by rw [Storage.find_Delete_ne _ _ _ hk]; exact he, hv⟩ }

end Manager

namespace Manager

/-- Writing the two entries of a login with a new token keeps the invariant, if,
when concurrent login is not allowed, the token that the account entry held has
no token entry left. -/
theorem Consistent_login (m : Manager) (s : Storage) (issued : Issued) (t u d : String)
    (e1 e2 : Int) (h : m.Consistent s issued) (hfresh : t ∉ issued.map Prod.fst)
    (hclear : m.config.IsConcurrent = false → ∀ e t0,
      s.find (m.getAccountKey u d) = some e → e.value = .value (.str t0) →
      s.find (m.getTokenKey t0) = none) :
    m.Consistent ((s.Set (m.getTokenKey t) (.value (.str u)) e1).2.Set (m.getAccountKey u d)
      (.value (.str t)) e2).2 ((t, u, d) :: issued) := by
  have hA : s.failSet (m.getTokenKey t) = none := h.failSet _
  have hB : (s.Set (m.getTokenKey t) (.value (.str u)) e1).2.failSet (m.getAccountKey u d)
      = none := by rw [Storage.Set_failSet]; exact h.failSet _
  have hself : ((s.Set (m.getTokenKey t) (.value (.str u)) e1).2.Set (m.getAccountKey u d)
      (.value (.str t)) e2).2.find (m.getTokenKey t) = some ⟨.value (.str u), e1⟩ := by
    rw [Storage.find_Set_ne _ _ _ _ _ (tokenKey_ne_accountKey m _ _ _),
      Storage.find_Set_self _ _ _ _ hA]
  have htok : ∀ t2, t2 ≠ t →
      ((s.Set (m.getTokenKey t) (.value (.str u)) e1).2.Set (m.getAccountKey u d)
        (.value (.str t)) e2).2.find (m.getTokenKey t2) = s.find (m.getTokenKey t2) := by
    intro t2 hne
    rw [Storage.find_Set_ne _ _ _ _ _ (tokenKey_ne_accountKey m _ _ _),
      Storage.find_Set_ne _ _ _ _ _ (fun e => hne (tokenKey_inj m _ _ e))]
  have hacc : ∀ k, k ≠ m.getAccountKey u d → (∀ t2, k ≠ m.getTokenKey t2) →
      ((s.Set (m.getTokenKey t) (.value (.str u)) e1).2.Set (m.getAccountKey u d)
        (.value (.str t)) e2).2.find k = s.find k := by
    intro k hne hnt
    rw [Storage.find_Set_ne _ _ _ _ _ hne, Storage.find_Set_ne _ _ _ _ _ (hnt t)]
  have hnew : ∀ u2 d2, (t, u2, d2) ∉ issued := by
    intro u2 d2 hi
    exact hfresh (List.mem_map.2 ⟨_, hi, rfl⟩)
  refine
    { failSet := fun k => by rw [Storage.Set_failSet, Storage.Set_failSet]; exact h.failSet k
      failGet := fun k => by rw [Storage.Set_failGet, Storage.Set_failGet]; exact h.failGet k
      failDelete := fun k => by
        rw [Storage.Set_failDelete, Storage.Set_failDelete]; exact h.failDelete k
      token := ?_, unique := ?_, account := ?_, current := ?_ }
  · intro t2 e he
    by_cases htt : t2 = t
    · subst htt
      rw [hself] at he
      cases he
      exact ⟨u, d, List.mem_cons_self _ _, rfl⟩
    · rw [htok t2 htt] at he
      obtain ⟨u2, d2, hi, hv⟩ := h.token t2 e he
      exact ⟨u2, d2, List.mem_cons_of_mem _ hi, hv⟩
  · intro t2 a b a2 b2 h1 h2
    rcases List.mem_cons.1 h1 with h1 | h1 <;> rcases List.mem_cons.1 h2 with h2 | h2
    · cases h1; cases h2; exact ⟨rfl, rfl⟩
    · cases h1; exact absurd h2 (hnew _ _)
    · cases h2; exact absurd h1 (hnew _ _)
    · exact h.unique t2 a b a2 b2 h1 h2
  · intro u2 d2 e he
    by_cases hk : m.getAccountKey u2 d2 = m.getAccountKey u d
    · rw [hk, Storage.find_Set_self _ _ _ _ hB] at he
      cases he
      exact ⟨t, u, d, rfl, List.mem_cons_self _ _, hk.symm⟩
    · rw [hacc _ hk (fun t2 e2 => tokenKey_ne_accountKey m _ _ _ e2.symm)] at he
      obtain ⟨t2, a, b, hv, hi, hkey⟩ := h.account u2 d2 e he
      exact ⟨t2, a, b, hv, List.mem_cons_of_mem _ hi, hkey⟩
  · intro hc t2 a b hi hp
    rcases List.mem_cons.1 hi with hi | hi
    · cases hi
      exact ⟨_, Storage.find_Set_self _ _ _ _ hB, rfl⟩
    · have htt : t2 ≠ t := fun e => hnew a b (e ▸ hi)
      rw [htok t2 htt] at hp
      obtain ⟨e, he, hv⟩ := h.current hc t2 a b hi hp
      by_cases hk : m.getAccountKey a b = m.getAccountKey u d
      · rw [hk] at he
        exact absurd (hclear hc e t2 he hv) hp
      · exact ⟨e, by
          rw [hacc _ hk (fun t3 e3 => tokenKey_ne_accountKey m _ _ _ e3.symm)]; exact he, hv⟩

/-- After `kickout`, the token that the account entry holds has no token entry. -/
theorem kickout_clears (m : Manager) (s : Storage) (u dev : String)
    (hget : ∀ k, s.failGet k = none) (hdel : ∀ k, s.failDelete k = none) (e : Entry)
    (t0 : String) (he : (m.kickout s u dev).2.find (m.getAccountKey u dev) = some e)
    (hv : e.value = .value (.str t0)) :
    (m.kickout s u dev).2.find (m.getTokenKey t0) = none := by
  rw [kickout_find_ne m s u dev _ (fun t1 _ e2 => tokenKey_ne_accountKey m _ _ _ e2.symm)] at he
  cases e with
  | mk v ttl =>
    simp only at hv
    subst hv
    rw [kickout_of_find m s u dev t0 ttl (hget _) he]
    exact Storage.find_Delete_self _ _ (hdel _)

/-- The storage that a successful `Login` leaves, on a storage that accepts every
write. -/
theorem Login_snd_of_ok (m : Manager) (generate : Generate) (now : Int) (s : Storage)
    (u : String) (d : List String) (t : String)
    (hdis : m.IsDisable s u = false) (hset : ∀ k, s.failSet k = none)
    (hgen : generate u (getDevice d) = .ok t) :
    (m.Login generate now s u d).2 =
      m.loginSession
        (((if (!m.config.IsConcurrent) = true then (m.kickout s u (getDevice d)).2 else s).Set
          (m.getTokenKey t) (.value (.str u)) m.getExpiration).2.Set
          (m.getAccountKey u (getDevice d)) (.value (.str t)) m.getExpiration).2
        u (getDevice d) now := by
  unfold Login
  simp only [hdis, hgen, Bool.false_eq_true, if_false]
  generalize hs1 : (if (!m.config.IsConcurrent) = true then (m.kickout s u (getDevice d)).2 else s)
    = s1
  have h1set : s1.failSet = s.failSet := by
    rw [← hs1]; split <;> simp
  have hA : s1.failSet (m.getTokenKey t) = none := by rw [h1set]; exact hset _
  rw [Storage.Set_pair s1 _ _ _ hA]
  simp only []
  have hB : (s1.Set (m.getTokenKey t) (.value (.str u)) m.getExpiration).2.failSet
      (m.getAccountKey u (getDevice d)) = none := by simp [h1set, hset]
  rw [Storage.Set_pair _ _ _ _ hB]

end Manager

namespace Manager

theorem Consistent_kickout (m : Manager) (s : Storage) (issued : Issued) (u dev : String)
    (h : m.Consistent s issued) : m.Consistent (m.kickout s u dev).2 issued := by
  rcases kickout_cases m s u dev with hk | ⟨t0, _, _, hk⟩
  · rw [hk]; exact h
  · rw [hk]; exact Consistent_deleteToken m s issued t0 h

theorem Consistent_Logout (m : Manager) (s : Storage) (issued : Issued) (u : String)
    (d : List String) (h : m.Consistent s issued) :
    m.Consistent (m.Logout s u d).2 issued := by
  rcases Logout_cases m s u d with hk | ⟨t0, _, hfind, hk⟩
  · rw [hk]; exact h
  · rw [hk]
    refine Consistent_deleteAccount m _ issued u (getDevice d)
      (Consistent_deleteToken m s issued t0 h) ?_
    intro e t he hv
    rw [Storage.find_Delete_ne _ _ _ (fun e2 => tokenKey_ne_accountKey m _ _ _ e2.symm)] at he
    rw [he] at hfind
    simp only [Option.map_some', Option.some.injEq] at hfind
    rw [hfind] at hv
    simp only [Stored.value.injEq, Value.str.injEq] at hv
    subst hv
    exact Storage.find_Delete_self _ _ (h.failDelete _)

theorem Consistent_Login (m : Manager) (generate : Generate) (now : Int) (s : Storage)
    (issued : Issued) (u : String) (d : List String) (t : String)
    (h : m.Consistent s issued) (hfresh : t ∉ issued.map Prod.fst)
    (hok : (m.Login generate now s u d).1 = (t, none)) :
    m.Consistent (m.Login generate now s u d).2 ((t, u, getDevice d) :: issued) := by
  obtain ⟨hdis, hgen⟩ := Login_success_generate m generate now s u d t hok
  rw [Login_snd_of_ok m generate now s u d t hdis h.failSet hgen]
  have h1 : m.Consistent
      (if (!m.config.IsConcurrent) = true then (m.kickout s u (getDevice d)).2 else s)
      issued := by
    split
    · exact Consistent_kickout m s issued u _ h
    · exact h
  have hclear : m.config.IsConcurrent = false → ∀ e t0,
      (if (!m.config.IsConcurrent) = true then (m.kickout s u (getDevice d)).2 else s).find
        (m.getAccountKey u (getDevice d)) = some e → e.value = .value (.str t0) →
      (if (!m.config.IsConcurrent) = true then (m.kickout s u (getDevice d)).2 else s).find
        (m.getTokenKey t0) = none := by
    intro hc e t0
    simp only [hc, Bool.not_false, if_true]
    exact kickout_clears m s u _ h.failGet h.failDelete e t0
  refine Consistent_of_find_eq m _ _ _
    (Consistent_login m _ issued t u (getDevice d) m.getExpiration m.getExpiration h1 hfresh
      hclear) ?_ ?_ ?_ ?_ ?_
  · exact loginSession_failSet m _ u _ now
  · exact loginSession_failGet m _ u _ now
  · exact loginSession_failDelete m _ u _ now
  · intro t2
    exact loginSession_find m _ u _ now _ (tokenKey_ne_sessionKey m t2 u)
  · intro u2 d2
    exact loginSession_find m _ u _ now _ (accountKey_ne_sessionKey m u2 d2 u)

/-- Every step of a history keeps the invariant. -/
theorem Consistent_step (m : Manager) (st st2 : Storage × Issued) (c : Call)
    (h : m.Consistent st.1 st.2) (hstep : m.step st c = some st2) :
    m.Consistent st2.1 st2.2 := by
  cases c with
  | Login generate now u d =>
    simp only [step] at hstep
    rcases hL : m.Login generate now st.1 u d with ⟨⟨t, err⟩, s1⟩
    rw [hL] at hstep
    cases err with
    | some e => simp at hstep
    | none =>
      simp only at hstep
      by_cases hmem : t ∈ st.2.map Prod.fst
      · rw [if_pos hmem] at hstep; cases hstep
      · rw [if_neg hmem] at hstep
        simp only [Option.some.injEq] at hstep
        subst hstep
        have hok : (m.Login generate now st.1 u d).1 = (t, none) := by rw [hL]
        have h2 := Consistent_Login m generate now st.1 st.2 u d t h hmem hok
        rw [hL] at h2
        exact h2
  | Logout u d =>
    simp only [step, Option.some.injEq] at hstep
    subst hstep
    exact Consistent_Logout m st.1 st.2 u d h
  | Kickout u d =>
    simp only [step, Option.some.injEq] at hstep
    subst hstep
    exact Consistent_kickout m st.1 st.2 u _ h
  | LogoutByToken t =>
    simp only [step, Option.some.injEq] at hstep
    subst hstep
    simp only [LogoutByToken]
    split
    · exact h
    · exact Consistent_deleteToken m st.1 st.2 t h
  | Disable u duration =>
    simp only [step, Option.some.injEq] at hstep
    subst hstep
    refine Consistent_of_find_eq m st.1 _ st.2 h (Storage.Set_failSet _ _ _ _)
      (Storage.Set_failGet _ _ _ _) (Storage.Set_failDelete _ _ _ _) ?_ ?_
    · intro t
      exact Storage.find_Set_ne _ _ _ _ _ (tokenKey_ne_disableKey m t u)
    · intro u2 d2
      exact Storage.find_Set_ne _ _ _ _ _ (accountKey_ne_disableKey m u2 d2 u)
  | Untie u =>
    simp only [step, Option.some.injEq] at hstep
    subst hstep
    refine Consistent_of_find_eq m st.1 _ st.2 h (Storage.Delete_failSet _ _)
      (Storage.Delete_failGet _ _) (Storage.Delete_failDelete _ _) ?_ ?_
    · intro t
      exact Storage.find_Delete_ne _ _ _ (tokenKey_ne_disableKey m t u)
    · intro u2 d2
      exact Storage.find_Delete_ne _ _ _ (accountKey_ne_disableKey m u2 d2 u)

/-- Every history keeps the invariant. -/
theorem Consistent_run (m : Manager) (calls : List Call) (st st2 : Storage × Issued)
    (h : m.Consistent st.1 st.2) (hrun : m.run st calls = some st2) :
    m.Consistent st2.1 st2.2 := by
  induction calls generalizing st with
  | nil =>
    simp only [run, Option.some.injEq] at hrun
    subst hrun
    exact h
  | cons c cs ih =>
    simp only [run] at hrun
    cases hstep : m.step st c with
    | none => rw [hstep] at hrun; cases hrun
    | some st1 =>
      rw [hstep] at hrun
      exact ih st1 (Consistent_step m st st1 c h hstep) hrun

end Manager

/-! ## Lemmas on account keys of login IDs without the separator -/

theorem append_sep_left_inj (c : Char) (a a2 b b2 : List Char)
    (h : a ++ c :: b = a2 ++ c :: b2) (ha : c ∉ a) (ha2 : c ∉ a2) : a = a2 := by
  induction a generalizing a2 with
  | nil =>
    cases a2 with
    | nil => rfl
    | cons x xs =>
      simp only [List.nil_append, List.cons_append, List.cons.injEq] at h
      exact absurd (h.1 ▸ List.mem_cons_self _ _) ha2
  | cons y ys ih =>
    cases a2 with
    | nil =>
      simp only [List.nil_append, List.cons_append, List.cons.injEq] at h
      exact absurd (h.1 ▸ List.mem_cons_self _ _) ha
    | cons x xs =>
      simp only [List.cons_append, List.cons.injEq] at h
      rw [h.1, ih xs h.2 (fun hm => ha (List.mem_cons_of_mem _ hm))
        (fun hm => ha2 (List.mem_cons_of_mem _ hm))]

namespace Manager

/-- Among login IDs without `":"`, the account key determines the login ID. -/
theorem accountKey_loginID_inj (m : Manager) (u d u2 d2 : String)
    (h : m.getAccountKey u d = m.getAccountKey u2 d2)
    (hu : ':' ∉ u.data) (hu2 : ':' ∉ u2.data) : u = u2 := by
  unfold getAccountKey at h
  have h2 := congrArg String.data h
  simp [PermissionSeparator] at h2
  exact String.ext (append_sep_left_inj ':' _ _ _ _ h2 hu hu2)

/-- What does hold of the account entries after a history from the empty storage:
the token of the account entry of `(u, d)` has no token entry or one that holds
`u`, as long as neither `u` nor a login ID that has logged in contains `":"`. -/
theorem account_entry_token_of_run (m : Manager) (calls : List Call) (s : Storage)
    (issued : Issued) (hrun : m.run (Storage.empty, []) calls = some (s, issued))
    (hcolon : ∀ t u d, (t, u, d) ∈ issued → ':' ∉ u.data)
    (u d : String) (e : Entry) (hu : ':' ∉ u.data)
    (he : s.find (m.getAccountKey u d) = some e) :
    ∃ t, e.value = .value (.str t) ∧
      ∀ e2, s.find (m.getTokenKey t) = some e2 → e2.value = .value (.str u) := by
  have h := Consistent_run m calls (Storage.empty, []) (s, issued) (Consistent_empty m) hrun
  obtain ⟨t, u2, d2, hv, hi, hkey⟩ := h.account u d e he
  refine ⟨t, hv, ?_⟩
  intro e2 he2
  obtain ⟨u3, d3, hi3, hv3⟩ := h.token t e2 he2
  have h32 : u2 = u3 := (h.unique t u2 d2 u3 d3 hi hi3).1
  have h2u : u2 = u := accountKey_loginID_inj m u2 d2 u d hkey (hcolon t u2 d2 hi) hu
  rw [hv3, ← h32, h2u]

end Manager

/-! ## Lemmas on frames: `Disable`, `LoginByToken` and the renewal of `IsLogin` -/

namespace Manager

/-- `IsLogin` and `GetLoginID` read the token entry only. -/
theorem GetLoginID_congr (m : Manager) (s s2 : Storage) (t : String)
    (hget : s2.Get (m.getTokenKey t) = s.Get (m.getTokenKey t))
    (hex : s2.Exists (m.getTokenKey t) = s.Exists (m.getTokenKey t)) :
    m.IsLogin s2 t = m.IsLogin s t ∧ m.GetLoginID s2 t = m.GetLoginID s t := by
  have h1 : m.IsLogin s2 t = m.IsLogin s t := by
    unfold IsLogin; rw [hex]
  refine ⟨h1, ?_⟩
  unfold GetLoginID getTokenInfo getLoginIDByToken
  rw [h1, hget]

end Manager

namespace Storage

theorem Get_Set_ne (s : Storage) (k k2 : String) (v : Stored) (ttl : Int) (hne : k2 ≠ k) :
    (s.Set k v ttl).2.Get k2 = s.Get k2 := by
  unfold Storage.Get
  rw [Set_failGet, find_Set_ne s k k2 v ttl hne]

theorem Exists_Set_ne (s : Storage) (k k2 : String) (v : Stored) (ttl : Int) (hne : k2 ≠ k) :
    (s.Set k v ttl).2.Exists k2 = s.Exists k2 := by
  unfold Storage.Exists
  rw [find_Set_ne s k k2 v ttl hne]

/-- A write removes no entry. -/
theorem find_Set_ne_none (s : Storage) (k k2 : String) (v : Stored) (ttl : Int)
    (h : s.find k2 ≠ none) : (s.Set k v ttl).2.find k2 ≠ none := by
  by_cases hk : k2 = k
  · subst hk
    cases hf : s.failSet k2 with
    | some e => rw [Set_fail s _ _ _ e hf]; exact h
    | none => rw [find_Set_self s _ _ _ hf]; exact Option.some_ne_none _
  · rw [find_Set_ne s k k2 v ttl hk]; exact h

end Storage

namespace Manager

/-- The storage that `LoginByToken` leaves is the storage after its writes. -/
theorem LoginByToken_snd_cases (m : Manager) (s : Storage) (u t : String) (d : List String) :
    (m.LoginByToken s u t d).2 = (s.Set (m.getTokenKey t) (.value (.str u)) m.getExpiration).2 ∨
    (m.LoginByToken s u t d).2 =
      ((s.Set (m.getTokenKey t) (.value (.str u)) m.getExpiration).2.Set
        (m.getAccountKey u (getDevice d)) (.value (.str t)) m.getExpiration).2 := by
  simp only [LoginByToken]
  cases hA : s.failSet (m.getTokenKey t) with
  | some e => left; rw [Storage.Set_fail s _ _ _ e hA]
  | none => right; rw [Storage.Set_pair s _ _ _ hA]

theorem getExpiration_of_fits (m : Manager) (h0 : 0 < m.config.Timeout)
    (h1 : m.config.Timeout ≤ 9223372036) : m.getExpiration = m.config.Timeout * Second := by
  unfold getExpiration wrapInt64 Second
  rw [if_pos h0, Int.emod_eq_of_lt (by omega) (by omega)]
  omega

end Manager

namespace Manager

/-- A `Login` whose token write succeeds and whose account write fails: the result
and the storage it leaves. -/
theorem Login_account_write_fails (m : Manager) (generate : Generate) (now : Int)
    (s : Storage) (u : String) (d : List String) (t : String) (e : Error)
    (hdis : m.IsDisable s u = false) (hgen : generate u (getDevice d) = .ok t)
    (htok : s.failSet (m.getTokenKey t) = none)
    (hacc : s.failSet (m.getAccountKey u (getDevice d)) = some e) :
    m.Login generate now s u d =
      (("", some (.wrap "failed to save account mapping" e)),
        ((if (!m.config.IsConcurrent) = true then (m.kickout s u (getDevice d)).2 else s).Set
          (m.getTokenKey t) (.value (.str u)) m.getExpiration).2) := by
  unfold Login
  simp only [hdis, hgen, Bool.false_eq_true, if_false]
  generalize hs1 : (if (!m.config.IsConcurrent) = true then (m.kickout s u (getDevice d)).2 else s)
    = s1
  have h1set : s1.failSet = s.failSet := by
    rw [← hs1]; split <;> simp
  have hA : s1.failSet (m.getTokenKey t) = none := by rw [h1set]; exact htok
  rw [Storage.Set_pair s1 _ _ _ hA]
  simp only []
  have hB : (s1.Set (m.getTokenKey t) (.value (.str u)) m.getExpiration).2.failSet
      (m.getAccountKey u (getDevice d)) = some e := by simp [h1set, hacc]
  rw [Storage.Set_fail _ _ _ _ e hB]

end Manager

theorem lookupKey_map_ttl (key k : String) (ttl : Int) (es : List (String × Entry)) :
    lookupKey k
      (es.map (fun kv => if kv.1 = key then (kv.1, (⟨kv.2.value, ttl⟩ : Entry)) else kv)) =
      if k = key then (lookupKey k es).map (fun e => ⟨e.value, ttl⟩) else lookupKey k es := by
  induction es with
  | nil => simp [lookupKey]
  | cons e es ih =>
    by_cases h1 : e.1 = key
    · by_cases h2 : e.1 = k
      · have h3 : k = key := h2 ▸ h1
        simp [lookupKey, h1, h2, h3]
      · simp only [List.map_cons, if_pos h1, lookupKey, if_neg h2]
        exact ih
    · by_cases h2 : e.1 = k
      · have h3 : ¬ k = key := fun e2 => h1 (h2.trans e2)
        simp [lookupKey, h1, h2, h3]
      · simp only [List.map_cons, if_neg h1, lookupKey, if_neg h2]
        exact ih

namespace Storage

theorem Expire_fail (s : Storage) (key : String) (ttl : Int) (e : Error)
    (h : s.failExpire key = some e) : (s.Expire key ttl).2 = s := by
  unfold Storage.Expire; rw [h]

/-- The entries after a served `Expire`. -/
theorem find_Expire (s : Storage) (key : String) (ttl : Int) (k : String)
    (h : s.failExpire key = none) :
    (s.Expire key ttl).2.find k =
      if k = key then (s.find k).map (fun e => ⟨e.value, ttl⟩) else s.find k := by
  unfold Storage.Expire
  rw [h]
  exact lookupKey_map_ttl key k ttl s.entries

theorem find_Expire_ne (s : Storage) (key : String) (ttl : Int) (k : String) (hne : k ≠ key) :
    (s.Expire key ttl).2.find k = s.find k := by
  cases h : s.failExpire key with
  | some e => rw [Expire_fail s key ttl e h]
  | none => rw [find_Expire s key ttl k h, if_neg hne]

/-- `Expire` changes no stored value. -/
theorem find_Expire_value (s : Storage) (key : String) (ttl : Int) (k : String) :
    ((s.Expire key ttl).2.find k).map Entry.value = (s.find k).map Entry.value := by
  cases h : s.failExpire key with
  | some e => rw [Expire_fail s key ttl e h]
  | none =>
    rw [find_Expire s key ttl k h]
    split
    · cases s.find k <;> rfl
    · rfl

end Storage

namespace Manager

/-- The storage after the goroutine of `IsLogin`: the storage itself, or the storage
after `Expire` on the token key. -/
theorem IsLoginRenew_cases (m : Manager) (s : Storage) (t : String) :
    m.IsLoginRenew s t = s ∨
    m.IsLoginRenew s t = (s.Expire (m.getTokenKey t) m.getExpiration).2 := by
  unfold IsLoginRenew renewToken
  split
  · left; rfl
  · split
    · left; rfl
    · split
      · right; rfl
      · left; rfl

end Manager

/-! ## Lemmas on the session that `Login` writes -/

theorem lookupKey_cons_removeKey {β : Type} (k k2 : String) (v : β) (es : List (String × β)) :
    lookupKey k2 ((k, v) :: removeKey k es) = if k = k2 then some v else lookupKey k2 es := by
  by_cases h : k = k2
  · simp [lookupKey, h]
  · simp only [lookupKey, if_neg h]
    exact lookupKey_removeKey_ne k k2 (fun e => h e.symm) es

namespace Session

/-- A served `Set` on a session whose key holds a stored session: the key is set in
the stored map. -/
theorem sessionSet_of_stored (sess : Session) (s : Storage) (key : String) (v : Value)
    (sid : String) (data : List (String × Value)) (ttl : Int)
    (hget : s.failGet sess.getStorageKey = none) (hset : s.failSet sess.getStorageKey = none)
    (hfind : s.find sess.getStorageKey = some ⟨.session sid data, ttl⟩) :
    sess.Set s key v =
      (none, { sess with Data := (key, v) :: removeKey key data },
        (s.Set sess.getStorageKey (.session sess.ID ((key, v) :: removeKey key data)) 0).2) := by
  unfold Session.Set
  rw [Storage.Get_eq s _ hget, hfind]
  simp only [Option.map_some']
  rw [Storage.Set_fst]
  exact congrArg (fun x => (x, _, _)) hset

/-- A served `Set` on a session whose key holds no stored session: the key is set
in the session's own map. -/
theorem sessionSet_of_not_stored (sess : Session) (s : Storage) (key : String) (v : Value)
    (hget : s.failGet sess.getStorageKey = none) (hset : s.failSet sess.getStorageKey = none)
    (hnot : ∀ sid data ttl, s.find sess.getStorageKey ≠ some ⟨.session sid data, ttl⟩) :
    sess.Set s key v =
      (none, { sess with Data := (key, v) :: removeKey key sess.Data },
        (s.Set sess.getStorageKey
          (.session sess.ID ((key, v) :: removeKey key sess.Data)) 0).2) := by
  unfold Session.Set
  rw [Storage.Get_eq s _ hget]
  cases hf : s.find sess.getStorageKey with
  | none =>
    simp only [Option.map_none']
    rw [Storage.Set_fst]
    exact congrArg (fun x => (x, _, _)) hset
  | some e =>
    cases e with
    | mk val ttl =>
      cases val with
      | session sid data => exact absurd hf (hnot sid data ttl)
      | value w =>
        simp only [Option.map_some']
        rw [Storage.Set_fst]
        exact congrArg (fun x => (x, _, _)) hset
      | record fields =>
        simp only [Option.map_some']
        rw [Storage.Set_fst]
        exact congrArg (fun x => (x, _, _)) hset

end Session

namespace Manager

/-- What `GetSession` loads when the read is served: the stored session, or a new
one if no session is stored. -/
theorem GetSession_cases (m : Manager) (s : Storage) (u : String)
    (hget : s.failGet (m.keyPrefix ++ SessionKeyPrefix ++ u) = none) :
    (∃ sid data ttl, s.find (m.keyPrefix ++ SessionKeyPrefix ++ u) =
        some ⟨.session sid data, ttl⟩ ∧
      m.GetSession s u = (⟨sid, data, m.keyPrefix⟩, none)) ∨
    ((∀ sid data ttl, s.find (m.keyPrefix ++ SessionKeyPrefix ++ u) ≠
        some ⟨.session sid data, ttl⟩) ∧
      m.GetSession s u = (Session.NewSession u m.keyPrefix, none)) := by
  unfold GetSession Session.Load
  rw [Storage.Get_eq s _ hget]
  cases hf : s.find (m.keyPrefix ++ SessionKeyPrefix ++ u) with
  | none => right; exact ⟨fun _ _ _ h => (by cases h), rfl⟩
  | some e =>
    cases e with
    | mk val ttl =>
      cases val with
      | session sid data => left; exact ⟨sid, data, ttl, rfl, rfl⟩
      | value w => right; exact ⟨fun _ _ _ h => (by cases h), rfl⟩
      | record fields => right; exact ⟨fun _ _ _ h => (by cases h), rfl⟩

/-- A served `Set` on a new session of `u`: the key is set in the map that
`GetSession` loads. -/
theorem sessionSet_new (m : Manager) (s : Storage) (u key : String) (v : Value)
    (hget : s.failGet (m.keyPrefix ++ SessionKeyPrefix ++ u) = none)
    (hset : s.failSet (m.keyPrefix ++ SessionKeyPrefix ++ u) = none) :
    (Session.NewSession u m.keyPrefix).Set s key v =
      (none, ⟨u, (key, v) :: removeKey key (m.GetSession s u).1.Data, m.keyPrefix⟩,
        (s.Set (m.keyPrefix ++ SessionKeyPrefix ++ u)
          (.session u ((key, v) :: removeKey key (m.GetSession s u).1.Data)) 0).2) := by
  rcases GetSession_cases m s u hget with ⟨sid, data, ttl, hf, hG⟩ | ⟨hnot, hG⟩
  · rw [hG]
    exact Session.sessionSet_of_stored (Session.NewSession u m.keyPrefix) s key v sid data ttl
      hget hset hf
  · rw [hG]
    exact Session.sessionSet_of_not_stored (Session.NewSession u m.keyPrefix) s key v
      hget hset hnot

/-- A served `Set` on the session of `u` that `GetSession` returns, the stored
session, if any, carrying the ID `u`. -/
theorem sessionSet_loaded (m : Manager) (s : Storage) (u key : String) (v : Value)
    (hget : s.failGet (m.keyPrefix ++ SessionKeyPrefix ++ u) = none)
    (hset : s.failSet (m.keyPrefix ++ SessionKeyPrefix ++ u) = none)
    (hwf : ∀ sid data ttl, s.find (m.keyPrefix ++ SessionKeyPrefix ++ u) =
      some ⟨.session sid data, ttl⟩ → sid = u) :
    (m.GetSession s u).1.Set s key v =
      (none, ⟨u, (key, v) :: removeKey key (m.GetSession s u).1.Data, m.keyPrefix⟩,
        (s.Set (m.keyPrefix ++ SessionKeyPrefix ++ u)
          (.session u ((key, v) :: removeKey key (m.GetSession s u).1.Data)) 0).2) := by
  rcases GetSession_cases m s u hget with ⟨sid, data, ttl, hf, hG⟩ | ⟨hnot, hG⟩
  · have hsid := hwf sid data ttl hf
    subst hsid
    rw [hG]
    exact Session.sessionSet_of_stored ⟨sid, data, m.keyPrefix⟩ s key v sid data ttl hget hset hf
  · rw [hG]
    exact Session.sessionSet_of_not_stored (Session.NewSession u m.keyPrefix) s key v
      hget hset hnot

end Manager

namespace Manager

/-- The storage that `Login` leaves when its two mapping writes are accepted. -/
theorem Login_snd_of_writes (m : Manager) (g : Generate) (now : Int) (s : Storage)
    (u : String) (d : List String) (t : String)
    (hdis : m.IsDisable s u = false) (hgen : g u (getDevice d) = .ok t)
    (hA : s.failSet (m.getTokenKey t) = none)
    (hB : s.failSet (m.getAccountKey u (getDevice d)) = none) :
    m.Login g now s u d =
      ((t, none), m.loginSession
        (((if (!m.config.IsConcurrent) = true then (m.kickout s u (getDevice d)).2 else s).Set
          (m.getTokenKey t) (.value (.str u)) m.getExpiration).2.Set
          (m.getAccountKey u (getDevice d)) (.value (.str t)) m.getExpiration).2
        u (getDevice d) now) := by
  unfold Login
  simp only [hdis, hgen, Bool.false_eq_true, if_false]
  generalize hs1 : (if (!m.config.IsConcurrent) = true then (m.kickout s u (getDevice d)).2 else s)
    = s1
  have h1set : s1.failSet = s.failSet := by
    rw [← hs1]; split <;> simp
  rw [Storage.Set_pair s1 _ _ _ (by rw [h1set]; exact hA)]
  simp only []
  rw [Storage.Set_pair _ _ _ _ (by rw [Storage.Set_failSet, h1set]; exact hB)]

/-- A `Login` that returns `(t, nil)`: the account was not disabled, the generator
returned `t`, both mapping writes were accepted, and the storage is the one after
the kick-out, the two writes and the session writes. -/
theorem Login_of_success (m : Manager) (g : Generate) (now : Int) (s : Storage)
    (u : String) (d : List String) (t : String)
    (h : (m.Login g now s u d).1 = (t, none)) :
    m.IsDisable s u = false ∧ g u (getDevice d) = .ok t ∧
    s.failSet (m.getTokenKey t) = none ∧
    s.failSet (m.getAccountKey u (getDevice d)) = none ∧
    (m.Login g now s u d).2 =
      m.loginSession
        (((if (!m.config.IsConcurrent) = true then (m.kickout s u (getDevice d)).2 else s).Set
          (m.getTokenKey t) (.value (.str u)) m.getExpiration).2.Set
          (m.getAccountKey u (getDevice d)) (.value (.str t)) m.getExpiration).2
        u (getDevice d) now := by
  obtain ⟨hdis, hgen⟩ := Login_success_generate m g now s u d t h
  have h1set : (if (!m.config.IsConcurrent) = true then
      (m.kickout s u (getDevice d)).2 else s).failSet = s.failSet := by
    split <;> simp
  have hA : s.failSet (m.getTokenKey t) = none := by
    cases hA : s.failSet (m.getTokenKey t) with
    | none => rfl
    | some e =>
      unfold Login at h
      simp only [hdis, hgen, Bool.false_eq_true, if_false] at h
      rw [Storage.Set_fail _ _ _ _ e (by rw [h1set]; exact hA)] at h
      simp at h
  have hB : s.failSet (m.getAccountKey u (getDevice d)) = none := by
    cases hB : s.failSet (m.getAccountKey u (getDevice d)) with
    | none => rfl
    | some e =>
      unfold Login at h
      simp only [hdis, hgen, Bool.false_eq_true, if_false] at h
      rw [Storage.Set_pair _ _ _ _ (by rw [h1set]; exact hA)] at h
      simp only [] at h
      rw [Storage.Set_fail _ _ _ _ e (by rw [Storage.Set_failSet, h1set]; exact hB)] at h
      simp at h
  refine ⟨hdis, hgen, hA, hB, ?_⟩
  rw [Login_snd_of_writes m g now s u d t hdis hgen hA hB]

/-- The storage after a served `SetPermissions`. -/
theorem SetPermissions_served (m : Manager) (s : Storage) (u : String) (ps : List String)
    (hget : s.failGet (m.keyPrefix ++ SessionKeyPrefix ++ u) = none)
    (hset : s.failSet (m.keyPrefix ++ SessionKeyPrefix ++ u) = none)
    (hwf : ∀ sid data ttl, s.find (m.keyPrefix ++ SessionKeyPrefix ++ u) =
      some ⟨.session sid data, ttl⟩ → sid = u) :
    m.SetPermissions s u ps =
      (none, (s.Set (m.keyPrefix ++ SessionKeyPrefix ++ u)
        (.session u ((SessionKeyPermissions, .strSlice ps) ::
          removeKey SessionKeyPermissions (m.GetSession s u).1.Data)) 0).2) := by
  have hS := sessionSet_loaded m s u SessionKeyPermissions (.strSlice ps) hget hset hwf
  have hsnd := GetSession_snd m s u
  unfold SetPermissions
  generalize m.GetSession s u = r at hS hsnd
  obtain ⟨sess, err⟩ := r
  simp only at hsnd hS
  subst hsnd
  simp only [hS]

/-- The storage after a served `SetRoles`. -/
theorem SetRoles_served (m : Manager) (s : Storage) (u : String) (rs : List String)
    (hget : s.failGet (m.keyPrefix ++ SessionKeyPrefix ++ u) = none)
    (hset : s.failSet (m.keyPrefix ++ SessionKeyPrefix ++ u) = none)
    (hwf : ∀ sid data ttl, s.find (m.keyPrefix ++ SessionKeyPrefix ++ u) =
      some ⟨.session sid data, ttl⟩ → sid = u) :
    m.SetRoles s u rs =
      (none, (s.Set (m.keyPrefix ++ SessionKeyPrefix ++ u)
        (.session u ((SessionKeyRoles, .strSlice rs) ::
          removeKey SessionKeyRoles (m.GetSession s u).1.Data)) 0).2) := by
  have hS := sessionSet_loaded m s u SessionKeyRoles (.strSlice rs) hget hset hwf
  have hsnd := GetSession_snd m s u
  unfold SetRoles
  generalize m.GetSession s u = r at hS hsnd
  obtain ⟨sess, err⟩ := r
  simp only at hsnd hS
  subst hsnd
  simp only [hS]

/-- What `GetSession` loads from a storage whose session key holds a session. -/
theorem GetSession_of_stored (m : Manager) (s : Storage) (u sid : String)
    (data : List (String × Value)) (ttl : Int)
    (hget : s.failGet (m.keyPrefix ++ SessionKeyPrefix ++ u) = none)
    (hfind : s.find (m.keyPrefix ++ SessionKeyPrefix ++ u) = some ⟨.session sid data, ttl⟩) :
    m.GetSession s u = (⟨sid, data, m.keyPrefix⟩, none) := by
  unfold GetSession Session.Load
  rw [Storage.Get_eq s _ hget, hfind]
  rfl

/-- The session entry after the three `sess.Set` calls of `Login`, the read and the
write of the session being served: the three reserved entries are set in the
map that `GetSession` loaded before. -/
theorem loginSession_served (m : Manager) (s : Storage) (u dev : String) (now : Int)
    (hget : s.failGet (m.keyPrefix ++ SessionKeyPrefix ++ u) = none)
    (hset : s.failSet (m.keyPrefix ++ SessionKeyPrefix ++ u) = none) :
    (m.loginSession s u dev now).find (m.keyPrefix ++ SessionKeyPrefix ++ u) =
      some ⟨.session u ((SessionKeyLoginTime, Value.int now) :: removeKey SessionKeyLoginTime
        ((SessionKeyDevice, Value.str dev) :: removeKey SessionKeyDevice
        ((SessionKeyLoginID, Value.str u) :: removeKey SessionKeyLoginID (m.GetSession s u).1.Data))), 0⟩ := by
  have e1 := sessionSet_new m s u SessionKeyLoginID (.str u) hget hset
  have hf1 : (s.Set (m.keyPrefix ++ SessionKeyPrefix ++ u) (.session u ((SessionKeyLoginID, Value.str u) :: removeKey SessionKeyLoginID (m.GetSession s u).1.Data)) 0).2.find (m.keyPrefix ++ SessionKeyPrefix ++ u) =
      some ⟨.session u ((SessionKeyLoginID, Value.str u) :: removeKey SessionKeyLoginID (m.GetSession s u).1.Data), 0⟩ :=
    Storage.find_Set_self s _ _ _ hset
  have hg1 : (s.Set (m.keyPrefix ++ SessionKeyPrefix ++ u) (.session u ((SessionKeyLoginID, Value.str u) :: removeKey SessionKeyLoginID (m.GetSession s u).1.Data)) 0).2.failGet (m.keyPrefix ++ SessionKeyPrefix ++ u) = none := by
    rw [Storage.Set_failGet]; exact hget
  have hs1 : (s.Set (m.keyPrefix ++ SessionKeyPrefix ++ u) (.session u ((SessionKeyLoginID, Value.str u) :: removeKey SessionKeyLoginID (m.GetSession s u).1.Data)) 0).2.failSet (m.keyPrefix ++ SessionKeyPrefix ++ u) = none := by
    rw [Storage.Set_failSet]; exact hset
  have e2 := Session.sessionSet_of_stored
    (⟨u, ((SessionKeyLoginID, Value.str u) :: removeKey SessionKeyLoginID (m.GetSession s u).1.Data), m.keyPrefix⟩ : Session)
    (s.Set (m.keyPrefix ++ SessionKeyPrefix ++ u) (.session u ((SessionKeyLoginID, Value.str u) :: removeKey SessionKeyLoginID (m.GetSession s u).1.Data)) 0).2 SessionKeyDevice (.str dev) u
    ((SessionKeyLoginID, Value.str u) :: removeKey SessionKeyLoginID (m.GetSession s u).1.Data) 0 hg1 hs1 hf1
  have hf2 : ((s.Set (m.keyPrefix ++ SessionKeyPrefix ++ u) (.session u ((SessionKeyLoginID, Value.str u) :: removeKey SessionKeyLoginID (m.GetSession s u).1.Data)) 0).2.Set (m.keyPrefix ++ SessionKeyPrefix ++ u)
        (.session u ((SessionKeyDevice, Value.str dev) :: removeKey SessionKeyDevice
        ((SessionKeyLoginID, Value.str u) :: removeKey SessionKeyLoginID (m.GetSession s u).1.Data))) 0).2.find (m.keyPrefix ++ SessionKeyPrefix ++ u) =
      some ⟨.session u ((SessionKeyDevice, Value.str dev) :: removeKey SessionKeyDevice
        ((SessionKeyLoginID, Value.str u) :: removeKey SessionKeyLoginID (m.GetSession s u).1.Data)), 0⟩ :=
    Storage.find_Set_self _ _ _ _ hs1
  have hg2 : ((s.Set (m.keyPrefix ++ SessionKeyPrefix ++ u) (.session u ((SessionKeyLoginID, Value.str u) :: removeKey SessionKeyLoginID (m.GetSession s u).1.Data)) 0).2.Set (m.keyPrefix ++ SessionKeyPrefix ++ u)
        (.session u ((SessionKeyDevice, Value.str dev) :: removeKey SessionKeyDevice
        ((SessionKeyLoginID, Value.str u) :: removeKey SessionKeyLoginID (m.GetSession s u).1.Data))) 0).2.failGet (m.keyPrefix ++ SessionKeyPrefix ++ u) = none := by
    rw [Storage.Set_failGet]; exact hg1
  have hs2 : ((s.Set (m.keyPrefix ++ SessionKeyPrefix ++ u) (.session u ((SessionKeyLoginID, Value.str u) :: removeKey SessionKeyLoginID (m.GetSession s u).1.Data)) 0).2.Set (m.keyPrefix ++ SessionKeyPrefix ++ u)
        (.session u ((SessionKeyDevice, Value.str dev) :: removeKey SessionKeyDevice
        ((SessionKeyLoginID, Value.str u) :: removeKey SessionKeyLoginID (m.GetSession s u).1.Data))) 0).2.failSet (m.keyPrefix ++ SessionKeyPrefix ++ u) = none := by
    rw [Storage.Set_failSet]; exact hs1
  have e3 := Session.sessionSet_of_stored
    (⟨u, ((SessionKeyDevice, Value.str dev) :: removeKey SessionKeyDevice
        ((SessionKeyLoginID, Value.str u) :: removeKey SessionKeyLoginID (m.GetSession s u).1.Data)), m.keyPrefix⟩ : Session)
    ((s.Set (m.keyPrefix ++ SessionKeyPrefix ++ u) (.session u ((SessionKeyLoginID, Value.str u) :: removeKey SessionKeyLoginID (m.GetSession s u).1.Data)) 0).2.Set (m.keyPrefix ++ SessionKeyPrefix ++ u)
        (.session u ((SessionKeyDevice, Value.str dev) :: removeKey SessionKeyDevice
        ((SessionKeyLoginID, Value.str u) :: removeKey SessionKeyLoginID (m.GetSession s u).1.Data))) 0).2 SessionKeyLoginTime (.int now) u
    ((SessionKeyDevice, Value.str dev) :: removeKey SessionKeyDevice
        ((SessionKeyLoginID, Value.str u) :: removeKey SessionKeyLoginID (m.GetSession s u).1.Data)) 0 hg2 hs2 hf2
  simp only [Session.getStorageKey] at e2 e3
  unfold loginSession
  simp only []
  rw [e1]
  simp only []
  rw [e2]
  simp only []
  rw [e3]
  exact Storage.find_Set_self _ _ _ _ hs2

end Manager

namespace Manager

theorem GetSession_congr (m : Manager) (s s2 : Storage) (u : String)
    (h : s2.Get (m.keyPrefix ++ SessionKeyPrefix ++ u) =
      s.Get (m.keyPrefix ++ SessionKeyPrefix ++ u)) :
    m.GetSession s2 u = m.GetSession s u := by
  unfold GetSession Session.Load
  rw [h]

/-- `GetPermissions` and `GetRoles` read the map that `GetSession` loads. -/
theorem GetPermissions_eq_Get (m : Manager) (s : Storage) (u : String) :
    m.GetPermissions s u =
      (match (m.GetSession s u).1.Get SessionKeyPermissions with
        | none => []
        | some perms => toStringSlice perms, none) ∧
    m.GetRoles s u =
      (match (m.GetSession s u).1.Get SessionKeyRoles with
        | none => []
        | some roles => toStringSlice roles, none) := by
  have hsnd := GetSession_snd m s u
  unfold GetPermissions GetRoles
  generalize m.GetSession s u = r at hsnd
  obtain ⟨sess, err⟩ := r
  simp only at hsnd
  subst hsnd
  constructor
  · simp only []
    cases sess.Get SessionKeyPermissions <;> rfl
  · simp only []
    cases sess.Get SessionKeyRoles <;> rfl

/-- The session of `u` after a successful `Login(u, d)`, the read and the write of
the session being served: the three reserved entries are set and every other
entry is as before. -/
theorem Login_session_frame (m : Manager) (g : Generate) (now : Int) (s : Storage)
    (u : String) (d : List String) (t : String)
    (hok : (m.Login g now s u d).1 = (t, none))
    (hget : s.failGet (m.keyPrefix ++ SessionKeyPrefix ++ u) = none)
    (hset : s.failSet (m.keyPrefix ++ SessionKeyPrefix ++ u) = none) (key : String) :
    (m.GetSession (m.Login g now s u d).2 u).1.Get key =
      if SessionKeyLoginTime = key then some (.int now)
      else if SessionKeyDevice = key then some (.str (getDevice d))
      else if SessionKeyLoginID = key then some (.str u)
      else (m.GetSession s u).1.Get key := by
  obtain ⟨_, _, _, _, hsnd⟩ := Login_of_success m g now s u d t hok
  rw [hsnd]
  generalize hs1 : (if (!m.config.IsConcurrent) = true then (m.kickout s u (getDevice d)).2 else s)
    = s1
  have h1get : s1.failGet = s.failGet := by
    rw [← hs1]; split <;> simp
  have h1set : s1.failSet = s.failSet := by
    rw [← hs1]; split <;> simp
  have h1find : s1.find (m.keyPrefix ++ SessionKeyPrefix ++ u) =
      s.find (m.keyPrefix ++ SessionKeyPrefix ++ u) := by
    rw [← hs1]
    split
    · apply kickout_find_ne
      intro t0 _ e
      exact tokenKey_ne_sessionKey m t0 u e.symm
    · rfl
  generalize hs2 : ((s1.Set (m.getTokenKey t) (.value (.str u)) m.getExpiration).2.Set
    (m.getAccountKey u (getDevice d)) (.value (.str t)) m.getExpiration).2 = s2
  have h2get : s2.failGet = s.failGet := by
    rw [← hs2, Storage.Set_failGet, Storage.Set_failGet, h1get]
  have h2set : s2.failSet = s.failSet := by
    rw [← hs2, Storage.Set_failSet, Storage.Set_failSet, h1set]
  have h2find : s2.find (m.keyPrefix ++ SessionKeyPrefix ++ u) =
      s.find (m.keyPrefix ++ SessionKeyPrefix ++ u) := by
    rw [← hs2, Storage.find_Set_ne _ _ _ _ _ (fun e => accountKey_ne_sessionKey m u _ u e.symm),
      Storage.find_Set_ne _ _ _ _ _ (fun e => tokenKey_ne_sessionKey m t u e.symm), h1find]
  have hG : m.GetSession s2 u = m.GetSession s u := by
    apply GetSession_congr
    unfold Storage.Get
    rw [h2get, h2find]
  have hf := loginSession_served m s2 u (getDevice d) now (by rw [h2get]; exact hget)
    (by rw [h2set]; exact hset)
  rw [GetSession_of_stored m _ u u _ 0 (by rw [loginSession_failGet, h2get]; exact hget) hf]
  simp only [Session.Get]
  rw [lookupKey_cons_removeKey, lookupKey_cons_removeKey, lookupKey_cons_removeKey, hG]

end Manager

namespace Manager

/-- The entries and the failure behaviour of the storage after a `Login` that
returned `(t, nil)`. -/
theorem Login_success_find (m : Manager) (g : Generate) (now : Int) (s : Storage)
    (u : String) (d : List String) (t : String)
    (h : (m.Login g now s u d).1 = (t, none)) :
    (m.Login g now s u d).2.find (m.getTokenKey t) =
      some ⟨.value (.str u), m.getExpiration⟩ ∧
    (m.Login g now s u d).2.find (m.getAccountKey u (getDevice d)) =
      some ⟨.value (.str t), m.getExpiration⟩ ∧
    (∀ k, k ≠ m.keyPrefix ++ SessionKeyPrefix ++ u → k ≠ m.getAccountKey u (getDevice d) →
      k ≠ m.getTokenKey t →
      (m.Login g now s u d).2.find k =
        (if (!m.config.IsConcurrent) = true then (m.kickout s u (getDevice d)).2 else s).find k) ∧
    (m.Login g now s u d).2.failGet = s.failGet ∧
    (m.Login g now s u d).2.failDelete = s.failDelete ∧
    (m.Login g now s u d).2.failSet = s.failSet := by
  obtain ⟨_, _, hA, hB, hsnd⟩ := Login_of_success m g now s u d t h
  rw [hsnd]
  generalize hs1 : (if (!m.config.IsConcurrent) = true then (m.kickout s u (getDevice d)).2 else s)
    = s1
  have h1set : s1.failSet = s.failSet := by
    rw [← hs1]; split <;> simp
  have h1get : s1.failGet = s.failGet := by
    rw [← hs1]; split <;> simp
  have h1del : s1.failDelete = s.failDelete := by
    rw [← hs1]; split <;> simp
  have hA1 : s1.failSet (m.getTokenKey t) = none := by rw [h1set]; exact hA
  have hB1 : (s1.Set (m.getTokenKey t) (.value (.str u)) m.getExpiration).2.failSet
      (m.getAccountKey u (getDevice d)) = none := by
    rw [Storage.Set_failSet, h1set]; exact hB
  refine ⟨?_, ?_, ?_, ?_, ?_, ?_⟩
  · rw [loginSession_find m _ u (getDevice d) now _ (tokenKey_ne_sessionKey m t u),
      Storage.find_Set_ne _ _ _ _ _ (tokenKey_ne_accountKey m t u (getDevice d)),
      Storage.find_Set_self _ _ _ _ hA1]
  · rw [loginSession_find m _ u (getDevice d) now _ (accountKey_ne_sessionKey m u _ u),
      Storage.find_Set_self _ _ _ _ hB1]
  · intro k hk1 hk2 hk3
    rw [loginSession_find m _ u (getDevice d) now _ hk1, Storage.find_Set_ne _ _ _ _ _ hk2,
      Storage.find_Set_ne _ _ _ _ _ hk3]
  · rw [loginSession_failGet, Storage.Set_failGet, Storage.Set_failGet, h1get]
  · rw [loginSession_failDelete, Storage.Set_failDelete, Storage.Set_failDelete, h1del]
  · rw [loginSession_failSet, Storage.Set_failSet, Storage.Set_failSet, h1set]

end Manager

/-! ## The properties -/

/-- C1: for every login ID `u` and device `d`, on a storage where `u` has no disable
record and every write succeeds, if the generator returns a non-empty token `t`
then `Login(u, d)` returns `(t, nil)`, and in the resulting state `IsLogin(t)` is
true, `GetLoginID(t)` returns `u` and `GetTokenValue(u, d)` returns `t` (the two
reads being served by the storage). -/
theorem Login_establishes_session (m : Manager) (generate : Generate) (now : Int)
    (s : Storage) (u : String) (d : List String) (t : String)
    (hdis : m.IsDisable s u = false)
    (hset : ∀ k, s.failSet k = none)
    (hgetT : s.failGet (m.getTokenKey t) = none)
    (hgetA : s.failGet (m.getAccountKey u (Manager.getDevice d)) = none)
    (hgen : generate u (Manager.getDevice d) = .ok t) (ht : t ≠ "") :
    (m.Login generate now s u d).1 = (t, none) ∧
    m.IsLogin (m.Login generate now s u d).2 t = true ∧
    m.GetLoginID (m.Login generate now s u d).2 t = (u, none) ∧
    m.GetTokenValue (m.Login generate now s u d).2 u d = (t, none) := by
  obtain ⟨h1, h2, h3, h4, _, _⟩ := Manager.Login_ok m generate now s u d t hdis hset hgen
  refine ⟨h1, ?_, ?_, ?_⟩
  · simp [Manager.IsLogin_eq, ht, h2]
  · exact Manager.GetLoginID_of_find m _ t u _ ht (by rw [h4]; exact hgetT) h2
  · exact Manager.GetTokenValue_of_find m _ u d t _ (by rw [h4]; exact hgetA) h3

/-- C1, at a concrete input: the first login of `"u"` on the empty storage. -/
theorem Login_establishes_session_witness :
    exampleManager.IsDisable Storage.empty "u" = false ∧
    (∀ k, Storage.empty.failSet k = none) ∧
    (exampleManager.Login (constGenerate "T1") 7 Storage.empty "u" []).1 = ("T1", none) ∧
    exampleManager.IsLogin
      (exampleManager.Login (constGenerate "T1") 7 Storage.empty "u" []).2 "T1" = true ∧
    exampleManager.GetLoginID
      (exampleManager.Login (constGenerate "T1") 7 Storage.empty "u" []).2 "T1" = ("u", none) ∧
    exampleManager.GetTokenValue
      (exampleManager.Login (constGenerate "T1") 7 Storage.empty "u" []).2 "u" [] =
        ("T1", none) :=
  ⟨rfl, fun _ => rfl,
    Login_establishes_session exampleManager (constGenerate "T1") 7 Storage.empty "u" [] "T1"
      rfl (fun _ => rfl) rfl rfl rfl (by decide)⟩

/-- C2, as stated, fails: there are states in which `"u"` has logged in on the
default device with the token `"T1"` and `Logout("u")` returns nil while `"T1"` is
still logged in. With every delete failing, or with every read failing, `Logout`
returns nil and deletes nothing; after `LoginByToken("u", "X")` on the same device
the account entry holds `"X"`, and `Logout` invalidates `"X"` and not `"T1"`; with
concurrent login allowed, after a second login with the token `"T2"` the account
entry holds `"T2"`, and `Logout` invalidates `"T2"` and not `"T1"`. -/
theorem Logout_leaves_login_token_valid_counterexample :
    (exampleManager.Login (constGenerate "T1") 7 Storage.empty "u" []).1 = ("T1", none) ∧
    (exampleManager.Logout undeletableStorage "u" []).1 = none ∧
    exampleManager.IsLogin (exampleManager.Logout undeletableStorage "u" []).2 "T1" = true ∧
    exampleManager.GetTokenValue (exampleManager.Logout undeletableStorage "u" []).2 "u" [] =
      ("T1", none) ∧
    (exampleManager.Logout unreadableStorage "u" []).1 = none ∧
    exampleManager.IsLogin (exampleManager.Logout unreadableStorage "u" []).2 "T1" = true ∧
    (exampleManager.LoginByToken loggedInStorage "u" "X" []).1 = none ∧
    (exampleManager.Logout (exampleManager.LoginByToken loggedInStorage "u" "X" []).2
      "u" []).1 = none ∧
    exampleManager.IsLogin
      (exampleManager.Logout (exampleManager.LoginByToken loggedInStorage "u" "X" []).2
        "u" []).2 "T1" = true ∧
    concurrentManager.config.IsConcurrent = true ∧
    (concurrentManager.Login (constGenerate "T1") 7 Storage.empty "u" []).1 = ("T1", none) ∧
    (concurrentManager.Login (constGenerate "T2") 8
      (concurrentManager.Login (constGenerate "T1") 7 Storage.empty "u" []).2 "u" []).1 =
      ("T2", none) ∧
    (concurrentManager.Logout
      (concurrentManager.Login (constGenerate "T2") 8
        (concurrentManager.Login (constGenerate "T1") 7 Storage.empty "u" []).2 "u" []).2
      "u" []).1 = none ∧
    concurrentManager.IsLogin
      (concurrentManager.Logout
        (concurrentManager.Login (constGenerate "T2") 8
          (concurrentManager.Login (constGenerate "T1") 7 Storage.empty "u" []).2 "u" []).2
        "u" []).2 "T1" = true := by
  decide

/-- C2, amended: for every login ID `u` and device `d`, if the account entry of
`(u, d)` is read as the token `t` (`GetTokenValue(u, d)` returns `t`) and the
storage serves the deletes of the token entry of `t` and of the account entry,
then `Logout(u, d)` returns nil, afterwards `IsLogin(t)` is false and the account
entry of `(u, d)` is gone, and every entry other than these two is as before.
Directly after a `Login(u, d)` that returned `t0`, `GetTokenValue(u, d)` returns
`t0` (its read being served). From every storage state, `Logout(u, d)` called a
second time returns nil and leaves the storage exactly as the first call left
it. -/
theorem Logout_invalidates_held_token (m : Manager) (s : Storage) (u : String)
    (d : List String) (t : String)
    (hheld : m.GetTokenValue s u d = (t, none))
    (hdT : s.failDelete (m.getTokenKey t) = none)
    (hdA : s.failDelete (m.getAccountKey u (Manager.getDevice d)) = none) :
    (m.Logout s u d).1 = none ∧
    m.IsLogin (m.Logout s u d).2 t = false ∧
    (m.Logout s u d).2.find (m.getAccountKey u (Manager.getDevice d)) = none ∧
    (∀ k, k ≠ m.getTokenKey t → k ≠ m.getAccountKey u (Manager.getDevice d) →
      (m.Logout s u d).2.find k = s.find k) ∧
    m.Logout (m.Logout s u d).2 u d = (none, (m.Logout s u d).2) ∧
    (∀ s0 : Storage, m.Logout (m.Logout s0 u d).2 u d = (none, (m.Logout s0 u d).2)) ∧
    (∀ (g : Generate) (now : Int) (s0 : Storage) (t0 : String),
      (m.Login g now s0 u d).1 = (t0, none) →
      s0.failGet (m.getAccountKey u (Manager.getDevice d)) = none →
      m.GetTokenValue (m.Login g now s0 u d).2 u d = (t0, none)) := by
  obtain ⟨hget, hval⟩ := (Manager.GetTokenValue_eq_iff m s u d t).1 hheld
  have hL : m.Logout s u d = (none, ((s.Delete (m.getTokenKey t)).2.Delete
      (m.getAccountKey u (Manager.getDevice d))).2) := by
    simp [Manager.Logout, Storage.Get, hget, hval, assertString]
  refine ⟨?_, ?_, ?_, ?_, Manager.Logout_idem m s u d, fun s0 => Manager.Logout_idem m s0 u d,
    ?_⟩
  · rw [hL]
  · rw [hL, Manager.IsLogin_eq]
    simp only []
    rw [Storage.find_Delete_ne _ _ _ (Manager.tokenKey_ne_accountKey m t u _),
      Storage.find_Delete_self _ _ hdT]
    simp
  · rw [hL]
    exact Storage.find_Delete_self _ _ (by rw [Storage.Delete_failDelete]; exact hdA)
  · intro k hk1 hk2
    rw [hL]
    simp only []
    rw [Storage.find_Delete_ne _ _ _ hk2, Storage.find_Delete_ne _ _ _ hk1]
  · intro g now s0 t0 hok hg
    obtain ⟨_, hacc, _, hfg, _, _⟩ := Manager.Login_success_find m g now s0 u d t0 hok
    exact Manager.GetTokenValue_of_find m _ u d t0 _ (by rw [hfg]; exact hg) hacc

/-- C2, amended, at a concrete input: `"u"` logs in on the empty storage and logs out
twice. -/
theorem Logout_invalidates_held_token_witness :
    exampleManager.GetTokenValue loggedInStorage "u" [] = ("T1", none) ∧
    (exampleManager.Logout loggedInStorage "u" []).1 = none ∧
    exampleManager.IsLogin (exampleManager.Logout loggedInStorage "u" []).2 "T1" = false ∧
    (exampleManager.Logout loggedInStorage "u" []).2.find
      (exampleManager.getAccountKey "u" "default") = none ∧
    exampleManager.Logout (exampleManager.Logout loggedInStorage "u" []).2 "u" [] =
      (none, (exampleManager.Logout loggedInStorage "u" []).2) :=
  ⟨by decide,
    (Logout_invalidates_held_token exampleManager loggedInStorage "u" [] "T1" (by decide)
      rfl rfl).1,
    (Logout_invalidates_held_token exampleManager loggedInStorage "u" [] "T1" (by decide)
      rfl rfl).2.1,
    (Logout_invalidates_held_token exampleManager loggedInStorage "u" [] "T1" (by decide)
      rfl rfl).2.2.1,
    (Logout_invalidates_held_token exampleManager loggedInStorage "u" [] "T1" (by decide)
      rfl rfl).2.2.2.2.1⟩

/-- C3, as stated, fails: `Kickout(u, d)` does not always remove exactly one storage
entry. Once `"u"` has been kicked out, the account entry of `("u", "default")`
still points to `"T1"`, and a second `Kickout` removes nothing; on the empty
storage `Kickout` removes nothing either. And when the device `"app"` of `"u"`
holds the same token as the device `"web"`, kicking out `"web"` invalidates the
token of `"app"`. -/
theorem Kickout_exactly_one_entry_counterexample :
    exampleManager.GetTokenValue kickedOutStorage "u" [] = ("T1", none) ∧
    (exampleManager.Kickout kickedOutStorage "u" []).2.entries = kickedOutStorage.entries ∧
    ¬ ((exampleManager.Kickout kickedOutStorage "u" []).2.entries.length + 1 =
        kickedOutStorage.entries.length) ∧
    (exampleManager.Kickout Storage.empty "u" []).2.entries = Storage.empty.entries ∧
    exampleManager.GetTokenValue sharedTokenStorage "u" ["app"] = ("T1", none) ∧
    exampleManager.IsLogin sharedTokenStorage "T1" = true ∧
    exampleManager.IsLogin (exampleManager.Kickout sharedTokenStorage "u" ["web"]).2 "T1" =
      false := by
  decide

/-- C3, amended: for every login ID `u` and device `d`, `Kickout(u, d)` removes at most
one storage entry. When the account entry of `(u, d)` holds no token, nothing
changes. When it holds the token `t`, every entry other than the token entry of
`t` is left as it was, so every other token that was valid is still valid, and,
the delete succeeding, the token entry of `t` is gone: exactly one entry is
removed if that entry existed and none if it was already gone. In all cases the
account entry of `(u, d)` stays. -/
theorem Kickout_removes_at_most_token_entry (m : Manager) (s : Storage) (u : String)
    (d : List String) :
    (m.Kickout s u d).2.find (m.getAccountKey u (Manager.getDevice d)) =
      s.find (m.getAccountKey u (Manager.getDevice d)) ∧
    ((∀ t, m.GetTokenValue s u d ≠ (t, none)) → m.Kickout s u d = (none, s)) ∧
    (∀ t, m.GetTokenValue s u d = (t, none) →
      (∀ k, k ≠ m.getTokenKey t → (m.Kickout s u d).2.find k = s.find k) ∧
      (∀ t2, t2 ≠ t → m.IsLogin (m.Kickout s u d).2 t2 = m.IsLogin s t2) ∧
      (s.failDelete (m.getTokenKey t) = none →
        (m.Kickout s u d).1 = none ∧
        (m.Kickout s u d).2.find (m.getTokenKey t) = none ∧
        m.IsLogin (m.Kickout s u d).2 t = false ∧
        (s.WF → (m.Kickout s u d).2.entries.length +
          (if (s.find (m.getTokenKey t)).isSome then 1 else 0) = s.entries.length))) := by
  rcases Manager.Kickout_eq m s u d with ⟨hno, h⟩ | ⟨t, ht, h⟩
  · refine ⟨by rw [h], fun _ => h, fun t ht => absurd ht (hno t)⟩
  · have hne : m.getAccountKey u (Manager.getDevice d) ≠ m.getTokenKey t :=
      fun e => Manager.tokenKey_ne_accountKey m t u _ e.symm
    refine ⟨by rw [h, Storage.find_Delete_ne _ _ _ hne], fun hno => absurd ht (hno t), ?_⟩
    intro t1 ht1
    have ht1t : t1 = t := by
      have := ht1.symm.trans ht
      simpa using this
    subst ht1t
    refine ⟨?_, ?_, ?_⟩
    · intro k hk
      rw [h, Storage.find_Delete_ne _ _ _ hk]
    · intro t2 ht2
      have hk : m.getTokenKey t2 ≠ m.getTokenKey t1 := fun e => ht2 (Manager.tokenKey_inj m _ _ e)
      rw [Manager.IsLogin_eq, Manager.IsLogin_eq, h, Storage.find_Delete_ne _ _ _ hk]
    · intro hdel
      refine ⟨?_, ?_, ?_, ?_⟩
      · rw [h, Storage.Delete_ok _ _ hdel]
      · rw [h]; exact Storage.find_Delete_self _ _ hdel
      · rw [Manager.IsLogin_eq, h, Storage.find_Delete_self _ _ hdel]; simp
      · intro hwf
        rw [h, Storage.Delete_ok _ _ hdel]
        exact length_removeKey _ _ hwf

/-- C3, amended, at a concrete input: kicking out `"u"` after its login removes the
token entry of `"T1"` and only it. -/
theorem Kickout_removes_at_most_token_entry_witness :
    exampleManager.GetTokenValue loggedInStorage "u" [] = ("T1", none) ∧
    loggedInStorage.WF ∧
    exampleManager.IsLogin loggedInStorage "T1" = true ∧
    exampleManager.IsLogin kickedOutStorage "T1" = false ∧
    kickedOutStorage.entries.length + 1 = loggedInStorage.entries.length :=
  ⟨by decide, by decide, by decide,
    (((Kickout_removes_at_most_token_entry exampleManager loggedInStorage "u" []).2.2 "T1"
      (by decide)).2.2 rfl).2.2.1,
    (((Kickout_removes_at_most_token_entry exampleManager loggedInStorage "u" []).2.2 "T1"
      (by decide)).2.2 rfl).2.2.2 (by decide)⟩

/-- C4: for every login ID `u` that has a disable record and every device `d`,
`Login(u, d)` returns the empty token together with `ErrAccountDisabled`, and the
storage is left unchanged. -/
theorem Login_disabled_rejected (m : Manager) (generate : Generate) (now : Int)
    (s : Storage) (u : String) (d : List String) (hdis : m.IsDisable s u = true) :
    m.Login generate now s u d = (("", some .ErrAccountDisabled), s) := by
  simp [Manager.Login, hdis]

/-- C4, at a concrete input: `"u"` logged in, then disabled for an hour, then a new
login attempt. -/
theorem Login_disabled_rejected_witness :
    exampleManager.IsDisable
      (exampleManager.Disable
        (exampleManager.Login (constGenerate "T1") 7 Storage.empty "u" []).2 "u"
        (3600 * Second)).2 "u" = true ∧
    exampleManager.Login (constGenerate "T2") 8
      (exampleManager.Disable
        (exampleManager.Login (constGenerate "T1") 7 Storage.empty "u" []).2 "u"
        (3600 * Second)).2 "u" ["web"] =
      (("", some .ErrAccountDisabled),
        (exampleManager.Disable
          (exampleManager.Login (constGenerate "T1") 7 Storage.empty "u" []).2 "u"
          (3600 * Second)).2) :=
  ⟨by decide, Login_disabled_rejected exampleManager (constGenerate "T2") 8 _ "u" ["web"]
    (by decide)⟩

/-- C5: for every login ID `u` and duration `ttl`, after `Disable(u, ttl)` succeeds
`IsDisable(u)` is true, and after a following `Untie(u)` that succeeds
`IsDisable(u)` is false; neither call changes `IsDisable` of any other login ID. -/
theorem Disable_Untie_IsDisable (m : Manager) (s : Storage) (u : String) (ttl : Int) :
    ((m.Disable s u ttl).1 = none → m.IsDisable (m.Disable s u ttl).2 u = true) ∧
    ((m.Untie (m.Disable s u ttl).2 u).1 = none →
      m.IsDisable (m.Untie (m.Disable s u ttl).2 u).2 u = false) ∧
    (∀ v, v ≠ u →
      m.IsDisable (m.Disable s u ttl).2 v = m.IsDisable s v ∧
      m.IsDisable (m.Untie (m.Disable s u ttl).2 u).2 v = m.IsDisable s v ∧
      m.IsDisable (m.Untie s u).2 v = m.IsDisable s v) := by
  refine ⟨?_, ?_, ?_⟩
  · intro h
    cases hf : s.failSet (m.getDisableKey u) with
    | some e => simp [Manager.Disable, Storage.Set, hf] at h
    | none =>
      simp [Manager.IsDisable, Manager.Disable, Storage.Exists,
        Storage.find_Set_self s _ _ _ hf]
  · intro h
    cases hf : (m.Disable s u ttl).2.failDelete (m.getDisableKey u) with
    | some e => simp [Manager.Untie, Storage.Delete, hf] at h
    | none =>
      simp [Manager.IsDisable, Manager.Untie, Storage.Exists,
        Storage.find_Delete_self _ _ hf]
  · intro v hv
    have hk : m.getDisableKey v ≠ m.getDisableKey u := fun e => hv (Manager.disableKey_inj m v u e)
    refine ⟨?_, ?_, ?_⟩
    · simp only [Manager.IsDisable, Manager.Disable, Storage.Exists,
        Storage.find_Set_ne _ _ _ _ _ hk]
    · simp only [Manager.IsDisable, Manager.Untie, Manager.Disable, Storage.Exists,
        Storage.find_Delete_ne _ _ _ hk, Storage.find_Set_ne _ _ _ _ _ hk]
    · simp only [Manager.IsDisable, Manager.Untie, Storage.Exists,
        Storage.find_Delete_ne _ _ _ hk]

/-- C5, at a concrete input: `"user123"` is disabled for an hour and untied again
while `"u"` stays as it was. -/
theorem Disable_Untie_IsDisable_witness :
    exampleManager.IsDisable (exampleManager.Disable Storage.empty "user123" (3600 * Second)).2
      "user123" = true ∧
    exampleManager.IsDisable
      (exampleManager.Untie
        (exampleManager.Disable Storage.empty "user123" (3600 * Second)).2 "user123").2
      "user123" = false ∧
    exampleManager.IsDisable (exampleManager.Disable Storage.empty "user123" (3600 * Second)).2
      "u" = exampleManager.IsDisable Storage.empty "u" :=
  ⟨(Disable_Untie_IsDisable exampleManager Storage.empty "user123" (3600 * Second)).1 rfl,
    (Disable_Untie_IsDisable exampleManager Storage.empty "user123" (3600 * Second)).2.1 rfl,
    ((Disable_Untie_IsDisable exampleManager Storage.empty "user123" (3600 * Second)).2.2
      "u" (by decide)).1⟩

/-- C6: for all strings `pattern` and `permission`, `matchPermission` equals the
four-rule reference definition `matchPermissionSpec`; in particular
`match("*","user:read")`, `match("user:*","user:delete")` and
`match("user:*:view","user:1:view")` are true and `match("user:*:view","user:1:edit")`
and `match("user:read","admin:read")` are false. -/
theorem matchPermission_eq_reference :
    (∀ pattern permission : String,
      matchPermission pattern permission = matchPermissionSpec pattern permission) ∧
    matchPermission "*" "user:read" = true ∧
    matchPermission "user:*" "user:delete" = true ∧
    matchPermission "user:*:view" "user:1:view" = true ∧
    matchPermission "user:*:view" "user:1:edit" = false ∧
    matchPermission "user:read" "admin:read" = false := by
  refine ⟨?_, by decide, by decide, by decide, by decide, by decide⟩
  intro pattern permission
  unfold matchPermission
  rw [matchPermissionRun_eq_spec]
  rfl

/-- C7: `matchPermission` is total: for every pair of strings the run of the function
ends with a boolean and never with the out-of-range panic; in the segment-wise
branch the access `permParts[i]` is in range whenever the two segment lists have
the same length, which the length check guarantees (without that check the
access can fail, as for one permission segment against two pattern segments). -/
theorem matchPermission_total :
    (∀ pattern permission : String,
      matchPermissionRun pattern permission = some (matchPermission pattern permission)) ∧
    (∀ parts permParts : List String, parts.length = permParts.length →
      ∃ b, matchPermissionLoop permParts 0 parts = some b) ∧
    matchPermissionLoop ["user"] 0 ["user", "x"] = none := by
  refine ⟨?_, ?_, by decide⟩
  · intro pattern permission
    unfold matchPermission
    rw [matchPermissionRun_eq_spec]
    rfl
  · intro parts permParts h
    exact ⟨_, matchPermissionLoop_eq permParts parts 0 (by omega)⟩

/-- C7, at a concrete input: the pattern `"user:*:view"` against `"user:1:view"`. -/
theorem matchPermission_total_witness :
    matchPermissionRun "user:*:view" "user:1:view" = some true ∧
    ∃ b, matchPermissionLoop ["user", "1", "view"] 0 ["user", "*", "view"] = some b :=
  ⟨matchPermission_total.1 "user:*:view" "user:1:view",
    matchPermission_total.2.1 ["user", "*", "view"] ["user", "1", "view"] rfl⟩

/-- C8: for every login ID `u` and permission `p`, `HasPermission(u, p)` is true iff
some entry `q` of the permission list returned by `GetPermissions(u)` satisfies
`matchPermission(q, p)`; `GetPermissions` never fails; and when `u` has no stored
permission list (no session entry, or a session without the `permissions` key)
`GetPermissions(u)` is the empty list and `HasPermission(u, p)` is false for
every `p`. -/
theorem HasPermission_iff_some_match (m : Manager) (s : Storage) (u : String) :
    (∀ p, m.HasPermission s u p = true ↔
      ∃ q, q ∈ (m.GetPermissions s u).1 ∧ matchPermission q p = true) ∧
    (m.GetPermissions s u).2 = none ∧
    ((m.GetSession s u).1.Get SessionKeyPermissions = none →
      m.GetPermissions s u = ([], none) ∧ ∀ p, m.HasPermission s u p = false) ∧
    (s.find (m.keyPrefix ++ SessionKeyPrefix ++ u) = none →
      m.GetPermissions s u = ([], none) ∧ ∀ p, m.HasPermission s u p = false) := by
  have hperm : ∀ p, m.HasPermission s u p = true ↔
      ∃ q, q ∈ (m.GetPermissions s u).1 ∧ matchPermission q p = true := by
    intro p
    rw [Manager.HasPermission_eq, Manager.hasPermissionLoop_iff]
  have hnone : (m.GetSession s u).1.Get SessionKeyPermissions = none →
      m.GetPermissions s u = ([], none) ∧ ∀ p, m.HasPermission s u p = false := by
    intro h
    have hg : m.GetPermissions s u = ([], none) := by
      unfold Manager.GetPermissions
      have h2 := Manager.GetSession_snd m s u
      split
      · rename_i e he; rw [he] at h2; cases h2
      · rename_i sess he
        rw [he] at h
        simp only [] at h
        rw [h]
    refine ⟨hg, fun p => ?_⟩
    rw [Manager.HasPermission_eq, hg]
    rfl
  refine ⟨hperm, Manager.GetPermissions_snd m s u, hnone, ?_⟩
  intro h
  apply hnone
  rw [Manager.GetSession_of_absent m s u h]
  rfl

/-- C8, at a concrete input: the permissions of the quick-start example, and an
identity without any session. -/
theorem HasPermission_iff_some_match_witness :
    exampleManager.HasPermission permissionsStorage "1000" "admin:delete" = true ∧
    exampleManager.HasPermission permissionsStorage "1000" "user:delete" = false ∧
    permissionsStorage.find (exampleManager.keyPrefix ++ SessionKeyPrefix ++ "2000") = none ∧
    exampleManager.GetPermissions permissionsStorage "2000" = ([], none) ∧
    exampleManager.HasPermission permissionsStorage "2000" "user:read" = false :=
  ⟨((HasPermission_iff_some_match exampleManager permissionsStorage "1000").1
      "admin:delete").2 ⟨"admin:*", by decide, by decide⟩,
    by decide, by decide,
    ((HasPermission_iff_some_match exampleManager permissionsStorage "2000").2.2.2
      (by decide)).1,
    ((HasPermission_iff_some_match exampleManager permissionsStorage "2000").2.2.2
      (by decide)).2 "user:read"⟩

/-- C9: for every login ID `u` and list `xs`, `HasPermissionsAnd(u, xs)` is true iff
`HasPermission(u, x)` holds for every `x` in `xs`, `HasPermissionsOr(u, xs)` is
true iff it holds for some `x` in `xs`, and `HasRolesAnd` / `HasRolesOr` relate to
`HasRole` in the same way; for the empty list the And variants return true and
the Or variants return false, whatever the identity holds. -/
theorem HasAnd_HasOr_quantifiers (m : Manager) (s : Storage) (u : String) (xs : List String) :
    (m.HasPermissionsAnd s u xs = true ↔ ∀ x, x ∈ xs → m.HasPermission s u x = true) ∧
    (m.HasPermissionsOr s u xs = true ↔ ∃ x, x ∈ xs ∧ m.HasPermission s u x = true) ∧
    (m.HasRolesAnd s u xs = true ↔ ∀ x, x ∈ xs → m.HasRole s u x = true) ∧
    (m.HasRolesOr s u xs = true ↔ ∃ x, x ∈ xs ∧ m.HasRole s u x = true) ∧
    m.HasPermissionsAnd s u [] = true ∧ m.HasPermissionsOr s u [] = false ∧
    m.HasRolesAnd s u [] = true ∧ m.HasRolesOr s u [] = false := by
  refine ⟨?_, ?_, ?_, ?_, rfl, rfl, rfl, rfl⟩
  · induction xs with
    | nil => simp [Manager.HasPermissionsAnd]
    | cons x rest ih =>
      by_cases h : m.HasPermission s u x = true
      · simp [Manager.HasPermissionsAnd, h, ih]
      · simp [Manager.HasPermissionsAnd, h]
  · induction xs with
    | nil => simp [Manager.HasPermissionsOr]
    | cons x rest ih =>
      by_cases h : m.HasPermission s u x = true
      · simp [Manager.HasPermissionsOr, h]
      · simp [Manager.HasPermissionsOr, h, ih]
  · induction xs with
    | nil => simp [Manager.HasRolesAnd]
    | cons x rest ih =>
      by_cases h : m.HasRole s u x = true
      · simp [Manager.HasRolesAnd, h, ih]
      · simp [Manager.HasRolesAnd, h]
  · induction xs with
    | nil => simp [Manager.HasRolesOr]
    | cons x rest ih =>
      by_cases h : m.HasRole s u x = true
      · simp [Manager.HasRolesOr, h]
      · simp [Manager.HasRolesOr, h, ih]

/-- C10: for every login ID `u` and role `r`, `HasRole(u, r)` is true iff `r` is
literally equal to an element of the role list returned by `GetRoles(u)`; roles
are never matched by wildcard, so a stored role `"*"` grants only the role named
`"*"`. -/
theorem HasRole_iff_mem (m : Manager) (s : Storage) (u : String) :
    (∀ r, m.HasRole s u r = true ↔ r ∈ (m.GetRoles s u).1) ∧
    ((m.GetRoles s u).1 = ["*"] → ∀ r, m.HasRole s u r = true ↔ r = "*") := by
  have h1 : ∀ r, m.HasRole s u r = true ↔ r ∈ (m.GetRoles s u).1 := by
    intro r
    rw [Manager.HasRole_eq, Manager.hasRoleLoop_iff]
  refine ⟨h1, fun h r => ?_⟩
  rw [h1 r, h]
  simp

/-- C10, at a concrete input: with the single stored role `"*"`, `"u"` has the role
`"*"` and does not have the role `"admin"`. -/
theorem HasRole_iff_mem_witness :
    (exampleManager.GetRoles starRoleStorage "u").1 = ["*"] ∧
    exampleManager.HasRole starRoleStorage "u" "*" = true ∧
    exampleManager.HasRole starRoleStorage "u" "admin" = false :=
  ⟨by decide,
    ((HasRole_iff_mem exampleManager starRoleStorage "u").2 (by decide) "*").2 rfl,
    by
      have h := ((HasRole_iff_mem exampleManager starRoleStorage "u").2 (by decide) "admin")
      cases hb : exampleManager.HasRole starRoleStorage "u" "admin"
      · rfl
      · exact absurd (h.1 hb) (by decide)⟩
/-- C11: for every token string `t`, `CheckLogin(t)` returns `ErrNotLogin` iff
`IsLogin(t)` is false and returns no error otherwise; `GetLoginID(t)` returns
`ErrNotLogin` whenever `IsLogin(t)` is false; and `IsLogin(t)` is true exactly
when `t` is non-empty and its token entry exists in the storage. -/
theorem CheckLogin_iff_not_IsLogin (m : Manager) (s : Storage) (t : String) :
    (m.CheckLogin s t = some .ErrNotLogin ↔ m.IsLogin s t = false) ∧
    (m.CheckLogin s t = none ↔ m.IsLogin s t = true) ∧
    (m.IsLogin s t = false → m.GetLoginID s t = ("", some .ErrNotLogin)) ∧
    (m.IsLogin s t = true ↔ t ≠ "" ∧ s.Exists (m.getTokenKey t) = true) := by
  refine ⟨?_, ?_, ?_, ?_⟩
  · cases h : m.IsLogin s t <;> simp [Manager.CheckLogin, h]
  · cases h : m.IsLogin s t <;> simp [Manager.CheckLogin, h]
  · intro h
    simp [Manager.GetLoginID, h]
  · rw [Manager.IsLogin_eq]
    simp [Storage.Exists]

/-- C11, at a concrete input: the token `"T1"` after it has been kicked out. -/
theorem CheckLogin_iff_not_IsLogin_witness :
    exampleManager.IsLogin kickedOutStorage "T1" = false ∧
    exampleManager.CheckLogin kickedOutStorage "T1" = some .ErrNotLogin ∧
    exampleManager.GetLoginID kickedOutStorage "T1" = ("", some .ErrNotLogin) ∧
    exampleManager.CheckLogin loggedInStorage "T1" = none :=
  ⟨by decide,
    (CheckLogin_iff_not_IsLogin exampleManager kickedOutStorage "T1").1.2 (by decide),
    (CheckLogin_iff_not_IsLogin exampleManager kickedOutStorage "T1").2.2.1 (by decide),
    (CheckLogin_iff_not_IsLogin exampleManager loggedInStorage "T1").2.1.2 (by decide)⟩

/-- C12: for every token string `t`, `GetLoginIDNotCheck(t)` returns the stored login
ID when the token entry holds a string, fails with `ErrTokenNotFound` when the
entry is absent or the storage read fails, and fails with `ErrInvalidTokenData`
when the stored value is not a string; whenever `IsLogin(t)` is true,
`GetLoginID(t)` and `GetLoginIDNotCheck(t)` return the same result. -/
theorem GetLoginIDNotCheck_results (m : Manager) (s : Storage) (t : String) :
    (∀ u ttl, s.failGet (m.getTokenKey t) = none →
      s.find (m.getTokenKey t) = some ⟨.value (.str u), ttl⟩ →
      m.GetLoginIDNotCheck s t = (u, none)) ∧
    (s.find (m.getTokenKey t) = none →
      m.GetLoginIDNotCheck s t = ("", some .ErrTokenNotFound)) ∧
    (∀ e, s.failGet (m.getTokenKey t) = some e →
      m.GetLoginIDNotCheck s t = ("", some .ErrTokenNotFound)) ∧
    (∀ v ttl, s.failGet (m.getTokenKey t) = none →
      s.find (m.getTokenKey t) = some ⟨v, ttl⟩ → (∀ u, v ≠ .value (.str u)) →
      m.GetLoginIDNotCheck s t = ("", some .ErrInvalidTokenData)) ∧
    (m.IsLogin s t = true → m.GetLoginID s t = m.GetLoginIDNotCheck s t) := by
  refine ⟨?_, ?_, ?_, ?_, ?_⟩
  · intro u ttl hget hfind
    simp [Manager.GetLoginIDNotCheck, Manager.getTokenInfo,
      Manager.getLoginIDByToken_of_find m s t u ttl hget hfind]
  · intro hfind
    cases hf : s.failGet (m.getTokenKey t) <;>
      simp [Manager.GetLoginIDNotCheck, Manager.getTokenInfo, Manager.getLoginIDByToken,
        Storage.Get, hf, hfind]
  · intro e hf
    simp [Manager.GetLoginIDNotCheck, Manager.getTokenInfo, Manager.getLoginIDByToken,
      Storage.Get, hf]
  · intro v ttl hf hfind hv
    have ha : assertString v = none := by
      cases v with
      | session sid data => rfl
      | record fields => rfl
      | value w =>
        cases w with
        | str u => exact absurd rfl (hv u)
        | int n => rfl
        | strSlice xs => rfl
        | anySlice xs => rfl
    simp [Manager.GetLoginIDNotCheck, Manager.getTokenInfo, Manager.getLoginIDByToken,
      Storage.Get, hf, hfind, ha]
  · intro h
    simp [Manager.GetLoginID, Manager.GetLoginIDNotCheck, h]

/-- C12, at a concrete input: the token of a login, an unknown token, a token entry
that holds a number, and a storage whose reads fail. -/
theorem GetLoginIDNotCheck_results_witness :
    exampleManager.GetLoginIDNotCheck loggedInStorage "T1" = ("u", none) ∧
    exampleManager.GetLoginIDNotCheck loggedInStorage "T9" = ("", some .ErrTokenNotFound) ∧
    exampleManager.GetLoginIDNotCheck unreadableStorage "T1" = ("", some .ErrTokenNotFound) ∧
    exampleManager.GetLoginIDNotCheck malformedTokenStorage "X" =
      ("", some .ErrInvalidTokenData) ∧
    exampleManager.GetLoginID loggedInStorage "T1" =
      exampleManager.GetLoginIDNotCheck loggedInStorage "T1" :=
  ⟨(GetLoginIDNotCheck_results exampleManager loggedInStorage "T1").1 "u"
      exampleManager.getExpiration rfl (by decide),
    (GetLoginIDNotCheck_results exampleManager loggedInStorage "T9").2.1 (by decide),
    (GetLoginIDNotCheck_results exampleManager unreadableStorage "T1").2.2.1
      (.message "i/o failure") rfl,
    (GetLoginIDNotCheck_results exampleManager malformedTokenStorage "X").2.2.2.1
      (.value (.int 5)) 0 rfl (by decide) (by intro u h; cases h),
    (GetLoginIDNotCheck_results exampleManager loggedInStorage "T1").2.2.2.2 (by decide)⟩

/-- C13, as stated, fails. With concurrent login not allowed and every delete
failing, two consecutive logins of `"u"` succeed with the tokens `"T1"` and `"T2"`
and `"T1"` is still logged in: `Login` discards the result of the kick-out. With
`"T1"` registered for the devices `"web"` and `"app"`, a login on `"app"` kicks
`"T1"` out, the token of `"web"`. With concurrent login allowed, a first login
that got the empty token is not logged in. -/
theorem Login_twice_counterexample :
    exampleManager.config.IsConcurrent = false ∧
    (exampleManager.Login (constGenerate "T1") 7 deleteFailStorage "u" []).1 = ("T1", none) ∧
    (exampleManager.Login (constGenerate "T2") 8
      (exampleManager.Login (constGenerate "T1") 7 deleteFailStorage "u" []).2 "u" []).1 =
      ("T2", none) ∧
    exampleManager.IsLogin
      (exampleManager.Login (constGenerate "T2") 8
        (exampleManager.Login (constGenerate "T1") 7 deleteFailStorage "u" []).2 "u" []).2
      "T1" = true ∧
    exampleManager.GetTokenValue sharedTokenStorage "u" ["web"] = ("T1", none) ∧
    exampleManager.IsLogin sharedTokenStorage "T1" = true ∧
    (exampleManager.Login (constGenerate "T3") 9 sharedTokenStorage "u" ["app"]).1 =
      ("T3", none) ∧
    exampleManager.IsLogin
      (exampleManager.Login (constGenerate "T3") 9 sharedTokenStorage "u" ["app"]).2 "T1" =
      false ∧
    concurrentManager.config.IsConcurrent = true ∧
    (concurrentManager.Login (constGenerate "") 7 Storage.empty "u" []).1 = ("", none) ∧
    (concurrentManager.Login (constGenerate "T2") 8
      (concurrentManager.Login (constGenerate "") 7 Storage.empty "u" []).2 "u" []).1 =
      ("T2", none) ∧
    concurrentManager.IsLogin
      (concurrentManager.Login (constGenerate "T2") 8
        (concurrentManager.Login (constGenerate "") 7 Storage.empty "u" []).2 "u" []).2 "" =
      false := by
  decide

/-- C13, amended: for every login ID `u` and device `d`, when two consecutive
`Login(u, d)` calls succeed with distinct non-empty tokens `t1` then `t2`:
`IsLogin(t2)` is true afterwards; if concurrent login is not allowed and the
storage serves the read of the account entry and the delete of the token entry
of `t1`, `IsLogin(t1)` is false; if concurrent login is allowed, `IsLogin(t1)` is
true. A successful `Login(u, d2)` after the first login leaves `t1` valid if
concurrent login is allowed or the account entry of `(u, d2)` does not hold `t1`
itself. -/
theorem Login_twice_same_device (m : Manager) (g1 g2 : Generate) (now1 now2 : Int)
    (s : Storage) (u : String) (d : List String) (t1 t2 : String)
    (h1 : (m.Login g1 now1 s u d).1 = (t1, none))
    (h2 : (m.Login g2 now2 (m.Login g1 now1 s u d).2 u d).1 = (t2, none))
    (hne : t1 ≠ t2) (ht1 : t1 ≠ "") (ht2 : t2 ≠ "") :
    m.IsLogin (m.Login g2 now2 (m.Login g1 now1 s u d).2 u d).2 t2 = true ∧
    (m.config.IsConcurrent = false →
      s.failGet (m.getAccountKey u (Manager.getDevice d)) = none →
      s.failDelete (m.getTokenKey t1) = none →
      m.IsLogin (m.Login g2 now2 (m.Login g1 now1 s u d).2 u d).2 t1 = false) ∧
    (m.config.IsConcurrent = true →
      m.IsLogin (m.Login g2 now2 (m.Login g1 now1 s u d).2 u d).2 t1 = true) ∧
    (∀ (d2 : List String) (g3 : Generate) (now3 : Int) (t3 : String),
      (m.Login g3 now3 (m.Login g1 now1 s u d).2 u d2).1 = (t3, none) →
      (m.config.IsConcurrent = true ∨
        m.GetTokenValue (m.Login g1 now1 s u d).2 u d2 ≠ (t1, none)) →
      m.IsLogin (m.Login g3 now3 (m.Login g1 now1 s u d).2 u d2).2 t1 = true) := by
  obtain ⟨h1tok, h1acc, _, h1get, h1del, _⟩ := Manager.Login_success_find m g1 now1 s u d t1 h1
  generalize hs1 : (m.Login g1 now1 s u d).2 = s1 at *
  obtain ⟨h2tok, _, h2other, _, _, _⟩ := Manager.Login_success_find m g2 now2 s1 u d t2 h2
  have hk3 : m.getTokenKey t1 ≠ m.getTokenKey t2 := fun e => hne (Manager.tokenKey_inj m _ _ e)
  have hother := h2other (m.getTokenKey t1) (Manager.tokenKey_ne_sessionKey m t1 u)
    (Manager.tokenKey_ne_accountKey m t1 u _) hk3
  refine ⟨?_, ?_, ?_, ?_⟩
  · simp [Manager.IsLogin_eq, ht2, h2tok]
  · intro hc hget hdel
    rw [Manager.IsLogin_eq, hother, hc]
    simp only [Bool.not_false, if_true]
    rw [Manager.kickout_of_find m s1 u _ t1 _ (by rw [h1get]; exact hget) h1acc,
      Storage.find_Delete_self _ _ (by rw [h1del]; exact hdel)]
    simp
  · intro hc
    rw [Manager.IsLogin_eq, hother, hc]
    simp [ht1, h1tok]
  · intro d2 g3 now3 t3 h3 hcond
    obtain ⟨h3tok, _, h3other, _, _, _⟩ := Manager.Login_success_find m g3 now3 s1 u d2 t3 h3
    by_cases ht : t3 = t1
    · subst ht
      simp [Manager.IsLogin_eq, ht1, h3tok]
    · have hk : m.getTokenKey t1 ≠ m.getTokenKey t3 :=
        fun e => ht (Manager.tokenKey_inj m _ _ e).symm
      rw [Manager.IsLogin_eq, h3other (m.getTokenKey t1) (Manager.tokenKey_ne_sessionKey m t1 u)
        (Manager.tokenKey_ne_accountKey m t1 u _) hk]
      split
      · rename_i hconc
        have hnot : m.GetTokenValue s1 u d2 ≠ (t1, none) := by
          rcases hcond with hc | hnot
          · rw [hc] at hconc; simp at hconc
          · exact hnot
        have hkeep : (m.kickout s1 u (Manager.getDevice d2)).2.find (m.getTokenKey t1) =
            s1.find (m.getTokenKey t1) := by
          cases hfg : s1.failGet (m.getAccountKey u (Manager.getDevice d2)) with
          | none =>
            apply Manager.kickout_find_ne
            intro t0 hfind e
            have h0 : t1 = t0 := Manager.tokenKey_inj m _ _ e
            subst h0
            exact hnot ((Manager.GetTokenValue_eq_iff m s1 u d2 t1).2 ⟨hfg, hfind⟩)
          | some e2 =>
            have hk0 : m.kickout s1 u (Manager.getDevice d2) = (none, s1) := by
              simp [Manager.kickout, Storage.Get, hfg]
            rw [hk0]
        rw [hkeep, h1tok]; simp [ht1]
      · rw [h1tok]; simp [ht1]

/-- C13, amended, at a concrete input: two logins of `"u"` on the default device,
without and with concurrent login, and a login on the device `"app"`. -/
theorem Login_twice_same_device_witness :
    exampleManager.IsLogin
      (exampleManager.Login (constGenerate "T2") 8
        (exampleManager.Login (constGenerate "T1") 7 Storage.empty "u" []).2 "u" []).2 "T2" =
      true ∧
    exampleManager.IsLogin
      (exampleManager.Login (constGenerate "T2") 8
        (exampleManager.Login (constGenerate "T1") 7 Storage.empty "u" []).2 "u" []).2 "T1" =
      false ∧
    concurrentManager.IsLogin
      (concurrentManager.Login (constGenerate "T2") 8
        (concurrentManager.Login (constGenerate "T1") 7 Storage.empty "u" []).2 "u" []).2 "T1" =
      true ∧
    exampleManager.IsLogin
      (exampleManager.Login (constGenerate "T3") 9
        (exampleManager.Login (constGenerate "T1") 7 Storage.empty "u" []).2 "u" ["app"]).2
      "T1" = true :=
  ⟨(Login_twice_same_device exampleManager (constGenerate "T1") (constGenerate "T2") 7 8
      Storage.empty "u" [] "T1" "T2" rfl rfl (by decide) (by decide) (by decide)).1,
    (Login_twice_same_device exampleManager (constGenerate "T1") (constGenerate "T2") 7 8
      Storage.empty "u" [] "T1" "T2" rfl rfl (by decide) (by decide) (by decide)).2.1 rfl rfl rfl,
    (Login_twice_same_device concurrentManager (constGenerate "T1") (constGenerate "T2") 7 8
      Storage.empty "u" [] "T1" "T2" rfl rfl (by decide) (by decide) (by decide)).2.2.1 rfl,
    (Login_twice_same_device exampleManager (constGenerate "T1") (constGenerate "T2") 7 8
      Storage.empty "u" [] "T1" "T2" rfl rfl (by decide) (by decide) (by decide)).2.2.2 ["app"] (constGenerate "T3") 9 "T3" rfl (Or.inr (by decide))⟩

/-- C14, evaluated where it fails: with the configured timeout 9223372037 seconds the
product with `time.Second` wraps around in 64 bits, and `Login` and `LoginByToken`
write the token entry and the account entry with the TTL -9223372036709551616
nanoseconds, which is not 9223372037 seconds. The two entries do carry one and
the same TTL. -/
theorem Login_ttl_wraps_for_huge_timeout :
    hugeTimeoutManager.config.Timeout = 9223372037 ∧
    hugeTimeoutManager.getExpiration = -9223372036709551616 ∧
    hugeTimeoutManager.getExpiration ≠ 9223372037 * Second ∧
    (hugeTimeoutManager.Login (constGenerate "T1") 7 Storage.empty "u" []).2.find
      (hugeTimeoutManager.getTokenKey "T1") =
        some ⟨.value (.str "u"), -9223372036709551616⟩ ∧
    (hugeTimeoutManager.Login (constGenerate "T1") 7 Storage.empty "u" []).2.find
      (hugeTimeoutManager.getAccountKey "u" "default") =
        some ⟨.value (.str "T1"), -9223372036709551616⟩ ∧
    (hugeTimeoutManager.LoginByToken Storage.empty "u" "T1" []).2.find
      (hugeTimeoutManager.getTokenKey "T1") =
        some ⟨.value (.str "u"), -9223372036709551616⟩ ∧
    (hugeTimeoutManager.LoginByToken Storage.empty "u" "T1" []).2.find
      (hugeTimeoutManager.getAccountKey "u" "default") =
        some ⟨.value (.str "T1"), -9223372036709551616⟩ := by
  decide

/-- C15, as stated, fails for the empty token: after `LoginByToken("u", "", d)` has
succeeded, `GetLoginIDNotCheck("")` returns `"u"` and `GetTokenValue("u", d)`
returns `""`, but `IsLogin("")` is false and `GetLoginID("")` returns
`ErrNotLogin`. -/
theorem LoginByToken_empty_token_counterexample :
    (exampleManager.LoginByToken Storage.empty "u" "" []).1 = none ∧
    exampleManager.GetLoginIDNotCheck emptyTokenStorage "" = ("u", none) ∧
    exampleManager.GetTokenValue emptyTokenStorage "u" [] = ("", none) ∧
    exampleManager.IsLogin emptyTokenStorage "" = false ∧
    exampleManager.GetLoginID emptyTokenStorage "" = ("", some .ErrNotLogin) := by
  decide

/-- C15, amended: for every login ID `u`, caller-supplied token `t` and device `d`,
after `LoginByToken(u, t, d)` succeeds (the reads being served by the storage),
`GetLoginIDNotCheck(t)` returns `u` and `GetTokenValue(u, d)` returns `t`; and
`IsLogin(t)` is true and `GetLoginID(t)` returns `u` for every such non-empty `t`,
while for the empty token `IsLogin` is false and `GetLoginID` returns
`ErrNotLogin`. -/
theorem LoginByToken_establishes_session (m : Manager) (s : Storage) (u t : String)
    (d : List String) (hok : (m.LoginByToken s u t d).1 = none)
    (hgetT : s.failGet (m.getTokenKey t) = none)
    (hgetA : s.failGet (m.getAccountKey u (Manager.getDevice d)) = none) :
    m.GetLoginIDNotCheck (m.LoginByToken s u t d).2 t = (u, none) ∧
    m.GetTokenValue (m.LoginByToken s u t d).2 u d = (t, none) ∧
    (t ≠ "" → m.IsLogin (m.LoginByToken s u t d).2 t = true ∧
      m.GetLoginID (m.LoginByToken s u t d).2 t = (u, none)) ∧
    (t = "" → m.IsLogin (m.LoginByToken s u t d).2 t = false ∧
      m.GetLoginID (m.LoginByToken s u t d).2 t = ("", some .ErrNotLogin)) := by
  obtain ⟨h1, h2, h3⟩ := Manager.LoginByToken_ok m s u t d hok
  have hgT : (m.LoginByToken s u t d).2.failGet (m.getTokenKey t) = none := by
    rw [h3]; exact hgetT
  have hgA : (m.LoginByToken s u t d).2.failGet (m.getAccountKey u (Manager.getDevice d)) =
      none := by rw [h3]; exact hgetA
  refine ⟨?_, Manager.GetTokenValue_of_find m _ u d t _ hgA h2, ?_, ?_⟩
  · simp [Manager.GetLoginIDNotCheck, Manager.getTokenInfo,
      Manager.getLoginIDByToken_of_find m _ t u _ hgT h1]
  · intro ht
    exact ⟨by simp [Manager.IsLogin_eq, ht, h1], Manager.GetLoginID_of_find m _ t u _ ht hgT h1⟩
  · intro ht
    have hl : m.IsLogin (m.LoginByToken s u t d).2 t = false := by
      simp [Manager.IsLogin_eq, ht]
    exact ⟨hl, by simp [Manager.GetLoginID, hl]⟩

/-- C15, amended, at a concrete input: the token `"T7"` registered for `"u"` on the
device `"app"`. -/
theorem LoginByToken_establishes_session_witness :
    (exampleManager.LoginByToken Storage.empty "u" "T7" ["app"]).1 = none ∧
    exampleManager.GetLoginIDNotCheck
      (exampleManager.LoginByToken Storage.empty "u" "T7" ["app"]).2 "T7" = ("u", none) ∧
    exampleManager.GetTokenValue
      (exampleManager.LoginByToken Storage.empty "u" "T7" ["app"]).2 "u" ["app"] =
        ("T7", none) ∧
    exampleManager.IsLogin
      (exampleManager.LoginByToken Storage.empty "u" "T7" ["app"]).2 "T7" = true :=
  ⟨rfl,
    (LoginByToken_establishes_session exampleManager Storage.empty "u" "T7" ["app"]
      rfl rfl rfl).1,
    (LoginByToken_establishes_session exampleManager Storage.empty "u" "T7" ["app"]
      rfl rfl rfl).2.1,
    ((LoginByToken_establishes_session exampleManager Storage.empty "u" "T7" ["app"]
      rfl rfl rfl).2.2.1 (by decide)).1⟩

/-- C16: for every token `t`, `LogoutByToken(t)` deletes only the token entry of `t`:
every other entry, so every account entry (the one that points to `t` included)
and every other token entry, is unchanged, and after a `LogoutByToken(t)` that
returned no error `IsLogin(t)` is false; `LogoutByToken("")` returns no error and
changes nothing. -/
theorem LogoutByToken_deletes_token_entry_only (m : Manager) (s : Storage) (t : String) :
    (∀ k, k ≠ m.getTokenKey t → (m.LogoutByToken s t).2.find k = s.find k) ∧
    (∀ u dev, (m.LogoutByToken s t).2.find (m.getAccountKey u dev) =
      s.find (m.getAccountKey u dev)) ∧
    (∀ t2, t2 ≠ t → m.IsLogin (m.LogoutByToken s t).2 t2 = m.IsLogin s t2) ∧
    ((m.LogoutByToken s t).1 = none → m.IsLogin (m.LogoutByToken s t).2 t = false) ∧
    m.LogoutByToken s "" = (none, s) := by
  have hframe : ∀ k, k ≠ m.getTokenKey t → (m.LogoutByToken s t).2.find k = s.find k := by
    intro k hk
    unfold Manager.LogoutByToken
    split
    · rfl
    · exact Storage.find_Delete_ne _ _ _ hk
  refine ⟨hframe, ?_, ?_, ?_, ?_⟩
  · intro u dev
    exact hframe _ (fun e => Manager.tokenKey_ne_accountKey m t u dev e.symm)
  · intro t2 ht2
    rw [Manager.IsLogin_eq, Manager.IsLogin_eq,
      hframe _ (fun e => ht2 (Manager.tokenKey_inj m _ _ e))]
  · intro h
    by_cases ht : t = ""
    · simp [Manager.IsLogin_eq, ht]
    · have hd : s.failDelete (m.getTokenKey t) = none := by
        simp only [Manager.LogoutByToken, if_neg ht, Storage.Delete_fst] at h
        exact h
      rw [Manager.IsLogin_eq]
      simp only [Manager.LogoutByToken, if_neg ht]
      rw [Storage.find_Delete_self _ _ hd]
      simp
  · simp [Manager.LogoutByToken]

/-- C16, at a concrete input: after `LogoutByToken("T1")` the token of `"u"` is no
longer valid and the account entry still points to it. -/
theorem LogoutByToken_deletes_token_entry_only_witness :
    (exampleManager.LogoutByToken loggedInStorage "T1").1 = none ∧
    exampleManager.IsLogin (exampleManager.LogoutByToken loggedInStorage "T1").2 "T1" = false ∧
    (exampleManager.LogoutByToken loggedInStorage "T1").2.find
      (exampleManager.getAccountKey "u" "default") =
        loggedInStorage.find (exampleManager.getAccountKey "u" "default") ∧
    loggedInStorage.find (exampleManager.getAccountKey "u" "default") =
      some ⟨.value (.str "T1"), exampleManager.getExpiration⟩ :=
  ⟨rfl,
    (LogoutByToken_deletes_token_entry_only exampleManager loggedInStorage "T1").2.2.2.1 rfl,
    (LogoutByToken_deletes_token_entry_only exampleManager loggedInStorage "T1").2.1
      "u" "default",
    by decide⟩

/-- C17, as stated, fails: after `Kickout("u")`, and likewise after `LogoutByToken` of
the token of `"u"`, no token of `"u"` is accepted by `IsLogin`, yet
`GetTokenValue("u")` does not fail: it returns the token `"T1"` with no error. -/
theorem GetTokenValue_after_Kickout_counterexample :
    exampleManager.IsLogin kickedOutStorage "T1" = false ∧
    exampleManager.GetTokenValue kickedOutStorage "u" [] = ("T1", none) ∧
    exampleManager.IsLogin (exampleManager.LogoutByToken loggedInStorage "T1").2 "T1" = false ∧
    exampleManager.GetTokenValue (exampleManager.LogoutByToken loggedInStorage "T1").2 "u" [] =
      ("T1", none) := by
  decide

/-- C17, amended: for every login ID `u` and device `d`, `GetTokenValue(u, d)` looks at
the account entry only. It fails whenever `(u, d)` has no account entry, in
particular after a `Logout(u, d)` whose delete of the account entry succeeds.
`Kickout(u, d)` and `LogoutByToken` leave its result as it was, so after them it
still returns the token of `(u, d)`, which `IsLogin` no longer accepts. -/
theorem GetTokenValue_reads_account_entry_only (m : Manager) (s : Storage) (u : String)
    (d : List String) :
    (s.find (m.getAccountKey u (Manager.getDevice d)) = none →
      (m.GetTokenValue s u d).2 ≠ none) ∧
    (s.failDelete (m.getAccountKey u (Manager.getDevice d)) = none →
      (m.GetTokenValue (m.Logout s u d).2 u d).2 ≠ none) ∧
    m.GetTokenValue (m.Kickout s u d).2 u d = m.GetTokenValue s u d ∧
    (∀ t, m.GetTokenValue (m.LogoutByToken s t).2 u d = m.GetTokenValue s u d) := by
  refine ⟨Manager.GetTokenValue_of_absent m s u d, ?_, ?_, ?_⟩
  · intro hdel
    rcases Manager.Logout_eq m s u d with ⟨hno, h⟩ | ⟨t, _, h⟩
    · rw [h]
      rcases Manager.GetTokenValue_cases m s u d with h2 | ⟨t, h2⟩
      · exact h2
      · exact absurd h2 (hno t)
    · rw [h]
      apply Manager.GetTokenValue_of_absent
      exact Storage.find_Delete_self _ _ (by simp [hdel])
  · apply Manager.GetTokenValue_congr
    · unfold Manager.Kickout; simp
    · rcases Manager.Kickout_eq m s u d with ⟨_, h⟩ | ⟨t, _, h⟩
      · rw [h]
      · rw [h, Storage.find_Delete_ne _ _ _
          (fun e => Manager.tokenKey_ne_accountKey m t u _ e.symm)]
  · intro t
    apply Manager.GetTokenValue_congr
    · unfold Manager.LogoutByToken; split <;> simp
    · unfold Manager.LogoutByToken
      split
      · rfl
      · exact Storage.find_Delete_ne _ _ _
          (fun e => Manager.tokenKey_ne_accountKey m t u _ e.symm)

/-- C17, amended, at a concrete input: `GetTokenValue("u")` fails on the empty storage
and after `Logout("u")`. -/
theorem GetTokenValue_reads_account_entry_only_witness :
    (exampleManager.GetTokenValue Storage.empty "u" []).2 ≠ none ∧
    (exampleManager.GetTokenValue (exampleManager.Logout loggedInStorage "u" []).2 "u" []).2 ≠
      none :=
  ⟨(GetTokenValue_reads_account_entry_only exampleManager Storage.empty "u" []).1 rfl,
    (GetTokenValue_reads_account_entry_only exampleManager loggedInStorage "u" []).2.1 rfl⟩

/-- C18, evaluated where it fails: storage failures are swallowed. `"u"` is logged in
with `"T1"`. With every read failing, `Logout` and `Kickout` return nil and change
nothing, and `"T1"` stays logged in; with every delete failing, `Logout` returns
nil and `"T1"` stays logged in, and a new `Login` returns its token with no error
while `"T1"`, which it should have kicked out, stays logged in; with the session
write failing, `Login` returns its token with no error. -/
theorem storage_failure_swallowed :
    unreadableStorage.failGet (exampleManager.getAccountKey "u" "default") =
      some (.message "i/o failure") ∧
    (exampleManager.Logout unreadableStorage "u" []).1 = none ∧
    exampleManager.IsLogin (exampleManager.Logout unreadableStorage "u" []).2 "T1" = true ∧
    (exampleManager.Logout unreadableStorage "u" []).2.entries = unreadableStorage.entries ∧
    (exampleManager.Kickout unreadableStorage "u" []).1 = none ∧
    undeletableStorage.failDelete (exampleManager.getTokenKey "T1") =
      some (.message "i/o failure") ∧
    (exampleManager.Logout undeletableStorage "u" []).1 = none ∧
    exampleManager.IsLogin (exampleManager.Logout undeletableStorage "u" []).2 "T1" = true ∧
    (exampleManager.Login (constGenerate "T2") 8 undeletableStorage "u" []).1 = ("T2", none) ∧
    exampleManager.IsLogin
      (exampleManager.Login (constGenerate "T2") 8 undeletableStorage "u" []).2 "T1" = true ∧
    sessionWriteFailStorage.failSet "satokensession:u" = some (.message "i/o failure") ∧
    (exampleManager.Login (constGenerate "T1") 7 sessionWriteFailStorage "u" []).1 =
      ("T1", none) := by
  decide

/-- The storage failures that are surfaced: a failed storage call is returned as a
non-nil error by `Login` for its two mapping writes, by `LoginByToken`, by
`LogoutByToken`, by `Kickout` for its delete, by `Disable` and `Untie`, by
`GetTokenValue` and `GetLoginIDNotCheck` for their read (as their own not-found
error), by `GetDisableTime` for the TTL lookup, by `GetTokenValueListByLoginID`
and `GetSessionCountByLoginID` for the key listing, and by `SetPermissions` and
`SetRoles` for the read and the write of the session. `Logout` and `Kickout`
return nil on a failed read of the account entry. -/
theorem storage_failures_surfaced (m : Manager) (s : Storage) (u : String) (d : List String)
    (e : Error) :
    (∀ g now t, m.IsDisable s u = false → g u (Manager.getDevice d) = .ok t →
      s.failSet (m.getTokenKey t) = some e →
      (m.Login g now s u d).1 = ("", some (.wrap "failed to save token" e))) ∧
    (∀ g now t, m.IsDisable s u = false → g u (Manager.getDevice d) = .ok t →
      s.failSet (m.getTokenKey t) = none →
      s.failSet (m.getAccountKey u (Manager.getDevice d)) = some e →
      (m.Login g now s u d).1 = ("", some (.wrap "failed to save account mapping" e))) ∧
    (∀ t, s.failSet (m.getTokenKey t) = some e →
      (m.LoginByToken s u t d).1 = some (.wrap "failed to save token" e)) ∧
    (∀ t, s.failSet (m.getTokenKey t) = none →
      s.failSet (m.getAccountKey u (Manager.getDevice d)) = some e →
      (m.LoginByToken s u t d).1 = some e) ∧
    (∀ t, t ≠ "" → s.failDelete (m.getTokenKey t) = some e →
      (m.LogoutByToken s t).1 = some e) ∧
    (∀ t, m.GetTokenValue s u d = (t, none) → s.failDelete (m.getTokenKey t) = some e →
      (m.Kickout s u d).1 = some e) ∧
    (∀ ttl, s.failSet (m.getDisableKey u) = some e → (m.Disable s u ttl).1 = some e) ∧
    (s.failDelete (m.getDisableKey u) = some e → (m.Untie s u).1 = some e) ∧
    (s.failGet (m.getAccountKey u (Manager.getDevice d)) = some e →
      (m.GetTokenValue s u d).2 ≠ none) ∧
    (∀ t, s.failGet (m.getTokenKey t) = some e →
      m.GetLoginIDNotCheck s t = ("", some .ErrTokenNotFound)) ∧
    (s.failGet (m.getAccountKey u (Manager.getDevice d)) = some e →
      m.Logout s u d = (none, s) ∧ m.Kickout s u d = (none, s)) ∧
    (s.failTTL (m.getDisableKey u) = some e → m.GetDisableTime s u = (-2, some e)) ∧
    (s.failKeys (m.keyPrefix ++ AccountKeyPrefix ++ u ++ ":*") = some e →
      m.GetTokenValueListByLoginID s u = ([], some e) ∧
      m.GetSessionCountByLoginID s u = (0, some e)) ∧
    (∀ xs, s.failGet (m.keyPrefix ++ SessionKeyPrefix ++ u) = some e →
      (m.SetPermissions s u xs).1 = some e ∧ (m.SetRoles s u xs).1 = some e) ∧
    (∀ xs, s.failGet (m.keyPrefix ++ SessionKeyPrefix ++ u) = none →
      (∀ sid data ttl, s.find (m.keyPrefix ++ SessionKeyPrefix ++ u) =
        some ⟨.session sid data, ttl⟩ → sid = u) →
      s.failSet (m.keyPrefix ++ SessionKeyPrefix ++ u) = some e →
      (m.SetPermissions s u xs).1 = some e ∧ (m.SetRoles s u xs).1 = some e) := by
  refine ⟨?_, ?_, ?_, ?_, ?_, ?_, ?_, ?_, ?_, ?_, ?_, ?_, ?_, ?_, ?_⟩
  · intro g now t hdis hgen hf
    unfold Manager.Login
    simp only [hdis, hgen, Bool.false_eq_true, if_false]
    generalize hs1 : (if (!m.config.IsConcurrent) = true then
      (m.kickout s u (Manager.getDevice d)).2 else s) = s1
    have h1set : s1.failSet = s.failSet := by
      rw [← hs1]; split <;> simp
    rw [Storage.Set_fail s1 _ _ _ e (by rw [h1set]; exact hf)]
  · intro g now t hdis hgen hf1 hf2
    unfold Manager.Login
    simp only [hdis, hgen, Bool.false_eq_true, if_false]
    generalize hs1 : (if (!m.config.IsConcurrent) = true then
      (m.kickout s u (Manager.getDevice d)).2 else s) = s1
    have h1set : s1.failSet = s.failSet := by
      rw [← hs1]; split <;> simp
    rw [Storage.Set_pair s1 _ _ _ (by rw [h1set]; exact hf1)]
    simp only []
    rw [Storage.Set_fail _ _ _ _ e (by simp [h1set, hf2])]
  · intro t hf
    simp only [Manager.LoginByToken]
    rw [Storage.Set_fail s _ _ _ e hf]
  · intro t hf1 hf2
    simp only [Manager.LoginByToken]
    rw [Storage.Set_pair s _ _ _ hf1]
    simp only []
    rw [Storage.Set_fst]
    simp [hf2]
  · intro t ht hf
    simp only [Manager.LogoutByToken, if_neg ht, Storage.Delete_fst, hf]
  · intro t ht hf
    rcases Manager.Kickout_eq m s u d with ⟨hno, _⟩ | ⟨t2, ht2, h⟩
    · exact absurd ht (hno t)
    · have htt : t2 = t := by
        have := ht2.symm.trans ht
        simpa using this
      subst htt
      rw [h, Storage.Delete_fst, hf]
  · intro ttl hf
    simp only [Manager.Disable, Storage.Set_fst, hf]
  · intro hf
    simp only [Manager.Untie, Storage.Delete_fst, hf]
  · intro hf
    simp [Manager.GetTokenValue, Storage.Get, hf]
  · intro t hf
    simp [Manager.GetLoginIDNotCheck, Manager.getTokenInfo, Manager.getLoginIDByToken,
      Storage.Get, hf]
  · intro hf
    constructor
    · simp [Manager.Logout, Storage.Get, hf]
    · simp [Manager.Kickout, Manager.kickout, Storage.Get, hf]
  · intro hf
    simp [Manager.GetDisableTime, Storage.TTL, hf]
  · intro hf
    simp [Manager.GetSessionCountByLoginID, Manager.GetTokenValueListByLoginID, Storage.Keys, hf]
  · intro xs hf
    have hG : m.GetSession s u = (Session.NewSession u m.keyPrefix, none) := by
      simp [Manager.GetSession, Session.Load, Storage.Get, hf]
    constructor
    · simp [Manager.SetPermissions, hG, Session.Set, Session.NewSession, Session.getStorageKey,
        Storage.Get, hf]
    · simp [Manager.SetRoles, hG, Session.Set, Session.NewSession, Session.getStorageKey,
        Storage.Get, hf]
  · intro xs hg hwf hf
    have hkey : (m.GetSession s u).1.getStorageKey = m.keyPrefix ++ SessionKeyPrefix ++ u := by
      rcases Manager.GetSession_cases m s u hg with ⟨sid, data, ttl, hfind, hG⟩ | ⟨_, hG⟩
      · rw [hG, hwf sid data ttl hfind]; rfl
      · rw [hG]; rfl
    have hsnd := Manager.GetSession_snd m s u
    have hfst : ∀ key v, ((m.GetSession s u).1.Set s key v).1 = some e := by
      intro key v
      unfold Session.Set
      rw [hkey, Storage.Get_eq s _ hg]
      simp only []
      rw [Storage.Set_fst]
      have hkey2 := hkey
      simp only [Session.getStorageKey] at hkey2 ⊢
      rw [hkey2]
      exact hf
    unfold Manager.SetPermissions Manager.SetRoles
    generalize m.GetSession s u = r at hsnd hfst
    obtain ⟨sess, err⟩ := r
    simp only at hsnd hfst
    subst hsnd
    exact ⟨hfst _ _, hfst _ _⟩

/-- C19: for every login ID `u`, `Login`, `Logout`, `Kickout`, `LoginByToken` and
`GetTokenValue` address the account entry of `u` and `getDevice` of their device
arguments, which is `"default"` for no device argument, for an empty first
argument and for the first argument `"default"`, and the first argument itself
otherwise, whatever the later arguments are. A `Login` that succeeds leaves the
storage of the kick-out (if concurrent login is not allowed), of the two writes
and of the session writes for that device, with the token it returned in that
account entry; a `LoginByToken` that succeeds leaves its token in that account
entry; `GetTokenValue` returns `t` exactly when that account entry is read as the
string `t`; then `Logout` deletes the token entry of `t` and that account entry
and `Kickout` deletes the token entry of `t`; and when `GetTokenValue` returns
no token, `Logout` and `Kickout` change nothing. So calls whose device arguments
have the same `getDevice` give the same results. -/
theorem device_argument_default (m : Manager) (u : String) :
    Manager.getDevice [] = "default" ∧
    (∀ rest, Manager.getDevice ("" :: rest) = "default") ∧
    (∀ rest, Manager.getDevice ("default" :: rest) = "default") ∧
    (∀ dev rest, dev ≠ "" → Manager.getDevice (dev :: rest) = dev) ∧
    (∀ dev rest, Manager.getDevice (dev :: rest) = Manager.getDevice [dev]) ∧
    (m.getAccountKey u (Manager.getDevice []) = m.getAccountKey u "default" ∧
      m.getAccountKey u (Manager.getDevice [""]) = m.getAccountKey u "default" ∧
      m.getAccountKey u (Manager.getDevice ["default"]) = m.getAccountKey u "default") ∧
    (∀ (d : List String),
      (∀ g now s t, (m.Login g now s u d).1 = (t, none) →
        (m.Login g now s u d).2 =
          m.loginSession
            (((if (!m.config.IsConcurrent) = true then
                (m.kickout s u (Manager.getDevice d)).2 else s).Set
              (m.getTokenKey t) (.value (.str u)) m.getExpiration).2.Set
              (m.getAccountKey u (Manager.getDevice d)) (.value (.str t)) m.getExpiration).2
            u (Manager.getDevice d) now ∧
        (m.Login g now s u d).2.find (m.getAccountKey u (Manager.getDevice d)) =
          some ⟨.value (.str t), m.getExpiration⟩) ∧
      (∀ s t, (m.LoginByToken s u t d).1 = none →
        (m.LoginByToken s u t d).2.find (m.getAccountKey u (Manager.getDevice d)) =
          some ⟨.value (.str t), m.getExpiration⟩) ∧
      (∀ s t, m.GetTokenValue s u d = (t, none) ↔
        s.failGet (m.getAccountKey u (Manager.getDevice d)) = none ∧
        (s.find (m.getAccountKey u (Manager.getDevice d))).map Entry.value =
          some (.value (.str t))) ∧
      (∀ s t, m.GetTokenValue s u d = (t, none) →
        m.Logout s u d =
          (none, ((s.Delete (m.getTokenKey t)).2.Delete
            (m.getAccountKey u (Manager.getDevice d))).2) ∧
        m.Kickout s u d = s.Delete (m.getTokenKey t)) ∧
      (∀ s, (∀ t, m.GetTokenValue s u d ≠ (t, none)) →
        m.Logout s u d = (none, s) ∧ m.Kickout s u d = (none, s))) ∧
    (∀ (d1 d2 : List String), Manager.getDevice d1 = Manager.getDevice d2 →
      (∀ g now s, m.Login g now s u d1 = m.Login g now s u d2) ∧
      (∀ s, m.Logout s u d1 = m.Logout s u d2) ∧
      (∀ s, m.Kickout s u d1 = m.Kickout s u d2) ∧
      (∀ s t, m.LoginByToken s u t d1 = m.LoginByToken s u t d2) ∧
      (∀ s, m.GetTokenValue s u d1 = m.GetTokenValue s u d2)) := by
  refine ⟨rfl, fun _ => rfl, fun _ => rfl, ?_, ?_, ⟨rfl, rfl, rfl⟩, ?_, ?_⟩
  · intro dev rest h
    simp [Manager.getDevice, h]
  · intro dev rest
    rfl
  · intro d
    refine ⟨?_, ?_, ?_, ?_, ?_⟩
    · intro g now s t h
      exact ⟨(Manager.Login_of_success m g now s u d t h).2.2.2.2,
        (Manager.Login_success_find m g now s u d t h).2.1⟩
    · intro s t h
      exact (Manager.LoginByToken_ok m s u t d h).2.1
    · intro s t
      exact Manager.GetTokenValue_eq_iff m s u d t
    · intro s t h
      obtain ⟨hget, hval⟩ := (Manager.GetTokenValue_eq_iff m s u d t).1 h
      constructor
      · simp [Manager.Logout, Storage.Get, hget, hval, assertString]
      · simp [Manager.Kickout, Manager.kickout, Storage.Get, hget, hval, assertString]
    · intro s hno
      constructor
      · rcases Manager.Logout_eq m s u d with ⟨_, h⟩ | ⟨t, ht, _⟩
        · exact h
        · exact absurd ht (hno t)
      · rcases Manager.Kickout_eq m s u d with ⟨_, h⟩ | ⟨t, ht, _⟩
        · exact h
        · exact absurd ht (hno t)
  · intro d1 d2 h
    refine ⟨?_, ?_, ?_, ?_, ?_⟩
    · intro g now s
      simp only [Manager.Login, h]
    · intro s
      simp only [Manager.Logout, h]
    · intro s
      simp only [Manager.Kickout, h]
    · intro s t
      simp only [Manager.LoginByToken, h]
    · intro s
      simp only [Manager.GetTokenValue, h]

/-- C19, at a concrete input: a login of `"u"` with no device is read back with the
devices `""` and `"default"`, a second device argument is ignored, and a logout
with the devices `"default", "web"` deletes the token entry and the account entry
of the default device. -/
theorem device_argument_default_witness :
    exampleManager.GetTokenValue loggedInStorage "u" [""] = ("T1", none) ∧
    exampleManager.GetTokenValue loggedInStorage "u" ["default", "web"] = ("T1", none) ∧
    Manager.getDevice ["web", "app"] = "web" ∧
    (exampleManager.Login (constGenerate "T1") 7 Storage.empty "u" [""]).2.find
      "satokenaccount:u:default" = some ⟨.value (.str "T1"), 3600 * Second⟩ ∧
    exampleManager.Logout loggedInStorage "u" ["default", "web"] =
      (none, ((loggedInStorage.Delete "satokentoken:T1").2.Delete
        "satokenaccount:u:default").2) ∧
    exampleManager.IsLogin
      (exampleManager.Logout loggedInStorage "u" ["default", "web"]).2 "T1" = false :=
  ⟨(((device_argument_default exampleManager "u").2.2.2.2.2.2.2 [""] [] rfl).2.2.2.2
      loggedInStorage).trans (by decide),
    (((device_argument_default exampleManager "u").2.2.2.2.2.2.2 ["default", "web"] []
      rfl).2.2.2.2 loggedInStorage).trans (by decide),
    (device_argument_default exampleManager "u").2.2.2.1 "web" ["app"] (by decide),
    (((device_argument_default exampleManager "u").2.2.2.2.2.2.1 [""]).1 (constGenerate "T1") 7
      Storage.empty "T1" rfl).2,
    (((device_argument_default exampleManager "u").2.2.2.2.2.2.1
      ["default", "web"]).2.2.2.1 loggedInStorage "T1" (by decide)).1,
    by decide⟩

/-- C20, evaluated where it fails: after `"a"` and `"a:b"` have each logged in on the
device `"web"`, the listing for `"a"` has the pattern `satokenaccount:a:*`, which
also matches the account key `satokenaccount:a:b:web` of `"a:b"`. So
`GetTokenValueListByLoginID("a")` returns the token `"T2"` of `"a:b"` next to the
token `"T1"` of `"a"`, and `GetSessionCountByLoginID("a")` is 2 after one login
of `"a"`. -/
theorem token_list_includes_other_login_id :
    exampleManager.GetTokenValue compositeIDStorage "a" ["web"] = ("T1", none) ∧
    exampleManager.GetTokenValue compositeIDStorage "a:b" ["web"] = ("T2", none) ∧
    exampleManager.GetLoginID compositeIDStorage "T2" = ("a:b", none) ∧
    compositeIDStorage.Keys "satokenaccount:a:*" =
      .ok ["satokenaccount:a:b:web", "satokenaccount:a:web"] ∧
    exampleManager.GetTokenValueListByLoginID compositeIDStorage "a" = (["T2", "T1"], none) ∧
    exampleManager.GetSessionCountByLoginID compositeIDStorage "a" = (2, none) :=
  ⟨by decide, by decide, by decide, rfl, by decide, by decide⟩

/-- C21, evaluated where it fails: for the reported TTL 16777216999999999 ns, which is
16777216 whole seconds and 999999999 ns, `int64(ttl.Seconds())` is 16777217:
`Seconds` adds `float64(16777216)` and `0.999999999` in binary64, where numbers of
that size are 2^-28 (about 3.7e-9) apart, so the sum rounds up to 16777217.0. The
claim gives 16777216999999999 div 1000000000 = 16777216. Shorter TTLs come out
as claimed (3600999999999 ns gives 3600), and a failing TTL lookup gives
`(-2, error)`. -/
theorem GetDisableTime_rounds_up :
    longDisableStorage.TTL (exampleManager.getDisableKey "u") = .ok 16777216999999999 ∧
    exampleManager.GetDisableTime longDisableStorage "u" = (16777217, none) ∧
    (16777216999999999 : Int) / 1000000000 = 16777216 ∧
    secondsInt64 3600999999999 = 3600 ∧
    secondsInt64 16777216999999998 = 16777216 ∧
    exampleManager.GetDisableTime noTTLStorage "u" =
      (-2, some (.message "ttl not supported")) :=
  ⟨rfl, by decide, by decide, by decide, by decide, by decide⟩

/-- C27, as stated, fails: the pattern `"user:*:*"` contains `*` and has three segments
like the permission `"user:1:view"`, and every pattern segment is `*` or equals the
permission segment, but `matchPermission` is false: the pattern ends in `":*"` and
is therefore matched as the prefix `"user:*:"`. -/
theorem matchPermission_segmentwise_counterexample :
    strings.Contains "user:*:*" "*" = true ∧
    strings.Split "user:*:*" ":" = ["user", "*", "*"] ∧
    strings.Split "user:1:view" ":" = ["user", "1", "view"] ∧
    (∀ pq, pq ∈ (strings.Split "user:*:*" ":").zip (strings.Split "user:1:view" ":") →
      pq.1 = "*" ∨ pq.1 = pq.2) ∧
    matchPermission "user:*:*" "user:1:view" = false ∧
    matchPermission "*:*" "a:b" = false := by
  decide

/-- C27, amended: for every pattern that contains `*` and does not end in `":*"`, and
every permission that has the same number of `":"`-separated segments as the
pattern, `matchPermission(pattern, permission)` is true iff every pattern segment
is `*` or equals the corresponding permission segment. -/
theorem matchPermission_segmentwise (pattern permission : String)
    (hstar : strings.Contains pattern "*" = true)
    (hsuf : strings.HasSuffix pattern ":*" = false)
    (hlen : (strings.Split pattern ":").length = (strings.Split permission ":").length) :
    matchPermission pattern permission = true ↔
      ∀ pq, pq ∈ (strings.Split pattern ":").zip (strings.Split permission ":") →
        pq.1 = "*" ∨ pq.1 = pq.2 := by
  have hw : PermissionWildcard = "*" := rfl
  have hs : PermissionSeparator = ":" := rfl
  have hsufx : PermissionSeparator ++ PermissionWildcard = ":*" := by decide
  by_cases h1 : pattern = "*" ∨ pattern = permission
  · have hm : matchPermission pattern permission = true := by
      simp [matchPermission, matchPermissionRun, hw, h1]
    rw [hm]
    simp only [true_iff]
    rcases h1 with h | h
    · subst h
      have hsp : strings.Split "*" ":" = ["*"] := by decide
      rw [hsp] at hlen ⊢
      intro pq hpq
      left
      cases hq : strings.Split permission ":" with
      | nil => rw [hq] at hpq; cases hpq
      | cons q qs =>
        rw [hq, List.zip_cons_cons, List.mem_cons] at hpq
        rcases hpq with h | h
        · rw [h]
        · simp at h
    · subst h
      intro pq hpq
      right
      exact zip_self_eq _ pq hpq
  · have hrun : matchPermissionRun pattern permission =
        matchPermissionLoop (strings.Split permission ":") 0 (strings.Split pattern ":") := by
      unfold matchPermissionRun
      simp only [hsufx]
      rw [hw, hs, if_neg h1]
      simp [hsuf, hstar, hlen]
    unfold matchPermission
    rw [hrun, matchPermissionLoop_eq _ _ 0 (by omega)]
    simp [List.all_eq_true]

/-- C27, amended, at a concrete input: the pattern `"user:*:view"`. -/
theorem matchPermission_segmentwise_witness :
    strings.Contains "user:*:view" "*" = true ∧
    strings.HasSuffix "user:*:view" ":*" = false ∧
    matchPermission "user:*:view" "user:1:view" = true ∧
    matchPermission "user:*:view" "user:1:edit" = false :=
  ⟨by decide, by decide,
    (matchPermission_segmentwise "user:*:view" "user:1:view" (by decide) (by decide)
      (by decide)).2 (by decide),
    by
      cases h : matchPermission "user:*:view" "user:1:edit"
      · rfl
      · exact absurd ((matchPermission_segmentwise "user:*:view" "user:1:edit" (by decide)
          (by decide) (by decide)).1 h ("view", "edit") (by decide)) (by decide)⟩

/-- C30, evaluated where it fails: `getAccountKey` is not injective. The pairs
`("a", "b:web")` and `("a:b", "web")` have the same account key, so after `"a:b"`
has logged in on `"web"`, `GetTokenValue("a", "b:web")` returns the token of `"a:b"`
and `Kickout("a", "b:web")` deletes its token entry. -/
theorem getAccountKey_not_injective :
    exampleManager.getAccountKey "a" "b:web" = exampleManager.getAccountKey "a:b" "web" ∧
    ("a", "b:web") ≠ ("a:b", "web") ∧
    exampleManager.GetLoginID colonIDStorage "T1" = ("a:b", none) ∧
    exampleManager.GetTokenValue colonIDStorage "a" ["b:web"] = ("T1", none) ∧
    exampleManager.IsLogin colonIDStorage "T1" = true ∧
    (exampleManager.Kickout colonIDStorage "a" ["b:web"]).1 = none ∧
    exampleManager.IsLogin (exampleManager.Kickout colonIDStorage "a" ["b:web"]).2 "T1" =
      false := by
  decide

/-- C22: for every login ID and device, `Generator.Generate` returns without error a
string of exactly 64 hexadecimal characters under the Hash style and a string of
exactly 11 characters, each in `0-9`, `A-Z` or `a-z`, under the Tik style. -/
theorem Generate_Hash_Tik_shape (cfg : Config) (env : GenEnv) (loginID device : String) :
    (cfg.TokenStyle = .Hash →
      ∃ t, Generator.Generate cfg env loginID device = .ok t ∧ t.length = 64 ∧
        ∀ c, c ∈ t.data → c ∈ hexAlphabet) ∧
    (cfg.TokenStyle = .Tik →
      ∃ t, Generator.Generate cfg env loginID device = .ok t ∧ t.length = 11 ∧
        ∀ c, c ∈ t.data →
          ('0' ≤ c ∧ c ≤ '9') ∨ ('A' ≤ c ∧ c ≤ 'Z') ∨ ('a' ≤ c ∧ c ≤ 'z')) := by
  constructor
  · intro h
    have hg : Generator.Generate cfg env loginID device =
        .ok ⟨(List.range 32).flatMap (fun i => hexOfByte
          (env.digest (loginID ++ device ++ ⟨randomChars env hexAlphabet 0 16⟩) i % 256))⟩ := by
      simp only [Generator.Generate, h]
    refine ⟨_, hg, ?_, ?_⟩
    · show (List.flatMap _ _).length = 64
      rw [length_flatMap_hexOfByte]
      rfl
    · intro c hc
      exact mem_flatMap_hexOfByte _ _ c hc
  · intro h
    have hg : Generator.Generate cfg env loginID device =
        .ok ⟨randomChars env alnumAlphabet 0 11⟩ := by
      simp only [Generator.Generate, h]
    refine ⟨_, hg, ?_, ?_⟩
    · show (randomChars env alnumAlphabet 0 11).length = 11
      exact length_randomChars _ _ _ _
    · intro c hc
      exact alnumAlphabet_chars c (mem_randomChars env alnumAlphabet (by decide) 0 11 c hc)

/-- C22, at a concrete input: the Hash and Tik tokens of `"user1000"` in the example
environment. -/
theorem Generate_Hash_Tik_shape_witness :
    (∃ t, Generator.Generate (styleConfig .Hash) exampleEnv "user1000" "default" = .ok t ∧
      t.length = 64 ∧ ∀ c, c ∈ t.data → c ∈ hexAlphabet) ∧
    Generator.Generate (styleConfig .Tik) exampleEnv "user1000" "default" =
      .ok "07ELSZgnu18" :=
  ⟨(Generate_Hash_Tik_shape (styleConfig .Hash) exampleEnv "user1000" "default").1 rfl, rfl⟩

/-- C23: for each of the nine token styles, with a JWT secret configured,
`Generator.Generate` returns a non-empty token and no error for every login ID and
device; so a `Login` that succeeds with this generator returns, and has stored, a
non-empty token value. -/
theorem Generate_nonempty_all_styles (cfg : Config) (env : GenEnv) (loginID device : String)
    (hsecret : cfg.JwtSecretKey ≠ "") :
    (∃ t, Generator.Generate cfg env loginID device = .ok t ∧ t ≠ "") ∧
    (∀ (m : Manager) (now : Int) (s : Storage) (d : List String) (t : String),
      (m.Login (Generator.Generate cfg env) now s loginID d).1 = (t, none) → t ≠ "") := by
  refine ⟨Generate_ok_nonempty cfg env loginID device hsecret, ?_⟩
  intro m now s d t h
  obtain ⟨_, hg⟩ := Manager.Login_success_generate m _ now s loginID d t h
  obtain ⟨t2, hg2, hne⟩ := Generate_ok_nonempty cfg env loginID (Manager.getDevice d) hsecret
  rw [hg2] at hg
  cases hg
  exact hne

/-- C23, at a concrete input: the JWT style with the secret `"test-secret-key"`. -/
theorem Generate_nonempty_all_styles_witness :
    (styleConfig .JWT).JwtSecretKey ≠ "" ∧
    ∃ t, Generator.Generate (styleConfig .JWT) exampleEnv "user1000" "default" = .ok t ∧
      t ≠ "" :=
  ⟨by decide,
    (Generate_nonempty_all_styles (styleConfig .JWT) exampleEnv "user1000" "default"
      (by decide)).1⟩

/-- C24: for every nonce `n` returned by `GenerateNonce` (on a storage that serves the
delete), the first `VerifyNonce(n)` returns true and every later `VerifyNonce(n)`,
directly after it or after any further verifications, returns false;
`VerifyNonce` of a value whose key is not in the storage, as for a value that was
never generated, returns false and changes nothing. -/
theorem Nonce_verified_once (m : Manager) (env : GenEnv) (s : Storage) (n : String)
    (hgen : (m.GenerateNonce env s).1 = (n, none))
    (hdel : s.failDelete (m.nonceManager.getNonceKey n) = none) :
    (m.VerifyNonce (m.GenerateNonce env s).2 n).1 = true ∧
    (m.VerifyNonce (m.VerifyNonce (m.GenerateNonce env s).2 n).2 n).1 = false ∧
    (∀ later : List String,
      (m.VerifyNonce
        (later.foldl (fun st x => (m.VerifyNonce st x).2)
          (m.VerifyNonce (m.GenerateNonce env s).2 n).2) n).1 = false) ∧
    (∀ (s0 : Storage) (x : String), s0.find (m.nonceManager.getNonceKey x) = none →
      m.VerifyNonce s0 x = (false, s0)) := by
  unfold Manager.GenerateNonce at hgen ⊢
  unfold Manager.VerifyNonce
  obtain ⟨hfind, hfd⟩ := NonceManager.Generate_ok m.nonceManager env s n hgen
  have hdel2 : (m.nonceManager.Generate env s).2.failDelete (m.nonceManager.getNonceKey n) =
      none := by rw [hfd]; exact hdel
  have hv := NonceManager.Verify_of_present m.nonceManager _ n (by rw [hfind]; rfl) hdel2
  have habs : (m.nonceManager.Verify (m.nonceManager.Generate env s).2 n).2.find
      (m.nonceManager.getNonceKey n) = none := by
    rw [hv]; exact Storage.find_Delete_self _ _ hdel2
  refine ⟨by rw [hv], ?_, ?_, ?_⟩
  · rw [NonceManager.Verify_of_absent _ _ _ habs]
  · intro later
    rw [NonceManager.Verify_of_absent _ _ _
      (NonceManager.Verify_after_list m.nonceManager n later _ habs)]
  · intro s0 x h
    exact NonceManager.Verify_of_absent _ _ _ h

/-- C24, at a concrete input: a nonce generated on the empty storage is verified once;
a value that was not generated is not verified. -/
theorem Nonce_verified_once_witness :
    (exampleManager.GenerateNonce exampleEnv Storage.empty).1 =
      ("07e5c3a18f6d4b2907e5c3a18f6d4b29", none) ∧
    (exampleManager.VerifyNonce (exampleManager.GenerateNonce exampleEnv Storage.empty).2
      "07e5c3a18f6d4b2907e5c3a18f6d4b29").1 = true ∧
    (exampleManager.VerifyNonce
      (exampleManager.VerifyNonce (exampleManager.GenerateNonce exampleEnv Storage.empty).2
        "07e5c3a18f6d4b2907e5c3a18f6d4b29").2 "07e5c3a18f6d4b2907e5c3a18f6d4b29").1 = false ∧
    (exampleManager.VerifyNonce (exampleManager.GenerateNonce exampleEnv Storage.empty).2
      "abc").1 = false :=
  ⟨by decide,
    (Nonce_verified_once exampleManager exampleEnv Storage.empty
      "07e5c3a18f6d4b2907e5c3a18f6d4b29" (by decide) rfl).1,
    (Nonce_verified_once exampleManager exampleEnv Storage.empty
      "07e5c3a18f6d4b2907e5c3a18f6d4b29" (by decide) rfl).2.1,
    by decide⟩

/-- C25: for every token pair issued by `LoginWithRefreshToken(u, d)` with refresh
token `rt` (on a storage whose writes and reads succeed), `RefreshAccessToken(rt)`
succeeds and returns a pair whose refresh token equals `rt`; `RefreshAccessToken`
of an absent refresh token, and of one that has been revoked, fails with
`ErrInvalidRefreshToken`. -/
theorem RefreshAccessToken_same_refresh_token (m : Manager) (envA envR env : GenEnv)
    (s : Storage) (u d : String) (info : RefreshTokenInfo)
    (hset : ∀ k, s.failSet k = none) (hget : ∀ k, s.failGet k = none)
    (hpair : (m.LoginWithRefreshToken envA envR s u d).1 = .ok info) :
    (∃ info2,
      (m.RefreshAccessToken env (m.LoginWithRefreshToken envA envR s u d).2
        info.RefreshToken).1 = .ok info2 ∧
      info2.RefreshToken = info.RefreshToken) ∧
    (∀ (s0 : Storage) (rt : String), s0.find (m.refreshManager.getRefreshKey rt) = none →
      (m.RefreshAccessToken env s0 rt).1 = .error .ErrInvalidRefreshToken) ∧
    (∀ (s0 : Storage) (rt : String), (m.RevokeRefreshToken s0 rt).1 = none →
      (m.RefreshAccessToken env (m.RevokeRefreshToken s0 rt).2 rt).1 =
        .error .ErrInvalidRefreshToken) := by
  unfold Manager.LoginWithRefreshToken at hpair ⊢
  unfold Manager.RefreshAccessToken Manager.RevokeRefreshToken
  obtain ⟨hgenA, hfind, hfg, hfs⟩ :=
    RefreshTokenManager.GenerateTokenPair_ok m.refreshManager envA envR s u d info hpair
  refine ⟨?_, ?_, ?_⟩
  · obtain ⟨t2, ht2⟩ := Generate_isOk_of_ok m.refreshManager.config envA env u d u d _ hgenA
    exact ⟨_, RefreshTokenManager.RefreshAccessToken_of_record m.refreshManager env _
      info.RefreshToken u d t2 _ (by rw [hfg]; exact hget _) hfind ht2
      (by rw [hfs]; exact hset _), rfl⟩
  · intro s0 rt h
    rw [RefreshTokenManager.RefreshAccessToken_of_absent _ _ _ _ h]
  · intro s0 rt h
    have hd : s0.failDelete (m.refreshManager.getRefreshKey rt) = none := by
      simpa [RefreshTokenManager.RevokeRefreshToken, Storage.Delete_fst] using h
    simp only [RefreshTokenManager.RevokeRefreshToken]
    rw [RefreshTokenManager.RefreshAccessToken_of_absent _ _ _ _
      (Storage.find_Delete_self _ _ hd)]

/-- C25, at a concrete input: a pair issued for `"user1000"` on `"web"` with the
Random32 style, refreshed once. -/
theorem RefreshAccessToken_same_refresh_token_witness :
    ∃ info info2,
      ((NewManager (styleConfig .Random32)).LoginWithRefreshToken exampleEnv exampleEnv
        Storage.empty "user1000" "web").1 = .ok info ∧
      ((NewManager (styleConfig .Random32)).RefreshAccessToken exampleEnv
        ((NewManager (styleConfig .Random32)).LoginWithRefreshToken exampleEnv exampleEnv
          Storage.empty "user1000" "web").2 info.RefreshToken).1 = .ok info2 ∧
      info2.RefreshToken = info.RefreshToken :=
  ⟨_, _, rfl,
    (RefreshAccessToken_same_refresh_token (NewManager (styleConfig .Random32)) exampleEnv
      exampleEnv exampleEnv Storage.empty "user1000" "web" _ (fun _ => rfl) (fun _ => rfl)
      rfl).1.choose_spec.1,
    (RefreshAccessToken_same_refresh_token (NewManager (styleConfig .Random32)) exampleEnv
      exampleEnv exampleEnv Storage.empty "user1000" "web" _ (fun _ => rfl) (fun _ => rfl)
      rfl).1.choose_spec.2⟩

/-- C26: for every registered client `C` with registered redirect URI `R` (on a
storage whose writes, reads and deletes succeed), `GenerateAuthorizationCode(C, R,
user, scopes)` returns a code; `ExchangeCodeForToken` of that code with the client's
ID, secret and `R` succeeds, and a second exchange of the same code with the same
credentials fails with `ErrInvalidCode`. `GenerateAuthorizationCode` fails with
`ErrInvalidClient` for an unregistered client and with `ErrInvalidRedirectURI` for a
redirect URI that is not registered for the client. -/
theorem OAuth2_code_exchanged_once (srv : OAuth2Server) (env env1 env2 : GenEnv) (s : Storage)
    (C : OAuth2Client) (R user : String) (scopes : List String)
    (hreg : lookupKey C.ClientID srv.clients = some C) (hR : R ∈ C.RedirectURIs)
    (hset : ∀ k, s.failSet k = none) (hget : ∀ k, s.failGet k = none)
    (hdel : ∀ k, s.failDelete k = none) :
    (∃ code tok,
      (srv.GenerateAuthorizationCode env s C.ClientID R user scopes).1 = .ok code ∧
      (srv.ExchangeCodeForToken env1
        (srv.GenerateAuthorizationCode env s C.ClientID R user scopes).2
        code.Code C.ClientID C.ClientSecret R).1 = .ok tok ∧
      (srv.ExchangeCodeForToken env2
        (srv.ExchangeCodeForToken env1
          (srv.GenerateAuthorizationCode env s C.ClientID R user scopes).2
          code.Code C.ClientID C.ClientSecret R).2
        code.Code C.ClientID C.ClientSecret R).1 = .error .ErrInvalidCode) ∧
    (∀ cid r : String, lookupKey cid srv.clients = none →
      (srv.GenerateAuthorizationCode env s cid r user scopes).1 = .error .ErrInvalidClient) ∧
    (∀ r : String, r ∉ C.RedirectURIs →
      (srv.GenerateAuthorizationCode env s C.ClientID r user scopes).1 =
        .error .ErrInvalidRedirectURI) := by
  refine ⟨?_, ?_, ?_⟩
  · have hgen : (srv.GenerateAuthorizationCode env s C.ClientID R user scopes).1 =
        .ok ⟨⟨randomChars env hexAlphabet 0 32⟩, C.ClientID, R, user, scopes⟩ := by
      simp only [OAuth2Server.GenerateAuthorizationCode, hreg, hR, not_true_eq_false, if_false]
      rw [Storage.Set_pair s _ _ _ (hset _)]
    obtain ⟨hfind, hfg, hfs, hfd⟩ :=
      OAuth2Server.GenerateAuthorizationCode_ok srv env s C.ClientID R user scopes _ hgen
    obtain ⟨hx, hgone, hfg2⟩ := OAuth2Server.ExchangeCodeForToken_of_code srv env1 _ _
      C.ClientID R user scopes C _ hreg (by rw [hfg]; exact hget _) hfind
      (by rw [hfd]; exact hdel _) (by intro k; rw [hfs]; exact hset k)
    refine ⟨_, _, hgen, hx, ?_⟩
    rw [OAuth2Server.ExchangeCodeForToken_of_absent srv env2 _ _ C.ClientID R C hreg
      (by rw [hfg2, hfg]; exact hget _) hgone]
  · intro cid r h
    rw [OAuth2Server.GenerateAuthorizationCode_unregistered srv env s cid r user scopes h]
  · intro r h
    rw [OAuth2Server.GenerateAuthorizationCode_bad_redirect srv env s _ r user scopes C hreg h]

/-- C26, at a concrete input: the client `"webapp123"` of the example, the empty
storage, user `"user1000"` and the scopes `"read"` and `"write"`. -/
theorem OAuth2_code_exchanged_once_witness :
    lookupKey exampleClient.ClientID exampleServer.clients = some exampleClient ∧
    "http://localhost:8080/callback" ∈ exampleClient.RedirectURIs ∧
    (∃ code tok,
      (exampleServer.GenerateAuthorizationCode exampleEnv Storage.empty "webapp123"
        "http://localhost:8080/callback" "user1000" ["read", "write"]).1 = .ok code ∧
      (exampleServer.ExchangeCodeForToken exampleEnv
        (exampleServer.GenerateAuthorizationCode exampleEnv Storage.empty "webapp123"
          "http://localhost:8080/callback" "user1000" ["read", "write"]).2
        code.Code "webapp123" "secret456" "http://localhost:8080/callback").1 = .ok tok ∧
      (exampleServer.ExchangeCodeForToken exampleEnv
        (exampleServer.ExchangeCodeForToken exampleEnv
          (exampleServer.GenerateAuthorizationCode exampleEnv Storage.empty "webapp123"
            "http://localhost:8080/callback" "user1000" ["read", "write"]).2
          code.Code "webapp123" "secret456" "http://localhost:8080/callback").2
        code.Code "webapp123" "secret456" "http://localhost:8080/callback").1 =
          .error .ErrInvalidCode) ∧
    (exampleServer.GenerateAuthorizationCode exampleEnv Storage.empty "webapp123"
      "http://localhost:8080/callback" "user1000" ["read", "write"]).1 =
      .ok ⟨"07e5c3a18f6d4b2907e5c3a18f6d4b29", "webapp123", "http://localhost:8080/callback",
        "user1000", ["read", "write"]⟩ ∧
    (exampleServer.GenerateAuthorizationCode exampleEnv Storage.empty "nobody"
      "http://localhost:8080/callback" "user1000" ["read", "write"]).1 = .error .ErrInvalidClient ∧
    (exampleServer.GenerateAuthorizationCode exampleEnv Storage.empty "webapp123"
      "http://evil.example/callback" "user1000" ["read", "write"]).1 = .error .ErrInvalidRedirectURI :=
  ⟨by decide, by decide,
    (OAuth2_code_exchanged_once exampleServer exampleEnv exampleEnv exampleEnv Storage.empty
      exampleClient "http://localhost:8080/callback" "user1000" ["read", "write"] (by decide) (by decide)
      (fun _ => rfl) (fun _ => rfl) (fun _ => rfl)).1,
    rfl,
    (OAuth2_code_exchanged_once exampleServer exampleEnv exampleEnv exampleEnv Storage.empty
      exampleClient "http://localhost:8080/callback" "user1000" ["read", "write"] (by decide) (by decide)
      (fun _ => rfl) (fun _ => rfl) (fun _ => rfl)).2.1 "nobody" _ (by decide),
    (OAuth2_code_exchanged_once exampleServer exampleEnv exampleEnv exampleEnv Storage.empty
      exampleClient "http://localhost:8080/callback" "user1000" ["read", "write"] (by decide) (by decide)
      (fun _ => rfl) (fun _ => rfl) (fun _ => rfl)).2.2 "http://evil.example/callback"
      (by decide)⟩

/-- C29: when concurrent login is not allowed, after any history of calls from the
empty storage (every `Login` in it succeeds and returns a token that no earlier
`Login` returned; the other calls are `Logout`, `Kickout`, `LogoutByToken`,
`Disable` and `Untie`; no entry expires), every token entry present in the storage
holds the login ID `u` for which its token `t` was issued, and the account entry of
`(u, d)`, `d` being the device `t` was issued for, holds `t`. Hence two tokens
issued for one login ID and device that are both logged in are one token. -/
theorem one_valid_token_per_device (m : Manager) (calls : List Call) (s : Storage)
    (issued : Issued) (hc : m.config.IsConcurrent = false)
    (hrun : m.run (Storage.empty, []) calls = some (s, issued)) :
    (∀ t e, s.find (m.getTokenKey t) = some e →
      ∃ u d, (t, u, d) ∈ issued ∧ e.value = .value (.str u) ∧
        ∃ e2, s.find (m.getAccountKey u d) = some e2 ∧ e2.value = .value (.str t)) ∧
    (∀ t1 t2 u d, (t1, u, d) ∈ issued → (t2, u, d) ∈ issued →
      m.IsLogin s t1 = true → m.IsLogin s t2 = true → t1 = t2) := by
  have h := Manager.Consistent_run m calls (Storage.empty, []) (s, issued)
    (Manager.Consistent_empty m) hrun
  refine ⟨?_, ?_⟩
  · intro t e he
    obtain ⟨u, d, hi, hv⟩ := h.token t e he
    exact ⟨u, d, hi, hv, h.current hc t u d hi (by rw [he]; exact Option.some_ne_none e)⟩
  · intro t1 t2 u d h1 h2 hl1 hl2
    have hp : ∀ t, m.IsLogin s t = true → s.find (m.getTokenKey t) ≠ none := by
      intro t hl hn
      rw [Manager.IsLogin_eq, hn] at hl
      simp at hl
    obtain ⟨e1, he1, hv1⟩ := h.current hc t1 u d h1 (hp t1 hl1)
    obtain ⟨e2, he2, hv2⟩ := h.current hc t2 u d h2 (hp t2 hl2)
    have he : e2 = e1 := Option.some.inj (he2.symm.trans he1)
    subst he
    rw [hv1] at hv2
    simp only [Stored.value.injEq, Value.str.injEq] at hv2
    exact hv2

/-- C29, at a concrete input: after `"u"` has logged in twice on `"web"`, with the
tokens `"T1"` and then `"T2"`, only `"T2"` is logged in. -/
theorem one_valid_token_per_device_witness :
    exampleManager.config.IsConcurrent = false ∧
    exampleManager.run (Storage.empty, []) twoLoginsHistory =
      some (twoLoginsStorage, [("T2", "u", "web"), ("T1", "u", "web")]) ∧
    exampleManager.IsLogin twoLoginsStorage "T2" = true ∧
    ¬ (exampleManager.IsLogin twoLoginsStorage "T1" = true ∧
      exampleManager.IsLogin twoLoginsStorage "T2" = true) :=
  ⟨rfl, rfl, by decide, fun h =>
    absurd ((one_valid_token_per_device exampleManager twoLoginsHistory twoLoginsStorage
      [("T2", "u", "web"), ("T1", "u", "web")] rfl rfl).2 "T1" "T2" "u" "web"
      (by simp) (by simp) h.1 h.2) (by decide)⟩

/-- C28, evaluated where it fails: the history of the one call `Login("a:b", "web")`,
which returns the new token `"T1"`, leads from the empty storage to a storage in
which the account entry of `("a", "b:web")` holds `"T1"` while the token entry of
`"T1"` is present and holds `"a:b"`, not `"a"`. -/
theorem account_entry_token_of_other_login_id :
    exampleManager.run (Storage.empty, []) [.Login (constGenerate "T1") 7 "a:b" ["web"]] =
      some (colonIDStorage, [("T1", "a:b", "web")]) ∧
    (colonIDStorage.find (exampleManager.getAccountKey "a" "b:web")).map Entry.value =
      some (.value (.str "T1")) ∧
    (colonIDStorage.find (exampleManager.getTokenKey "T1")).map Entry.value =
      some (.value (.str "a:b")) ∧
    "a:b" ≠ "a" :=
  ⟨rfl, rfl, rfl, by decide⟩

/-- C31: for every manager, so for every fixed key prefix, the three key namespaces
are pairwise disjoint: for all strings `t`, `u`, `d`, `v` the keys `getTokenKey(t)`,
`getAccountKey(u, d)` and `getDisableKey(v)` are pairwise different, so a write
under a key of one namespace leaves the entries under the keys of the two others
as they were. The prefix made by `NewManager` from an empty configured prefix is
`"satoken"`. -/
theorem key_namespaces_disjoint (m : Manager) (t u d v : String) :
    m.getTokenKey t = m.keyPrefix ++ "token:" ++ t ∧
    m.getAccountKey u d = m.keyPrefix ++ "account:" ++ u ++ ":" ++ d ∧
    m.getDisableKey v = m.keyPrefix ++ "disable:" ++ v ∧
    m.getTokenKey t ≠ m.getAccountKey u d ∧
    m.getTokenKey t ≠ m.getDisableKey v ∧
    m.getAccountKey u d ≠ m.getDisableKey v ∧
    (∀ (s : Storage) (x : Stored) (ttl : Int),
      (s.Set (m.getTokenKey t) x ttl).2.find (m.getAccountKey u d) =
        s.find (m.getAccountKey u d) ∧
      (s.Set (m.getTokenKey t) x ttl).2.find (m.getDisableKey v) =
        s.find (m.getDisableKey v) ∧
      (s.Set (m.getAccountKey u d) x ttl).2.find (m.getTokenKey t) =
        s.find (m.getTokenKey t) ∧
      (s.Set (m.getAccountKey u d) x ttl).2.find (m.getDisableKey v) =
        s.find (m.getDisableKey v) ∧
      (s.Set (m.getDisableKey v) x ttl).2.find (m.getTokenKey t) =
        s.find (m.getTokenKey t) ∧
      (s.Set (m.getDisableKey v) x ttl).2.find (m.getAccountKey u d) =
        s.find (m.getAccountKey u d)) ∧
    (∀ cfg : Config, (NewManager { cfg with KeyPrefix := "" }).keyPrefix = "satoken") := by
  have h1 := Manager.tokenKey_ne_accountKey m t u d
  have h2 := Manager.tokenKey_ne_disableKey m t v
  have h3 := Manager.accountKey_ne_disableKey m u d v
  refine ⟨rfl, rfl, rfl, h1, h2, h3, ?_, fun _ => rfl⟩
  intro s x ttl
  exact ⟨Storage.find_Set_ne _ _ _ _ _ h1.symm, Storage.find_Set_ne _ _ _ _ _ h2.symm,
    Storage.find_Set_ne _ _ _ _ _ h1, Storage.find_Set_ne _ _ _ _ _ h3.symm,
    Storage.find_Set_ne _ _ _ _ _ h2, Storage.find_Set_ne _ _ _ _ _ h3⟩

/-- C35: `Disable` does not log anyone out. For every login ID `u` and duration,
`Disable(u, ttl)` leaves every entry but the disable entry of `u` as it was; so
for every token `IsLogin` and `GetLoginID` return what they returned before the
call, and every account entry, and what `GetTokenValue` reads from it, is
unchanged. -/
theorem Disable_keeps_logins (m : Manager) (s : Storage) (u : String) (ttl : Int) :
    (∀ k, k ≠ m.getDisableKey u → (m.Disable s u ttl).2.find k = s.find k) ∧
    (∀ t, m.IsLogin (m.Disable s u ttl).2 t = m.IsLogin s t ∧
      m.GetLoginID (m.Disable s u ttl).2 t = m.GetLoginID s t) ∧
    (∀ u2 d, (m.Disable s u ttl).2.find (m.getAccountKey u2 d) = s.find (m.getAccountKey u2 d)) ∧
    (∀ u2 d, m.GetTokenValue (m.Disable s u ttl).2 u2 d = m.GetTokenValue s u2 d) := by
  unfold Manager.Disable
  refine ⟨?_, ?_, ?_, ?_⟩
  · intro k hk
    exact Storage.find_Set_ne _ _ _ _ _ hk
  · intro t
    exact Manager.GetLoginID_congr m s _ t
      (Storage.Get_Set_ne _ _ _ _ _ (Manager.tokenKey_ne_disableKey m t u))
      (Storage.Exists_Set_ne _ _ _ _ _ (Manager.tokenKey_ne_disableKey m t u))
  · intro u2 d
    exact Storage.find_Set_ne _ _ _ _ _ (Manager.accountKey_ne_disableKey m u2 d u)
  · intro u2 d
    simp only [Manager.GetTokenValue]
    rw [Storage.Get_Set_ne _ _ _ _ _ (Manager.accountKey_ne_disableKey m u2 _ u)]

/-- C37, evaluated where it fails: for the configured timeout 9223372037 seconds,
`getExpiration` returns -9223372036709551616 nanoseconds, a negative duration that
is not 9223372037 * 1,000,000,000: the product with `time.Second` wraps around in
64 bits. For the timeouts 9223372036 (the largest that fits), 3600, 0 and -5 the
result is as claimed. -/
theorem getExpiration_wraps_around :
    hugeTimeoutManager.config.Timeout = 9223372037 ∧
    hugeTimeoutManager.getExpiration = -9223372036709551616 ∧
    hugeTimeoutManager.getExpiration < 0 ∧
    hugeTimeoutManager.getExpiration ≠ 9223372037 * 1000000000 ∧
    (-2 ^ 63 ≤ (9223372037 : Int) ∧ (9223372037 : Int) < 2 ^ 63) ∧
    (timeoutManager 9223372036).getExpiration = 9223372036 * 1000000000 ∧
    (timeoutManager 3600).getExpiration = 3600 * 1000000000 ∧
    (timeoutManager 0).getExpiration = 0 ∧
    (timeoutManager (-5)).getExpiration = 0 := by
  decide

/-- C34: `LoginByToken` never removes a storage entry and never checks the disable
record. For every `u`, `t`, `d`, on a storage that accepts every write, it returns
nil whether `u` is disabled or not, and leaves the disable record as it was;
every key that had an entry still has one; every token that was logged in is
still logged in; and for every token other than `t`, `IsLogin` and `GetLoginID`
return what they returned before. The manager is arbitrary, so this holds also
when concurrent login is not allowed. -/
theorem LoginByToken_keeps_entries (m : Manager) (s : Storage) (u t : String)
    (d : List String) (hset : ∀ k, s.failSet k = none) :
    (m.LoginByToken s u t d).1 = none ∧
    m.IsDisable (m.LoginByToken s u t d).2 u = m.IsDisable s u ∧
    (∀ k, s.find k ≠ none → (m.LoginByToken s u t d).2.find k ≠ none) ∧
    (∀ t1, m.IsLogin s t1 = true → m.IsLogin (m.LoginByToken s u t d).2 t1 = true) ∧
    (∀ t1, t1 ≠ t →
      m.IsLogin (m.LoginByToken s u t d).2 t1 = m.IsLogin s t1 ∧
      m.GetLoginID (m.LoginByToken s u t d).2 t1 = m.GetLoginID s t1) := by
  have hkeep : ∀ k, s.find k ≠ none → (m.LoginByToken s u t d).2.find k ≠ none := by
    intro k hk
    rcases Manager.LoginByToken_snd_cases m s u t d with h | h <;> rw [h]
    · exact Storage.find_Set_ne_none _ _ _ _ _ hk
    · exact Storage.find_Set_ne_none _ _ _ _ _ (Storage.find_Set_ne_none _ _ _ _ _ hk)
  refine ⟨?_, ?_, hkeep, ?_, ?_⟩
  · simp only [Manager.LoginByToken]
    rw [Storage.Set_pair s _ _ _ (hset _)]
    simp only []
    rw [Storage.Set_fst, Storage.Set_failSet]
    exact hset _
  · unfold Manager.IsDisable Storage.Exists
    rcases Manager.LoginByToken_snd_cases m s u t d with h | h <;> rw [h]
    · rw [Storage.find_Set_ne _ _ _ _ _
        (fun e => Manager.tokenKey_ne_disableKey m t u e.symm)]
    · rw [Storage.find_Set_ne _ _ _ _ _ (fun e => Manager.accountKey_ne_disableKey m u _ u e.symm),
        Storage.find_Set_ne _ _ _ _ _ (fun e => Manager.tokenKey_ne_disableKey m t u e.symm)]
  · intro t1 h1
    rw [Manager.IsLogin_eq] at h1 ⊢
    simp only [Bool.and_eq_true, decide_eq_true_eq] at h1 ⊢
    refine ⟨h1.1, ?_⟩
    have h2 := hkeep (m.getTokenKey t1) (by
      intro hn; rw [hn] at h1; exact absurd h1.2 (by simp))
    exact Option.isSome_iff_ne_none.2 h2
  · intro t1 hne
    have hk : m.getTokenKey t1 ≠ m.getTokenKey t := fun e => hne (Manager.tokenKey_inj m _ _ e)
    have hk2 := Manager.tokenKey_ne_accountKey m t1 u (Manager.getDevice d)
    rcases Manager.LoginByToken_snd_cases m s u t d with h | h <;> rw [h]
    · exact Manager.GetLoginID_congr m s _ t1 (Storage.Get_Set_ne _ _ _ _ _ hk)
        (Storage.Exists_Set_ne _ _ _ _ _ hk)
    · exact Manager.GetLoginID_congr m s _ t1
        (by rw [Storage.Get_Set_ne _ _ _ _ _ hk2, Storage.Get_Set_ne _ _ _ _ _ hk])
        (by rw [Storage.Exists_Set_ne _ _ _ _ _ hk2, Storage.Exists_Set_ne _ _ _ _ _ hk])

/-- C34, at a concrete input: `"u"` is logged in with `"T1"` on the default device and
disabled, and concurrent login is not allowed; `LoginByToken("u", "T2")` on the
same device returns nil, and `"T1"` and `"T2"` are both logged in afterwards. -/
theorem LoginByToken_keeps_entries_witness :
    exampleManager.config.IsConcurrent = false ∧
    exampleManager.IsDisable disabledLoggedInStorage "u" = true ∧
    exampleManager.IsLogin disabledLoggedInStorage "T1" = true ∧
    (exampleManager.LoginByToken disabledLoggedInStorage "u" "T2" []).1 = none ∧
    exampleManager.IsLogin (exampleManager.LoginByToken disabledLoggedInStorage "u" "T2" []).2
      "T1" = true ∧
    exampleManager.IsLogin (exampleManager.LoginByToken disabledLoggedInStorage "u" "T2" []).2
      "T2" = true ∧
    exampleManager.GetLoginID (exampleManager.LoginByToken disabledLoggedInStorage "u" "T2" []).2
      "T1" = ("u", none) :=
  ⟨rfl, by decide, by decide,
    (LoginByToken_keeps_entries exampleManager disabledLoggedInStorage "u" "T2" []
      (fun _ => rfl)).1,
    (LoginByToken_keeps_entries exampleManager disabledLoggedInStorage "u" "T2" []
      (fun _ => rfl)).2.2.2.1 "T1" (by decide),
    by decide, by decide⟩

/-- C32: `Login` is not atomic on failure. For every login ID `u` and device `d`
(`u` not disabled, the generator returning a non-empty token `t`), if the write
of the token entry succeeds and the write of the account entry fails with `e`,
then `Login` returns the empty token and an error around `e`, while the token
entry `t -> u` is in the storage and `IsLogin(t)` is true; the account entry of
`(u, d)` is as it was before the call; and, when concurrent login is not
allowed, the previous token `t1` of `(u, d)`, which the account entry still
holds, is no longer logged in (its read and the delete being served, `t1`
other than `t`). -/
theorem Login_not_atomic (m : Manager) (generate : Generate) (now : Int)
    (s : Storage) (u : String) (d : List String) (t : String) (e : Error)
    (hdis : m.IsDisable s u = false) (hgen : generate u (Manager.getDevice d) = .ok t)
    (ht : t ≠ "")
    (htok : s.failSet (m.getTokenKey t) = none)
    (hacc : s.failSet (m.getAccountKey u (Manager.getDevice d)) = some e) :
    (m.Login generate now s u d).1 = ("", some (.wrap "failed to save account mapping" e)) ∧
    (m.Login generate now s u d).2.find (m.getTokenKey t) =
      some ⟨.value (.str u), m.getExpiration⟩ ∧
    m.IsLogin (m.Login generate now s u d).2 t = true ∧
    (m.Login generate now s u d).2.find (m.getAccountKey u (Manager.getDevice d)) =
      s.find (m.getAccountKey u (Manager.getDevice d)) ∧
    (m.config.IsConcurrent = false → ∀ (t1 : String) (ttl : Int),
      s.find (m.getAccountKey u (Manager.getDevice d)) = some ⟨.value (.str t1), ttl⟩ →
      s.failGet (m.getAccountKey u (Manager.getDevice d)) = none →
      s.failDelete (m.getTokenKey t1) = none → t1 ≠ t →
      m.IsLogin (m.Login generate now s u d).2 t1 = false) := by
  rw [Manager.Login_account_write_fails m generate now s u d t e hdis hgen htok hacc]
  have h1set : (if (!m.config.IsConcurrent) = true then
      (m.kickout s u (Manager.getDevice d)).2 else s).failSet = s.failSet := by
    split <;> simp
  have hA : (if (!m.config.IsConcurrent) = true then
      (m.kickout s u (Manager.getDevice d)).2 else s).failSet (m.getTokenKey t) = none := by
    rw [h1set]; exact htok
  have hfind := Storage.find_Set_self _ (m.getTokenKey t) (.value (.str u)) m.getExpiration hA
  refine ⟨rfl, hfind, ?_, ?_, ?_⟩
  · simp only [Manager.IsLogin_eq, hfind]
    simp [ht]
  · simp only []
    rw [Storage.find_Set_ne _ _ _ _ _
      (fun e2 => Manager.tokenKey_ne_accountKey m t u _ e2.symm)]
    split
    · rw [Manager.kickout_find_ne]
      intro t0 _ e2
      exact Manager.tokenKey_ne_accountKey m t0 u _ e2.symm
    · rfl
  · intro hc t1 ttl hprev hget hdel hne
    simp only [hc, Bool.not_false, if_true]
    rw [Manager.IsLogin_eq,
      Storage.find_Set_ne _ _ _ _ _ (fun e2 => hne (Manager.tokenKey_inj m _ _ e2)),
      Manager.kickout_of_find m s u _ t1 ttl hget hprev, Storage.find_Delete_self _ _ hdel]
    simp

/-- C32, at a concrete input: `"u"` is logged in with `"T1"`, then the write of the
account entry fails during a second login that generates `"T2"`: the caller gets
an error, `"T2"` is logged in, `"T1"` is not, and `GetTokenValue` still returns
`"T1"`. -/
theorem Login_not_atomic_witness :
    exampleManager.config.IsConcurrent = false ∧
    exampleManager.IsLogin accountWriteFailStorage "T1" = true ∧
    (exampleManager.Login (constGenerate "T2") 8 accountWriteFailStorage "u" []).1 =
      ("", some (.wrap "failed to save account mapping" (.message "i/o failure"))) ∧
    exampleManager.IsLogin
      (exampleManager.Login (constGenerate "T2") 8 accountWriteFailStorage "u" []).2 "T2" =
        true ∧
    exampleManager.IsLogin
      (exampleManager.Login (constGenerate "T2") 8 accountWriteFailStorage "u" []).2 "T1" =
        false ∧
    exampleManager.GetTokenValue
      (exampleManager.Login (constGenerate "T2") 8 accountWriteFailStorage "u" []).2 "u" [] =
        ("T1", none) :=
  ⟨rfl, by decide,
    (Login_not_atomic exampleManager (constGenerate "T2") 8 accountWriteFailStorage "u" []
      "T2" (.message "i/o failure") (by decide) rfl (by decide) (by decide) (by decide)).1,
    (Login_not_atomic exampleManager (constGenerate "T2") 8 accountWriteFailStorage "u" []
      "T2" (.message "i/o failure") (by decide) rfl (by decide) (by decide) (by decide)).2.2.1,
    (Login_not_atomic exampleManager (constGenerate "T2") 8 accountWriteFailStorage "u" []
      "T2" (.message "i/o failure") (by decide) rfl (by decide) (by decide)
      (by decide)).2.2.2.2 rfl "T1" (3600 * Second) (by decide) rfl rfl (by decide),
    by decide⟩

/-- C36: the auto-renew side effect of `IsLogin` touches only the TTL of the token
entry. For every token `t`, `IsLogin(t)` returns the same boolean whatever the
auto-renew setting is; the storage after the renewal goroutine (`IsLoginRenew`)
holds the same value under every key, and the same entry, TTL included, under
every key other than the token key of `t`, so under every account key; and
`IsLogin(t)` is the same after it. The entry under the token key gets the TTL
`getExpiration` exactly when `t` is logged in, auto-renew is on, the timeout is
positive and `Expire` is served: for `"T1"`, written with a one-hour TTL like its
account entry, a manager with auto-renew and a two-hour timeout gives the token
entry two hours and leaves the account entry its hour. -/
theorem IsLogin_renew_ttl_only (m : Manager) (s : Storage) (t : String) (b : Bool) :
    ({ m with config := { m.config with AutoRenew := b } } : Manager).IsLogin s t =
      m.IsLogin s t ∧
    (∀ k, ((m.IsLoginRenew s t).find k).map Entry.value = (s.find k).map Entry.value) ∧
    (∀ k, k ≠ m.getTokenKey t → (m.IsLoginRenew s t).find k = s.find k) ∧
    (∀ u d, (m.IsLoginRenew s t).find (m.getAccountKey u d) = s.find (m.getAccountKey u d)) ∧
    m.IsLogin (m.IsLoginRenew s t) t = m.IsLogin s t ∧
    (m.IsLoginRenew s t).find (m.getTokenKey t) =
      (if m.IsLogin s t = true ∧ m.config.AutoRenew = true ∧ m.config.Timeout > 0 ∧
          s.failExpire (m.getTokenKey t) = none then
        (s.find (m.getTokenKey t)).map (fun e => ⟨e.value, m.getExpiration⟩)
      else s.find (m.getTokenKey t)) ∧
    (renewManager.IsLoginRenew loggedInStorage "T1").find "satokentoken:T1" =
      some ⟨.value (.str "u"), 7200 * Second⟩ ∧
    (renewManager.IsLoginRenew loggedInStorage "T1").find "satokenaccount:u:default" =
      some ⟨.value (.str "T1"), 3600 * Second⟩ := by
  have hval : ∀ k, ((m.IsLoginRenew s t).find k).map Entry.value =
      (s.find k).map Entry.value := by
    intro k
    rcases Manager.IsLoginRenew_cases m s t with h | h <;> rw [h]
    exact Storage.find_Expire_value _ _ _ _
  have hne : ∀ k, k ≠ m.getTokenKey t → (m.IsLoginRenew s t).find k = s.find k := by
    intro k hk
    rcases Manager.IsLoginRenew_cases m s t with h | h <;> rw [h]
    exact Storage.find_Expire_ne _ _ _ _ hk
  refine ⟨rfl, hval, hne, ?_, ?_, ?_, by decide, by decide⟩
  · intro u d
    exact hne _ (fun e => Manager.tokenKey_ne_accountKey m t u d e.symm)
  · rw [Manager.IsLogin_eq, Manager.IsLogin_eq]
    have h := hval (m.getTokenKey t)
    cases h1 : (m.IsLoginRenew s t).find (m.getTokenKey t) <;>
      cases h2 : s.find (m.getTokenKey t) <;> simp [h1, h2] at h ⊢
  · by_cases hl : m.IsLogin s t = true
    · have hl2 := hl
      simp only [Manager.IsLogin] at hl2
      by_cases ht : t = ""
      · simp [ht] at hl2
      · by_cases hex : (!s.Exists (m.getTokenKey t)) = true
        · simp [ht, hex] at hl2
        · by_cases hr : m.config.AutoRenew = true ∧ m.config.Timeout > 0
          · cases hf : s.failExpire (m.getTokenKey t) with
            | some e =>
              simp only [Manager.IsLoginRenew, Manager.renewToken, if_neg ht, if_neg hex, if_pos hr,
                Storage.Expire_fail s _ _ e hf]
              simp
            | none =>
              simp only [Manager.IsLoginRenew, Manager.renewToken, if_neg ht, if_neg hex, if_pos hr]
              rw [Storage.find_Expire s _ _ _ hf, if_pos rfl, if_pos ⟨hl, hr.1, hr.2, trivial⟩]
          · have hcond : ¬ (m.IsLogin s t = true ∧ m.config.AutoRenew = true ∧
                m.config.Timeout > 0 ∧ s.failExpire (m.getTokenKey t) = none) :=
              fun hc => hr ⟨hc.2.1, hc.2.2.1⟩
            simp only [Manager.IsLoginRenew, if_neg ht, if_neg hex, if_neg hr, if_neg hcond]
    · have hcond : ¬ (m.IsLogin s t = true ∧ m.config.AutoRenew = true ∧
          m.config.Timeout > 0 ∧ s.failExpire (m.getTokenKey t) = none) :=
        fun hc => hl hc.1
      rw [if_neg hcond]
      have hs : m.IsLoginRenew s t = s := by
        simp only [Manager.IsLogin] at hl
        simp only [Manager.IsLoginRenew]
        by_cases ht : t = ""
        · rw [if_pos ht]
        · rw [if_neg ht]
          by_cases hex : (!s.Exists (m.getTokenKey t)) = true
          · rw [if_pos hex]
          · simp [ht, hex] at hl
      rw [hs]

/-- C33: `Login` updates the shared session of the identity without losing what it
holds. For every login ID `u` and lists `ps`, `rs`, on a storage that serves the
read and the write of the session of `u` (a session stored under the key of `u`
carrying the ID `u`): `SetPermissions(u, ps)` and `SetRoles(u, rs)` return nil,
and after a following successful `Login(u, d)` `GetPermissions(u)` is `ps` and
`GetRoles(u)` is `rs`, as before it; the session holds `loginId`, `device` and
`loginTime`, and every other entry of it is as before the login. -/
theorem Login_keeps_permissions_and_roles (m : Manager) (g : Generate) (now : Int)
    (s : Storage) (u : String) (d : List String) (ps rs : List String) (t : String)
    (hget : s.failGet (m.keyPrefix ++ SessionKeyPrefix ++ u) = none)
    (hset : s.failSet (m.keyPrefix ++ SessionKeyPrefix ++ u) = none)
    (hwf : ∀ sid data ttl, s.find (m.keyPrefix ++ SessionKeyPrefix ++ u) =
      some ⟨.session sid data, ttl⟩ → sid = u)
    (hok : (m.Login g now (m.SetRoles (m.SetPermissions s u ps).2 u rs).2 u d).1 = (t, none)) :
    (m.SetPermissions s u ps).1 = none ∧
    (m.SetRoles (m.SetPermissions s u ps).2 u rs).1 = none ∧
    m.GetPermissions (m.SetRoles (m.SetPermissions s u ps).2 u rs).2 u = (ps, none) ∧
    m.GetRoles (m.SetRoles (m.SetPermissions s u ps).2 u rs).2 u = (rs, none) ∧
    m.GetPermissions (m.Login g now (m.SetRoles (m.SetPermissions s u ps).2 u rs).2 u d).2 u = (ps, none) ∧
    m.GetRoles (m.Login g now (m.SetRoles (m.SetPermissions s u ps).2 u rs).2 u d).2 u = (rs, none) ∧
    (m.GetSession (m.Login g now (m.SetRoles (m.SetPermissions s u ps).2 u rs).2 u d).2 u).1.Get
      SessionKeyLoginID = some (.str u) ∧
    (m.GetSession (m.Login g now (m.SetRoles (m.SetPermissions s u ps).2 u rs).2 u d).2 u).1.Get
      SessionKeyDevice = some (.str (Manager.getDevice d)) ∧
    (m.GetSession (m.Login g now (m.SetRoles (m.SetPermissions s u ps).2 u rs).2 u d).2 u).1.Get
      SessionKeyLoginTime = some (.int now) ∧
    (∀ key, key ≠ SessionKeyLoginID → key ≠ SessionKeyDevice → key ≠ SessionKeyLoginTime →
      (m.GetSession (m.Login g now (m.SetRoles (m.SetPermissions s u ps).2 u rs).2 u d).2 u).1.Get key =
        (m.GetSession (m.SetRoles (m.SetPermissions s u ps).2 u rs).2 u).1.Get key) := by
  have hP := Manager.SetPermissions_served m s u ps hget hset hwf
  have hg1 : (m.SetPermissions s u ps).2.failGet (m.keyPrefix ++ SessionKeyPrefix ++ u) = none := by
    rw [hP, Storage.Set_failGet]; exact hget
  have hs1 : (m.SetPermissions s u ps).2.failSet (m.keyPrefix ++ SessionKeyPrefix ++ u) = none := by
    rw [hP, Storage.Set_failSet]; exact hset
  have hf1 : (m.SetPermissions s u ps).2.find (m.keyPrefix ++ SessionKeyPrefix ++ u) =
      some ⟨.session u ((SessionKeyPermissions, .strSlice ps) ::
        removeKey SessionKeyPermissions (m.GetSession s u).1.Data), 0⟩ := by
    rw [hP]; exact Storage.find_Set_self _ _ _ _ hset
  have hwf1 : ∀ sid data ttl, (m.SetPermissions s u ps).2.find (m.keyPrefix ++ SessionKeyPrefix ++ u) =
      some ⟨.session sid data, ttl⟩ → sid = u := by
    intro sid data ttl h
    rw [hf1] at h
    cases h
    rfl
  have hG1 := Manager.GetSession_of_stored m (m.SetPermissions s u ps).2 u u _ 0 hg1 hf1
  have hR := Manager.SetRoles_served m (m.SetPermissions s u ps).2 u rs hg1 hs1 hwf1
  rw [hG1] at hR
  have hg2 : (m.SetRoles (m.SetPermissions s u ps).2 u rs).2.failGet (m.keyPrefix ++ SessionKeyPrefix ++ u) = none := by
    rw [hR, Storage.Set_failGet]; exact hg1
  have hs2 : (m.SetRoles (m.SetPermissions s u ps).2 u rs).2.failSet (m.keyPrefix ++ SessionKeyPrefix ++ u) = none := by
    rw [hR, Storage.Set_failSet]; exact hs1
  have hf2 : (m.SetRoles (m.SetPermissions s u ps).2 u rs).2.find (m.keyPrefix ++ SessionKeyPrefix ++ u) =
      some ⟨.session u ((SessionKeyRoles, .strSlice rs) :: removeKey SessionKeyRoles
        ((SessionKeyPermissions, .strSlice ps) ::
          removeKey SessionKeyPermissions (m.GetSession s u).1.Data)), 0⟩ := by
    rw [hR]; exact Storage.find_Set_self _ _ _ _ hs1
  have hG2 := Manager.GetSession_of_stored m (m.SetRoles (m.SetPermissions s u ps).2 u rs).2 u u _ 0 hg2 hf2
  have hperm : (m.GetSession (m.SetRoles (m.SetPermissions s u ps).2 u rs).2 u).1.Get SessionKeyPermissions =
      some (.strSlice ps) := by
    rw [hG2]
    simp only [Session.Get]
    rw [lookupKey_cons_removeKey, if_neg (by decide), lookupKey_cons_removeKey, if_pos rfl]
  have hrole : (m.GetSession (m.SetRoles (m.SetPermissions s u ps).2 u rs).2 u).1.Get SessionKeyRoles =
      some (.strSlice rs) := by
    rw [hG2]
    simp only [Session.Get]
    rw [lookupKey_cons_removeKey, if_pos rfl]
  have hframe := Manager.Login_session_frame m g now (m.SetRoles (m.SetPermissions s u ps).2 u rs).2 u d t hok hg2 hs2
  have hperm3 := hframe SessionKeyPermissions
  rw [if_neg (by decide), if_neg (by decide), if_neg (by decide), hperm] at hperm3
  have hrole3 := hframe SessionKeyRoles
  rw [if_neg (by decide), if_neg (by decide), if_neg (by decide), hrole] at hrole3
  refine ⟨by rw [hP], by rw [hR], ?_, ?_, ?_, ?_, ?_, ?_, ?_, ?_⟩
  · rw [(Manager.GetPermissions_eq_Get m _ u).1, hperm]; rfl
  · rw [(Manager.GetPermissions_eq_Get m _ u).2, hrole]; rfl
  · rw [(Manager.GetPermissions_eq_Get m _ u).1, hperm3]; rfl
  · rw [(Manager.GetPermissions_eq_Get m _ u).2, hrole3]; rfl
  · rw [hframe SessionKeyLoginID, if_neg (by decide), if_neg (by decide), if_pos rfl]
  · rw [hframe SessionKeyDevice, if_neg (by decide), if_pos rfl]
  · rw [hframe SessionKeyLoginTime, if_pos rfl]
  · intro key h1 h2 h3
    rw [hframe key, if_neg (fun e => h3 e.symm), if_neg (fun e => h2 e.symm),
      if_neg (fun e => h1 e.symm)]

/-- C33, at a concrete input: the permissions and roles of the quick-start example
are set for `"1000"` on an empty storage; after the login of `"1000"` on `"web"`
they are read back unchanged. -/
theorem Login_keeps_permissions_and_roles_witness :
    (exampleManager.Login (constGenerate "T1") 7 permissionsRolesStorage "1000" ["web"]).1 =
      ("T1", none) ∧
    exampleManager.GetPermissions
      (exampleManager.Login (constGenerate "T1") 7 permissionsRolesStorage "1000" ["web"]).2
      "1000" = (["user:read", "user:write", "admin:*"], none) ∧
    exampleManager.GetRoles
      (exampleManager.Login (constGenerate "T1") 7 permissionsRolesStorage "1000" ["web"]).2
      "1000" = (["admin", "manager"], none) ∧
    (exampleManager.Login (constGenerate "T1") 7 permissionsRolesStorage "1000" ["web"]).2.find
      "satokensession:1000" =
      some ⟨.session "1000" [("loginTime", .int 7), ("device", .str "web"),
        ("loginId", .str "1000"), ("roles", .strSlice ["admin", "manager"]),
        ("permissions", .strSlice ["user:read", "user:write", "admin:*"])], 0⟩ :=
  ⟨rfl,
    (Login_keeps_permissions_and_roles exampleManager (constGenerate "T1") 7 Storage.empty
      "1000" ["web"] ["user:read", "user:write", "admin:*"] ["admin", "manager"] "T1"
      rfl rfl (fun _ _ _ h => nomatch h) rfl).2.2.2.2.1,
    (Login_keeps_permissions_and_roles exampleManager (constGenerate "T1") 7 Storage.empty
      "1000" ["web"] ["user:read", "user:write", "admin:*"] ["admin", "manager"] "T1"
      rfl rfl (fun _ _ _ h => nomatch h) rfl).2.2.2.2.2.1,
    by decide⟩


end SaToken
